import Mathlib

/-! Embedded 3D scene overlay of the Okular PDF generator.

A shallow embedding of the custom additions to `generator_pdf.cpp` /
`generator_pdf.h`: the camera state driven by pointer input, the debounced
refresh request, the render pass with its scene cache (decompression, scene
load, projection, rasterization, row copy), and the compositing of the
rasterised scene into the page image (full page or tile).

Conventions of the embedding.

* `float`/`double` values are elements of a linearly ordered field `F`
  (exact arithmetic, no rounding, no NaN); the C library functions are passed
  in a record `LibM F`, and `glm::rotate` and the Arcball in a record `Glm F`;
  `glm::translate`, `glm::inverse` and `glm::frustumRH_ZO` are written out as
  GLM defines them.
* `int` values are `Int` (no overflow: the coordinates are pixel positions).
* Member variables keep their C++ names; a member function becomes a function
  from the object state to the object state.
* A C++ exception is the `Except.error` result of the function it leaves.
-/

namespace Okular

/-! ## Loops -/

/-- The loop `for (int x = x0; x < x0 + n; ++x) body(x)`; the trip count `n`
is computed by the caller from the loop bounds. -/
def forUp {S : Type} (body : Int → S → S) : Int → Nat → S → S
  | _, 0, s => s
  | x, n + 1, s => forUp body (x + 1) n (body x s)

/-- The loop `for (int y = y0; y > y0 - n; --y) body(y)`; the trip count `n`
is computed by the caller from the loop bounds. -/
def forDown {S : Type} (body : Int → S → S) : Int → Nat → S → S
  | _, 0, s => s
  | y, n + 1, s => forDown body (y - 1) n (body y s)

/-! ## Images and the packed source buffer -/

/-- A `QImage` as far as the overlay code uses it: its size and the `QRgb`
value of each pixel. -/
@[ext]
structure QImage where
  width : Int
  height : Int
  pixel : Int → Int → Nat

/-- The call `img.setPixel(x, y, v)`. Qt ignores (with a warning) a position
outside the image. -/
def QImage.setPixel (img : QImage) (x y : Int) (v : Nat) : QImage :=
  if x < 0 ∨ x ≥ img.width ∨ y < 0 ∨ y ≥ img.height then img
  else { img with pixel := fun a b => if a = x ∧ b = y then v else img.pixel a b }

/-- The vector `vectorData` of packed source bytes. `operator[]` outside the
vector is undefined behaviour in C++; the embedding makes whatever such a read
yields an explicit function `beyond`, so that every statement holds for every
content of the memory around the vector. Each render pass builds its own
vector, so a statement about two passes takes one `beyond` for each. -/
structure VectorData where
  bytes : List Nat
  beyond : Int → Nat

/-- The read `vectorData[k]`. -/
def VectorData.read (v : VectorData) (k : Int) : Nat :=
  if 0 ≤ k ∧ k < v.bytes.length then v.bytes.getD k.toNat 0 else v.beyond k

/-- The value `qRgb(r, g, b)` of Qt: `0xff000000 | r << 16 | g << 8 | b`. -/
def qRgb (r g b : Nat) : Nat :=
  0xff000000 + (r % 256) * 65536 + (g % 256) * 256 + b % 256

/-- The expression `QColor(r, g, b, a).rgb()`: `QColor::rgb()` returns the
colour with an opaque alpha, whatever `a` is. -/
def QColor_rgb (r g b _a : Nat) : Nat := qRgb r g b

/-- The colour built from the four bytes at `k`:
`QColor(vectorData[k + 0], vectorData[k + 1], vectorData[k + 2], vectorData[k + 3]).rgb()`. -/
def colourAt (v : VectorData) (k : Int) : Nat :=
  QColor_rgb (v.read (k + 0)) (v.read (k + 1)) (v.read (k + 2)) (v.read (k + 3))

/-- An integer vector `glm::ivec2`. -/
structure IVec2 where
  x : Int
  y : Int
  deriving DecidableEq

/-! ## Compositing (`PDFGenerator::image`, custom part) -/

/-- Body of the inner loop of the full-page branch; the state is the running
index `k` and the destination image `img`. -/
def fullPageBody (v : VectorData) (y x : Int) (s : Int × QImage) : Int × QImage :=
  if x < 0 ∨ x ≥ s.2.width ∨ y < 0 ∨ y ≥ s.2.height then
    (s.1 + 4, s.2)
  else
    (s.1 + 4, s.2.setPixel x y (colourAt v s.1))

/-- The full-page branch (`!isTile`):
`int k = 0; for (y = yMax; y >= yMin; --y) for (x = xMin; x < xMax; ++x) ...`. -/
def compositeFullPage (v : VectorData) (xMin xMax yMin yMax : Int) (img : QImage) : QImage :=
  (forDown (fun y s => forUp (fullPageBody v y) xMin (xMax - xMin).toNat s)
    yMax (yMax - yMin + 1).toNat (0, img)).2

/-- Body of the inner loop of the tile branch. -/
def tileBody (v : VectorData) (imageTileSizeMin imageTileSizeMax
    annotationSizeMin annotationSizeMax : IVec2) (y x : Int) (s : Int × QImage) :
    Int × QImage :=
  let inTile : Bool := x ≥ imageTileSizeMin.x ∧ x < imageTileSizeMax.x ∧
    y ≥ imageTileSizeMin.y ∧ y < imageTileSizeMax.y
  let inAnnot : Bool := x ≥ annotationSizeMin.x ∧ x < annotationSizeMax.x ∧
    y ≥ annotationSizeMin.y ∧ y < annotationSizeMax.y
  let k := if inAnnot then s.1 + 4 else s.1
  if inTile ∧ inAnnot then
    (k, s.2.setPixel (x - imageTileSizeMin.x) (y - imageTileSizeMin.y) (colourAt v k))
  else
    (k, s.2)

/-- The tile branch:
`int k = -4; for (y = requestSizeMax.y; y >= 0; --y) for (x = 0; x < requestSizeMax.x; ++x) ...`. -/
def compositeTile (v : VectorData) (requestSizeMax imageTileSizeMin imageTileSizeMax
    annotationSizeMin annotationSizeMax : IVec2) (img : QImage) : QImage :=
  (forDown (fun y s => forUp (tileBody v imageTileSizeMin imageTileSizeMax
      annotationSizeMin annotationSizeMax y) 0 (requestSizeMax.x - 0).toNat s)
    requestSizeMax.y (requestSizeMax.y - 0 + 1).toNat (-4, img)).2


/-- A rectangle with `double` coordinates, as the overlay code reads it
through `left()`, `right()`, `top()`, `bottom()`: the annotation boundary
(`annotation->boundary().normalized()`) or the tile (`request->normalizedRect()`),
both in page-normalized coordinates. -/
structure RectF where
  left : ℚ
  top : ℚ
  right : ℚ
  bottom : ℚ

/-- Conversion of a `double` to `int`: truncation towards zero. -/
def toInt (q : ℚ) : Int := if 0 ≤ q then ⌊q⌋ else ⌈q⌉

/-- The part of an `Okular::PixmapRequest` the overlay code reads. -/
structure PixmapRequest where
  width : Int
  height : Int
  isTile : Bool
  normalizedRect : RectF

/-- The annotation rectangle in pixels, `(xMin, xMax, yMin, yMax)`:
`int leftPixel = request->width() * left; ...; if (xMin > xMax) std::swap(xMin, xMax); ...`. -/
def annotationPixelRect (request : PixmapRequest) (bound : RectF) : Int × Int × Int × Int :=
  let leftPixel := toInt (request.width * bound.left)
  let rightPixel := toInt (request.width * bound.right)
  let topPixel := toInt (request.height * bound.top)
  let bottomPixel := toInt (request.height * bound.bottom)
  let xMin := if leftPixel > rightPixel then rightPixel else leftPixel
  let xMax := if leftPixel > rightPixel then leftPixel else rightPixel
  let yMin := if topPixel > bottomPixel then bottomPixel else topPixel
  let yMax := if topPixel > bottomPixel then topPixel else bottomPixel
  (xMin, xMax, yMin, yMax)

/-- The compositing step of `PDFGenerator::image` for one annotation: the
rasterised and packed buffer `vectorData` is written into the page image `img`
(the whole page, or the tile the request asks for). -/
def imageOverlay (request : PixmapRequest) (bound : RectF) (vectorData : VectorData)
    (img : QImage) : QImage :=
  let r := annotationPixelRect request bound
  if !request.isTile then
    compositeFullPage vectorData r.1 r.2.1 r.2.2.1 r.2.2.2 img
  else
    compositeTile vectorData ⟨request.width, request.height⟩
      ⟨toInt (request.width * request.normalizedRect.left),
        toInt (request.height * request.normalizedRect.top)⟩
      ⟨toInt (request.width * request.normalizedRect.right),
        toInt (request.height * request.normalizedRect.bottom)⟩
      ⟨toInt (request.width * bound.left), toInt (request.height * bound.top)⟩
      ⟨toInt (request.width * bound.right), toInt (request.height * bound.bottom)⟩ img

/-- The pixel `(x, y)` of a `w × h` destination is written with `c` by the
image transformer `f`: after `f` it holds `c`, whatever it held before. -/
def WritesPixel (f : QImage → QImage) (w h x y : Int) (c : Nat) : Prop :=
  ∀ pix : Int → Int → Nat, (f ⟨w, h, pix⟩).pixel x y = c

/-- The pixel `(x, y)` of a `w × h` destination is left unchanged by `f`. -/
def KeepsPixel (f : QImage → QImage) (w h x y : Int) : Prop :=
  ∀ pix : Int → Int → Nat, (f ⟨w, h, pix⟩).pixel x y = pix x y

/-- Number of integers in `[lo, hi) ∩ [a, b)`. -/
def clipCount (lo hi a b : Int) : Int := max 0 (min hi b - max lo a)

/-- The value the running index `k` of the tile branch has when the pixel at
page coordinate `(x, y)` is written: four times the number of annotation
coordinates traversed before `(x, y)`. -/
def tileIndex (requestSizeMax annotationSizeMin annotationSizeMax : IVec2) (x y : Int) : Int :=
  4 * ((min requestSizeMax.y (annotationSizeMax.y - 1) - y) *
        clipCount 0 requestSizeMax.x annotationSizeMin.x annotationSizeMax.x +
      (x - max 0 annotationSizeMin.x))

/-- The half-open rectangle test the tile branch applies to a page coordinate:
`x >= lo.x && x < hi.x && y >= lo.y && y < hi.y`. -/
def inRect (lo hi : IVec2) (x y : Int) : Prop :=
  x ≥ lo.x ∧ x < hi.x ∧ y ≥ lo.y ∧ y < hi.y

/-- A packed source buffer of 2 × 2 pixels with pairwise distinct colours:
row 0 holds the pixels `(10, 11, 12, 13)` and `(20, 21, 22, 23)`, row 1 the
pixels `(30, 31, 32, 33)` and `(40, 41, 42, 43)`. -/
def sampleSource : VectorData :=
  ⟨[10, 11, 12, 13, 20, 21, 22, 23, 30, 31, 32, 33, 40, 41, 42, 43], fun _ => 0⟩

/-- A 4 × 4 destination image, every pixel `0`. -/
def sampleImage : QImage := ⟨4, 4, fun _ _ => 0⟩

/-- An annotation boundary covering the middle of the page: on a 4 × 4 page its
pixel rectangle is `(1, 1)`-`(3, 3)`. -/
def sampleBound : RectF := ⟨1 / 4, 1 / 4, 3 / 4, 3 / 4⟩

/-! ## Camera state and pointer input -/

/-- A `glm::vec2`. -/
structure Vec2 (F : Type) where
  x : F
  y : F
  deriving DecidableEq

/-- A `glm::vec3`. -/
structure Vec3 (F : Type) where
  x : F
  y : F
  z : F
  deriving DecidableEq

/-- A `glm::mat4`. -/
abbrev Mat4 (F : Type) := Matrix (Fin 4) (Fin 4) F

/-- The constant `std::numeric_limits<float>::max()`, `(2 - 2^-23) * 2^127`. -/
def FLOAT_MAX {F : Type} [Field F] : F := 340282346638528859811704183484516925440

/-- The functions of the C library the camera code calls
(`std::tan`, `std::log`, `std::sqrt`, `std::pow`). -/
structure LibM (F : Type) where
  tan : F → F
  log : F → F
  sqrt : F → F
  pow : F → F → F

/-- The two members of an `Arcball` (declared in `Arcball.h`, outside these
sources) that the camera code reads. -/
structure Arcball (F : Type) where
  angle : F
  axis : Vec3 F

/-- The helpers outside these sources that the rotation code calls:
`glm::rotate(m, angle, axis)` and the constructor `Arcball{ p0, p1 }`. -/
structure Glm (F : Type) where
  rotate : Mat4 F → F → Vec3 F → Mat4 F
  arcball : Vec2 F → Vec2 F → Arcball F

/-- The fields of `V3dFile::headerInfo` the camera code reads. -/
structure HeaderInfo (F : Type) where
  angleOfView : F
  minBound : Vec3 F
  maxBound : Vec3 F
  initialZoom : F
  zoomFactor : F
  zoomStep : F
  viewportShift : Vec2 F

/-- The enumeration `PDFGenerator::DragMode`. -/
inductive DragMode where
  | SHIFT
  | ZOOM
  | PAN
  | ROTATE
  deriving DecidableEq

/-- The structure `PDFGenerator::ViewParam`. -/
structure ViewParam (F : Type) where
  minValues : Vec3 F
  maxValues : Vec3 F

/-- The custom members of `PDFGenerator`. Times are seconds on the system
clock. `shouldZoomIn` is the static local of `refreshPixmap`, and `wheelEvents`
records the synthetic wheel events sent to the page view (the `angleDelta` of
each, every one followed by a synthetic button release). -/
structure PDFGenerator (F : Type) where
  m_LastPixmapRefreshTime : ℚ
  m_MouseDown : Bool
  m_DragMode : DragMode
  m_MousePosition : IVec2
  m_LastMousePosition : IVec2
  m_Zoom : F
  m_LastZoom : F
  xShift : F
  yShift : F
  m_PageViewDimensions : Vec2 F
  m_RotationMatrix : Mat4 F
  m_ViewMatrix : Mat4 F
  m_ProjectionMatrix : Mat4 F
  m_H : F
  m_Center : Vec3 F
  m_Shift : Vec2 F
  m_ViewParam : ViewParam F
  shouldZoomIn : Bool
  wheelEvents : List Int

/-- The member initialiser `m_MinTimeBetweenRefreshes{ 1.0 / 100.0 }`, in seconds. -/
def m_MinTimeBetweenRefreshes : ℚ := 1 / 100

section Camera

variable {F : Type} [LinearOrderedField F]

/-- The object as its constructor leaves it, for a page view of the given
size: the member initialisers of the header, `m_PageViewDimensions` as
`CustomConstructor` sets it, the default-constructed time point (the epoch),
and zero for the members the constructor leaves without a value. -/
def PDFGenerator.constructed (pageViewWidth pageViewHeight : F) : PDFGenerator F where
  m_LastPixmapRefreshTime := 0
  m_MouseDown := false
  m_DragMode := DragMode.ROTATE
  m_MousePosition := ⟨0, 0⟩
  m_LastMousePosition := ⟨0, 0⟩
  m_Zoom := 1
  m_LastZoom := 0
  xShift := 0
  yShift := 0
  m_PageViewDimensions := ⟨pageViewWidth, pageViewHeight⟩
  m_RotationMatrix := 1
  m_ViewMatrix := 1
  m_ProjectionMatrix := 1
  m_H := 0
  m_Center := ⟨0, 0, 0⟩
  m_Shift := ⟨0, 0⟩
  m_ViewParam := ⟨⟨0, 0, 0⟩, ⟨0, 0, 0⟩⟩
  shouldZoomIn := true
  wheelEvents := []

/-- The function `PDFGenerator::initProjection`, with `m_File->headerInfo` passed as
`headerInfo`. -/
def initProjection (lib : LibM F) (headerInfo : HeaderInfo F) (s : PDFGenerator F) :
    PDFGenerator F :=
  { s with
    m_H := -lib.tan (0.5 * headerInfo.angleOfView) * headerInfo.maxBound.z
    m_Center := ⟨0, 0, 0.5 * (headerInfo.minBound.z + headerInfo.maxBound.z)⟩
    m_Zoom := headerInfo.initialZoom
    m_LastZoom := headerInfo.initialZoom
    m_ViewParam :=
      ⟨{ s.m_ViewParam.minValues with z := headerInfo.minBound.z },
        { s.m_ViewParam.maxValues with z := headerInfo.maxBound.z }⟩
    m_Shift := ⟨0, 0⟩ }

/-- The function `PDFGenerator::dragModeShift` (empty body). -/
def dragModeShift (_normalizedMousePosition _lastNormalizedMousePosition : Vec2 F)
    (s : PDFGenerator F) : PDFGenerator F := s

/-- The function `PDFGenerator::dragModeZoom`. -/
def dragModeZoom (lib : LibM F) (headerInfo : HeaderInfo F)
    (normalizedMousePosition lastNormalizedMousePosition : Vec2 F) (s : PDFGenerator F) :
    PDFGenerator F :=
  let diff := lastNormalizedMousePosition.y - normalizedMousePosition.y
  let stepPower := headerInfo.zoomStep * (s.m_PageViewDimensions.y / 2) * diff
  let limit := lib.log (0.1 * FLOAT_MAX) / lib.log headerInfo.zoomFactor
  if |stepPower| < limit then
    let zoom := s.m_Zoom * lib.pow headerInfo.zoomFactor stepPower
    let maxZoom := lib.sqrt FLOAT_MAX
    let minZoom := 1 / maxZoom
    if zoom ≤ minZoom then { s with m_Zoom := minZoom }
    else if zoom ≥ maxZoom then { s with m_Zoom := maxZoom }
    else { s with m_Zoom := zoom }
  else s

/-- The function `PDFGenerator::dragModePan` (empty body). -/
def dragModePan (_normalizedMousePosition _lastNormalizedMousePosition : Vec2 F)
    (s : PDFGenerator F) : PDFGenerator F := s

/-- The function `PDFGenerator::dragModeRotate`. -/
def dragModeRotate (glm : Glm F)
    (normalizedMousePosition lastNormalizedMousePosition : Vec2 F) (s : PDFGenerator F) :
    PDFGenerator F :=
  let arcballFactor : F := 1
  if normalizedMousePosition = lastNormalizedMousePosition then s
  else
    let arcball := glm.arcball
      ⟨lastNormalizedMousePosition.x, -lastNormalizedMousePosition.y⟩
      ⟨normalizedMousePosition.x, -normalizedMousePosition.y⟩
    let angle := arcball.angle
    let axis := arcball.axis
    let angleRadians := 2 * angle / s.m_Zoom * arcballFactor
    let temp := glm.rotate 1 angleRadians axis
    { s with m_RotationMatrix := temp * s.m_RotationMatrix }

/-- The function `PDFGenerator::refreshPixmap`: the static flag is flipped and a
synthetic wheel event with `angleDelta` `(zoom, zoom)` goes to the page view. -/
def refreshPixmap (s : PDFGenerator F) : PDFGenerator F :=
  if s.shouldZoomIn then
    { s with shouldZoomIn := false, wheelEvents := s.wheelEvents ++ [1] }
  else
    { s with shouldZoomIn := true, wheelEvents := s.wheelEvents ++ [-1] }

/-- The function `PDFGenerator::requestPixmapRefresh`. The two readings of
`std::chrono::system_clock::now()` are the inputs `now` (before the test) and
`nowAfter` (after `refreshPixmap` has returned). -/
def requestPixmapRefresh (now nowAfter : ℚ) (s : PDFGenerator F) : PDFGenerator F :=
  let elapsedTimeSeconds := now - s.m_LastPixmapRefreshTime
  if elapsedTimeSeconds > m_MinTimeBetweenRefreshes then
    { refreshPixmap s with m_LastPixmapRefreshTime := nowAfter }
  else s

/-- A run of Zoom-mode drag steps, one per pair
`(normalizedMousePosition, lastNormalizedMousePosition)`. -/
def zoomDrags (lib : LibM F) (headerInfo : HeaderInfo F) :
    List (Vec2 F × Vec2 F) → PDFGenerator F → PDFGenerator F
  | [], s => s
  | p :: ps, s => zoomDrags lib headerInfo ps (dragModeZoom lib headerInfo p.1 p.2 s)

/-- A run of refresh requests, one per pair `(now, nowAfter)` of clock readings. -/
def refreshRequests : List (ℚ × ℚ) → PDFGenerator F → PDFGenerator F
  | [], s => s
  | p :: ps, s => refreshRequests ps (requestPixmapRefresh p.1 p.2 s)

/-- Whether the call `requestPixmapRefresh` at clock reading `now` calls
`refreshPixmap` in state `s`. -/
def emitsRefresh (now : ℚ) (s : PDFGenerator F) : Bool :=
  decide (now - s.m_LastPixmapRefreshTime > m_MinTimeBetweenRefreshes)

/-- The requests of a run that call `refreshPixmap`, in order. -/
def emittedRequests : List (ℚ × ℚ) → PDFGenerator F → List (ℚ × ℚ)
  | [], _ => []
  | p :: ps, s =>
    if emitsRefresh p.1 s then p :: emittedRequests ps (requestPixmapRefresh p.1 p.2 s)
    else emittedRequests ps (requestPixmapRefresh p.1 p.2 s)

end Camera

/-- The rotation about the z axis by the angle whose half-angle tangent is `t`,
with rational entries. -/
def rotationAboutZ (t : ℚ) : Mat4 ℚ := fun i j =>
  match i, j with
  | 0, 0 => (1 - t ^ 2) / (1 + t ^ 2)
  | 0, 1 => -(2 * t) / (1 + t ^ 2)
  | 1, 0 => (2 * t) / (1 + t ^ 2)
  | 1, 1 => (1 - t ^ 2) / (1 + t ^ 2)
  | 2, 2 => 1
  | 3, 3 => 1
  | _, _ => 0

/-- Rational stand-ins for the rotation helpers: every increment is a rotation
about the z axis, and the arcball angle is the horizontal pointer distance. -/
def sampleGlm : Glm ℚ :=
  ⟨fun m angle _ => m * rotationAboutZ angle, fun p0 p1 => ⟨p1.x - p0.x, ⟨0, 0, 1⟩⟩⟩

/-- A header with the scene bounds `(-10, -10, -10)`-`(10, 10, 10)`, no
viewport shift, and the given angle of view, initial zoom, zoom factor and
zoom step. -/
def sampleHeader {F : Type} [Field F] (angleOfView initialZoom zoomFactor zoomStep : F) :
    HeaderInfo F :=
  ⟨angleOfView, ⟨-10, -10, -10⟩, ⟨10, 10, 10⟩, initialZoom, zoomFactor, zoomStep, ⟨0, 0⟩⟩

/-- The overflow guard of `dragModeZoom`, `std::abs(stepPower) < limit`, for a page
view of height `pageViewHeight`. -/
def zoomGuard {F : Type} [LinearOrderedField F] (lib : LibM F) (headerInfo : HeaderInfo F)
    (pageViewHeight : F) (normalizedMousePosition lastNormalizedMousePosition : Vec2 F) :
    Prop :=
  |headerInfo.zoomStep * (pageViewHeight / 2) *
      (lastNormalizedMousePosition.y - normalizedMousePosition.y)| <
    lib.log (0.1 * FLOAT_MAX) / lib.log headerInfo.zoomFactor

/-! ## View and projection matrices, pointer events -/

/-- The modifier keys `mouseButtonPressEvent` tests in `event->modifiers()`:
`Qt::ControlModifier`, `Qt::ShiftModifier`, `Qt::AltModifier`. -/
structure Modifiers where
  controlKey : Bool
  shiftKey : Bool
  altKey : Bool
  deriving DecidableEq

section View

variable {F : Type} [LinearOrderedField F]

/-- The translation by `v`, as a 4 × 4 matrix acting on column vectors:
the identity with `v` in the last column. -/
def translation (v : Vec3 F) : Mat4 F := fun i j =>
  match i, j with
  | 0, 0 => 1
  | 1, 1 => 1
  | 2, 2 => 1
  | 3, 3 => 1
  | 0, 3 => v.x
  | 1, 3 => v.y
  | 2, 3 => v.z
  | _, _ => 0

/-- The GLM function `glm::translate(m, v)`: the result is `m` with its last
column replaced, `Result[3] = m[0] * v[0] + m[1] * v[1] + m[2] * v[2] + m[3]`
(`m[j]` is column `j`). -/
def glm_translate (m : Mat4 F) (v : Vec3 F) : Mat4 F := fun i j =>
  if j = 3 then m i 0 * v.x + m i 1 * v.y + m i 2 * v.z + m i 3 else m i j

/-- The GLM function `glm::inverse(m)` for a `mat4`: the matrix of cofactors,
transposed, times one over the determinant. -/
def glm_inverse (m : Mat4 F) : Mat4 F := (m.det)⁻¹ • m.adjugate

/-- The GLM function `glm::frustumRH_ZO(left, right, bottom, top, nearVal, farVal)`
(`Result[c][r]` of GLM is the entry in row `r`, column `c`). -/
def glm_frustumRH_ZO (left right bottom top nearVal farVal : F) : Mat4 F := fun i j =>
  match i, j with
  | 0, 0 => (2 * nearVal) / (right - left)
  | 1, 1 => (2 * nearVal) / (top - bottom)
  | 0, 2 => (right + left) / (right - left)
  | 1, 2 => (top + bottom) / (top - bottom)
  | 2, 2 => farVal / (nearVal - farVal)
  | 3, 2 => -1
  | 2, 3 => -(farVal * nearVal) / (farVal - nearVal)
  | _, _ => 0

/-- The point `v` in homogeneous coordinates, `(v.x, v.y, v.z, 1)`. -/
def homogeneous (v : Vec3 F) : Fin 4 → F := ![v.x, v.y, v.z, 1]

/-- The function `PDFGenerator::setDimensions`. -/
def setDimensions (headerInfo : HeaderInfo F) (width height X Y : F) (s : PDFGenerator F) :
    PDFGenerator F :=
  let Aspect := width / height
  let xShift := (X / width + headerInfo.viewportShift.x) * s.m_Zoom
  let yShift := (Y / height + headerInfo.viewportShift.y) * s.m_Zoom
  let zoomInv := 1 / s.m_Zoom
  let r := s.m_H * zoomInv
  let rAspect := r * Aspect
  let X0 := 2 * rAspect * xShift
  let Y0 := 2 * r * yShift
  { s with
    xShift := xShift
    yShift := yShift
    m_ViewParam :=
      ⟨{ s.m_ViewParam.minValues with x := -rAspect - X0, y := -r - Y0 },
        { s.m_ViewParam.maxValues with x := rAspect - X0, y := r - Y0 }⟩ }

/-- The function `PDFGenerator::updateViewMatrix`. -/
def updateViewMatrix (s : PDFGenerator F) : PDFGenerator F :=
  let temp := glm_translate 1 s.m_Center
  let cjmatInv := glm_inverse temp
  let viewMatrix1 := s.m_RotationMatrix * cjmatInv
  let viewMatrix2 := temp * viewMatrix1
  { s with m_ViewMatrix := glm_translate viewMatrix2 ⟨s.m_Center.x, s.m_Center.y, 0⟩ }

/-- The function `PDFGenerator::setProjection`. -/
def setProjection (headerInfo : HeaderInfo F) (s : PDFGenerator F) : PDFGenerator F :=
  let s1 := setDimensions headerInfo s.m_PageViewDimensions.x s.m_PageViewDimensions.y
    s.m_Shift.x s.m_Shift.y s
  let s2 := { s1 with
    m_ProjectionMatrix := glm_frustumRH_ZO s1.m_ViewParam.minValues.x s1.m_ViewParam.maxValues.x
      s1.m_ViewParam.minValues.y s1.m_ViewParam.maxValues.y
      (-s1.m_ViewParam.maxValues.z) (-s1.m_ViewParam.minValues.z) }
  updateViewMatrix s2

/-- The function `PDFGenerator::mouseMoveEvent` for an event at the absolute position
`globalPos`; `now` and `nowAfter` are the clock readings of the refresh
request it ends with. -/
def mouseMoveEvent (lib : LibM F) (glm : Glm F) (headerInfo : HeaderInfo F)
    (globalPos : IVec2) (now nowAfter : ℚ) (s : PDFGenerator F) : PDFGenerator F :=
  let s1 := { s with m_MousePosition := ⟨globalPos.x, globalPos.y⟩ }
  if s1.m_MouseDown = false then s1
  else
    let halfPageViewDimensions : Vec2 F :=
      ⟨s1.m_PageViewDimensions.x / 2, s1.m_PageViewDimensions.y / 2⟩
    let normalizedMousePosition : Vec2 F :=
      ⟨((s1.m_MousePosition.x : F) - halfPageViewDimensions.x) / halfPageViewDimensions.x,
        ((s1.m_MousePosition.y : F) - halfPageViewDimensions.y) / halfPageViewDimensions.y⟩
    let lastNormalizedMousePosition : Vec2 F :=
      ⟨((s1.m_LastMousePosition.x : F) - halfPageViewDimensions.x) / halfPageViewDimensions.x,
        ((s1.m_LastMousePosition.y : F) - halfPageViewDimensions.y) /
          halfPageViewDimensions.y⟩
    let s2 := match s1.m_DragMode with
      | DragMode.SHIFT => dragModeShift normalizedMousePosition lastNormalizedMousePosition s1
      | DragMode.ZOOM =>
        dragModeZoom lib headerInfo normalizedMousePosition lastNormalizedMousePosition s1
      | DragMode.PAN => dragModePan normalizedMousePosition lastNormalizedMousePosition s1
      | DragMode.ROTATE =>
        dragModeRotate glm normalizedMousePosition lastNormalizedMousePosition s1
    let s3 := { s2 with m_LastMousePosition := ⟨s2.m_MousePosition.x, s2.m_MousePosition.y⟩ }
    requestPixmapRefresh now nowAfter (setProjection headerInfo s3)

/-- The function `PDFGenerator::mouseButtonPressEvent` for an event with the modifier
keys `modifiers`. -/
def mouseButtonPressEvent (modifiers : Modifiers) (s : PDFGenerator F) : PDFGenerator F :=
  if s.m_MouseDown ≠ false then s
  else
    let controlKey := modifiers.controlKey
    let shiftKey := modifiers.shiftKey
    let altKey := modifiers.altKey
    { s with
      m_LastMousePosition := ⟨s.m_MousePosition.x, s.m_MousePosition.y⟩
      m_MouseDown := true
      m_DragMode :=
        if controlKey ∧ !shiftKey ∧ !altKey then DragMode.SHIFT
        else if !controlKey ∧ shiftKey ∧ !altKey then DragMode.ZOOM
        else if !controlKey ∧ !shiftKey ∧ altKey then DragMode.PAN
        else DragMode.ROTATE }

/-- The function `PDFGenerator::mouseButtonReleaseEvent`. -/
def mouseButtonReleaseEvent (s : PDFGenerator F) : PDFGenerator F :=
  if s.m_MouseDown ≠ true then s
  else { s with m_MouseDown := false }

end View

/-! ## Rasterizer output, scene cache and render pass -/

/-- The members of a `V3dFile` (declared in `V3dFile.h`, outside these sources)
that the render path reads. -/
structure V3dFile (F : Type) where
  headerInfo : HeaderInfo F
  vertices : List F
  indices : List Nat

/-- What `HeadlessRenderer::render` hands back: the bytes behind the returned
pointer `imageData`, by offset, and the `rowPitch` it stores into
`imageSubresourceLayout`. -/
structure Rasterized where
  imageData : Nat → Nat
  rowPitch : Nat

/-- The functions outside these sources that the render path calls:
`gzip::decompress`, the constructor `V3dFile(xdrFile)` and
`HeadlessRenderer::render`. An exception thrown by the first two is the
`Except.error` result, with the message of the exception. -/
structure SceneLib (F : Type) where
  decompress : List Nat → Except String (List Nat)
  parse : List Nat → Except String (V3dFile F)
  render : Int → Int → List F → List Nat → Mat4 F → Rasterized

/-- The object with its scene cache: the custom members `members` and the
member `m_File` (`none` is the null pointer). -/
structure GeneratorState (F : Type) where
  members : PDFGenerator F
  m_File : Option (V3dFile F)

/-- Body of the inner loop of the row copy. The state is `vectorData` and the
offset of the pointer `row` from `imageData`, in bytes; the four `push_back`
calls append `charRow[0]` to `charRow[3]`, and `row++` moves an `unsigned int*`
on by four bytes. -/
def packBody (imageData : Nat → Nat) (_x : Int) (s : List Nat × Nat) : List Nat × Nat :=
  (s.1 ++ [imageData (s.2 + 0), imageData (s.2 + 1), imageData (s.2 + 2), imageData (s.2 + 3)],
    s.2 + 4)

/-- Body of the outer loop of the row copy. The state is `vectorData` and the
offset of the pointer `imgDatatmp` from `imageData`, in bytes:
`row = imgDatatmp; for (x = 0; x < imageWidth; x++) ...; imgDatatmp += rowPitch`. -/
def packRowBody (raster : Rasterized) (imageWidth : Int) (_y : Int) (s : List Nat × Nat) :
    List Nat × Nat :=
  ((forUp (packBody raster.imageData) 0 (imageWidth - 0).toNat (s.1, s.2)).1,
    s.2 + raster.rowPitch)

/-- The row copy of `PDFGenerator::image`: the vector `vectorData` built from the
rasterizer output, `for (y = 0; y < imageHeight; y++) ...` starting from the
empty vector and `imgDatatmp = imageData`. -/
def packImage (raster : Rasterized) (imageWidth imageHeight : Int) : List Nat :=
  (forUp (packRowBody raster imageWidth) 0 (imageHeight - 0).toNat ([], 0)).1

/-- The Qt function `qRed(rgb)`: `(rgb >> 16) & 0xff`. -/
def qRed (rgb : Nat) : Nat := (rgb / 65536) % 256

/-- The Qt function `qGreen(rgb)`: `(rgb >> 8) & 0xff`. -/
def qGreen (rgb : Nat) : Nat := (rgb / 256) % 256

/-- The Qt function `qBlue(rgb)`: `rgb & 0xff`. -/
def qBlue (rgb : Nat) : Nat := rgb % 256

/-- The Qt function `qAlpha(rgb)`: `rgb >> 24`, for a 32-bit `QRgb`. -/
def qAlpha (rgb : Nat) : Nat := (rgb / 16777216) % 256

/-- A packed source buffer of 4 × 2 pixels, byte `i` holding the value `i`:
pixel `j` has the channels `(4 j, 4 j + 1, 4 j + 2, 4 j + 3)`. -/
def wideSource : VectorData := ⟨List.range 32, fun _ => 0⟩

/-- An annotation boundary that sticks out of the page on the right: on a
4 × 4 page its pixel rectangle is `(2, 1)`-`(6, 3)`, 4 pixels wide and 2 high. -/
def wideBound : RectF := ⟨1 / 2, 1 / 4, 3 / 2, 3 / 4⟩

section Render

variable {F : Type} [LinearOrderedField F]

/-- The scene load of `PDFGenerator::image`:
`if (m_File == nullptr) { m_File = std::make_unique<V3dFile>(xdrFile); initProjection(); }`.
The result is the file `m_File` points to afterwards and the custom members. -/
def loadScene (lib : LibM F) (scene : SceneLib F) (decompressedData : List Nat)
    (st : GeneratorState F) : Except String (V3dFile F × PDFGenerator F) :=
  match st.m_File with
  | none =>
    match scene.parse decompressedData with
    | Except.error e => Except.error e
    | Except.ok file => Except.ok (file, initProjection lib file.headerInfo st.members)
  | some file => Except.ok (file, st.members)

/-- The custom part of `PDFGenerator::image` for one rich-media asset with the
embedded bytes `fileData` on an annotation with the boundary `bound`:
decompression, scene load, projection, rasterization, row copy and compositing
into the page image `img`. `beyond` is the content of the memory around
`vectorData`. There is no `try` block in `image`: an exception of a callee
leaves the function, which is the `Except.error` result here. -/
def imageAsset (lib : LibM F) (scene : SceneLib F) (beyond : Int → Nat)
    (request : PixmapRequest) (bound : RectF) (fileData : List Nat)
    (st : GeneratorState F) (img : QImage) : Except String (GeneratorState F × QImage) :=
  match scene.decompress fileData with
  | Except.error e => Except.error e
  | Except.ok decompressedData =>
    match loadScene lib scene decompressedData st with
    | Except.error e => Except.error e
    | Except.ok (file, g1) =>
      let r := annotationPixelRect request bound
      let imageWidth := r.2.1 - r.1
      let imageHeight := r.2.2.2 - r.2.2.1
      let model : Mat4 F := 1
      let g2 := setProjection file.headerInfo g1
      let mvp := g2.m_ProjectionMatrix * g2.m_ViewMatrix * model
      let raster := scene.render imageWidth imageHeight file.vertices file.indices mvp
      let vectorData : VectorData := ⟨packImage raster imageWidth imageHeight, beyond⟩
      Except.ok (⟨g2, some file⟩, imageOverlay request bound vectorData img)

/-- A run of render passes, one per tuple of request, annotation boundary,
embedded bytes and base page image; the run ends at the first exception. -/
def imagePasses (lib : LibM F) (scene : SceneLib F) (beyond : Int → Nat) :
    List (PixmapRequest × RectF × List Nat × QImage) → GeneratorState F →
      Except String (GeneratorState F)
  | [], st => Except.ok st
  | p :: ps, st =>
    match imageAsset lib scene beyond p.1 p.2.1 p.2.2.1 st p.2.2.2 with
    | Except.error e => Except.error e
    | Except.ok r => imagePasses lib scene beyond ps r.1

/-- The function `PDFGenerator::mouseMoveEvent` on the object with its member `m_File`.
A move with a button held reads `m_File->headerInfo` (in `dragModeZoom`, and in
`setDimensions` for every drag mode); with `m_File` null that read dereferences
a null pointer, which is the `Except.error` result here. -/
def GeneratorState.mouseMoveEvent (lib : LibM F) (glm : Glm F) (globalPos : IVec2)
    (now nowAfter : ℚ) (st : GeneratorState F) : Except String (GeneratorState F) :=
  match st.m_File with
  | some file =>
    Except.ok
      ⟨Okular.mouseMoveEvent lib glm file.headerInfo globalPos now nowAfter st.members, some file⟩
  | none =>
    if st.members.m_MouseDown = false then
      Except.ok ⟨{ st.members with m_MousePosition := ⟨globalPos.x, globalPos.y⟩ }, none⟩
    else Except.error "m_File is null"

/-- The normalised pointer position `mouseMoveEvent` computes from an absolute
position: `(p - halfPageViewDimensions) / halfPageViewDimensions`. -/
def normalizedPosition (pageViewDimensions : Vec2 F) (p : IVec2) : Vec2 F :=
  ⟨((p.x : F) - pageViewDimensions.x / 2) / (pageViewDimensions.x / 2),
    ((p.y : F) - pageViewDimensions.y / 2) / (pageViewDimensions.y / 2)⟩

/-- A run of pointer moves, one per triple of the absolute position and the
two clock readings of the refresh request. -/
def pointerMoves (lib : LibM F) (glm : Glm F) (headerInfo : HeaderInfo F) :
    List (IVec2 × ℚ × ℚ) → PDFGenerator F → PDFGenerator F
  | [], s => s
  | e :: es, s =>
    pointerMoves lib glm headerInfo es (mouseMoveEvent lib glm headerInfo e.1 e.2.1 e.2.2 s)

/-- The Zoom-mode step of `dragModeZoom` in state `s` passes the overflow guard
and its product `zoom * pow(zoomFactor, stepPower)` lies strictly between
`minZoom` and `maxZoom`, so that neither clamp applies. -/
def zoomUnclamped (lib : LibM F) (headerInfo : HeaderInfo F)
    (normalizedMousePosition lastNormalizedMousePosition : Vec2 F) (s : PDFGenerator F) :
    Prop :=
  zoomGuard lib headerInfo s.m_PageViewDimensions.y normalizedMousePosition
      lastNormalizedMousePosition ∧
    1 / lib.sqrt FLOAT_MAX <
      s.m_Zoom * lib.pow headerInfo.zoomFactor
        (headerInfo.zoomStep * (s.m_PageViewDimensions.y / 2) *
          (lastNormalizedMousePosition.y - normalizedMousePosition.y)) ∧
    s.m_Zoom * lib.pow headerInfo.zoomFactor
        (headerInfo.zoomStep * (s.m_PageViewDimensions.y / 2) *
          (lastNormalizedMousePosition.y - normalizedMousePosition.y)) <
      lib.sqrt FLOAT_MAX

/-- Every move of the run passes the overflow guard and is not clamped, each
in the state the moves before it have produced. -/
def movesUnclamped (lib : LibM F) (glm : Glm F) (headerInfo : HeaderInfo F) :
    List (IVec2 × ℚ × ℚ) → PDFGenerator F → Prop
  | [], _ => True
  | e :: es, s =>
    zoomUnclamped lib headerInfo (normalizedPosition s.m_PageViewDimensions e.1)
        (normalizedPosition s.m_PageViewDimensions s.m_LastMousePosition) s ∧
      movesUnclamped lib glm headerInfo es
        (mouseMoveEvent lib glm headerInfo e.1 e.2.1 e.2.2 s)

end Render

/-- Rational stand-ins for the external functions of the render path: a
decompressor that accepts exactly the data that starts with the two magic
bytes `1f 8b` of the gzip format, a constructor that yields an empty mesh with
a fixed header, and a rasterizer whose byte at offset `i` is `i mod 256`, with
rows 64 bytes apart. -/
def sampleScene : SceneLib ℚ where
  decompress := fun fileData =>
    if fileData.take 2 = [31, 139] then Except.ok (fileData.drop 2)
    else Except.error "incorrect header check"
  parse := fun _ => Except.ok ⟨sampleHeader 1 1 2 1, [], []⟩
  render := fun _ _ _ _ _ => ⟨fun i => i % 256, 64⟩

theorem forUp_invariant {S : Type} (body : Int → S → S) (P : Int → S → Prop) :
    ∀ (n : Nat) (x0 : Int) (s : S), P x0 s →
      (∀ x t, x0 ≤ x → x < x0 + n → P x t → P (x + 1) (body x t)) →
      P (x0 + n) (forUp body x0 n s) := by
  intro n
  induction n with
  | zero => intro x0 s h0 _; simpa [forUp] using h0
  | succ n ih =>
    intro x0 s h0 hstep
    have h1 : P (x0 + 1) (body x0 s) := hstep x0 s le_rfl (by push_cast; omega) h0
    have h2 := ih (x0 + 1) (body x0 s) h1
      (fun x t hx hlt hp => hstep x t (by omega) (by push_cast; omega) hp)
    have e : x0 + ((n + 1 : Nat) : Int) = x0 + 1 + (n : Int) := by push_cast; ring
    rw [e]
    simpa [forUp] using h2

theorem forDown_invariant {S : Type} (body : Int → S → S) (P : Int → S → Prop) :
    ∀ (n : Nat) (y0 : Int) (s : S), P y0 s →
      (∀ y t, y ≤ y0 → y0 - n < y → P y t → P (y - 1) (body y t)) →
      P (y0 - n) (forDown body y0 n s) := by
  intro n
  induction n with
  | zero => intro y0 s h0 _; simpa [forDown] using h0
  | succ n ih =>
    intro y0 s h0 hstep
    have h1 : P (y0 - 1) (body y0 s) := hstep y0 s le_rfl (by push_cast; omega) h0
    have h2 := ih (y0 - 1) (body y0 s) h1
      (fun y t hy hlt hp => hstep y t (by omega) (by push_cast; omega) hp)
    have e : y0 - ((n + 1 : Nat) : Int) = y0 - 1 - (n : Int) := by push_cast; ring
    rw [e]
    simpa [forDown] using h2

/-! ## What the full-page branch writes -/

theorem setPixel_width (img : QImage) (x y : Int) (c : Nat) :
    (img.setPixel x y c).width = img.width := by
  unfold QImage.setPixel; split <;> rfl

theorem setPixel_height (img : QImage) (x y : Int) (c : Nat) :
    (img.setPixel x y c).height = img.height := by
  unfold QImage.setPixel; split <;> rfl

theorem setPixel_pixel (img : QImage) (x y : Int) (c : Nat) (a b : Int) :
    (img.setPixel x y c).pixel a b =
      if a = x ∧ b = y ∧ 0 ≤ x ∧ x < img.width ∧ 0 ≤ y ∧ y < img.height then c
      else img.pixel a b := by
  unfold QImage.setPixel
  by_cases h : x < 0 ∨ x ≥ img.width ∨ y < 0 ∨ y ≥ img.height
  · rw [if_pos h, if_neg]; omega
  · rw [if_neg h]
    by_cases h2 : a = x ∧ b = y
    · have h3 : a = x ∧ b = y ∧ 0 ≤ x ∧ x < img.width ∧ 0 ≤ y ∧ y < img.height := by omega
      simp only [h2, h3, and_self, if_true]
    · have h3 : ¬ (a = x ∧ b = y ∧ 0 ≤ x ∧ x < img.width ∧ 0 ≤ y ∧ y < img.height) := by omega
      simp only [h2, h3, if_false]

/-- One row of the full-page branch, started with index `k0` on image `img`. -/
theorem fullPage_row (v : VectorData) (y xMin : Int) (n : Nat) (k0 : Int) (img : QImage) :
    (forUp (fullPageBody v y) xMin n (k0, img)).1 = k0 + 4 * n ∧
    (forUp (fullPageBody v y) xMin n (k0, img)).2.width = img.width ∧
    (forUp (fullPageBody v y) xMin n (k0, img)).2.height = img.height ∧
    ∀ a b, (forUp (fullPageBody v y) xMin n (k0, img)).2.pixel a b =
      if b = y ∧ xMin ≤ a ∧ a < xMin + n ∧ 0 ≤ a ∧ a < img.width ∧ 0 ≤ b ∧ b < img.height
      then colourAt v (k0 + 4 * (a - xMin)) else img.pixel a b := by
  have key := forUp_invariant (fullPageBody v y)
    (fun x s => s.1 = k0 + 4 * (x - xMin) ∧ s.2.width = img.width ∧
      s.2.height = img.height ∧
      ∀ a b, s.2.pixel a b =
        if b = y ∧ xMin ≤ a ∧ a < x ∧ 0 ≤ a ∧ a < img.width ∧ 0 ≤ b ∧ b < img.height
        then colourAt v (k0 + 4 * (a - xMin)) else img.pixel a b)
    n xMin (k0, img) ?_ ?_
  · obtain ⟨h1, h2, h3, h4⟩ := key
    refine ⟨by rw [h1]; ring, h2, h3, h4⟩
  · refine ⟨by simp, rfl, rfl, ?_⟩
    intro a b
    rw [if_neg]; omega
  · rintro x ⟨k, im⟩ hx hlt ⟨h1, h2, h3, h4⟩
    simp only at h1 h2 h3 h4
    unfold fullPageBody
    by_cases hr : x < 0 ∨ x ≥ im.width ∨ y < 0 ∨ y ≥ im.height
    · simp only [hr, if_true]
      refine ⟨by rw [h1]; ring, h2, h3, ?_⟩
      intro a b
      rw [h4 a b]
      apply if_congr _ rfl rfl
      rw [h2, h3] at hr
      omega
    · simp only [hr, if_false]
      refine ⟨by rw [h1]; ring, by rw [setPixel_width, h2], by rw [setPixel_height, h3], ?_⟩
      intro a b
      rw [setPixel_pixel, h4 a b, h2, h3]
      rw [h2, h3] at hr
      by_cases hab : a = x ∧ b = y
      · obtain ⟨rfl, rfl⟩ := hab
        rw [if_pos (by omega), if_pos (by omega), h1]
      · rw [if_neg (by omega)]
        apply if_congr _ rfl rfl
        omega

/-- Every pixel of the result of the full-page branch. -/
theorem compositeFullPage_pixel (v : VectorData) (xMin xMax yMin yMax : Int) (img : QImage)
    (a b : Int) :
    (compositeFullPage v xMin xMax yMin yMax img).pixel a b =
      if xMin ≤ a ∧ a < xMax ∧ yMin ≤ b ∧ b ≤ yMax ∧
          0 ≤ a ∧ a < img.width ∧ 0 ≤ b ∧ b < img.height
      then colourAt v (4 * ((yMax - b) * (xMax - xMin) + (a - xMin))) else img.pixel a b := by
  unfold compositeFullPage
  set n := (xMax - xMin).toNat with hn
  set m := (yMax - yMin + 1).toNat with hm
  have key := forDown_invariant (fun y s => forUp (fullPageBody v y) xMin n s)
    (fun y s => s.1 = 4 * ((yMax - y) * n) ∧ s.2.width = img.width ∧
      s.2.height = img.height ∧
      ∀ a b, s.2.pixel a b =
        if y < b ∧ b ≤ yMax ∧ xMin ≤ a ∧ a < xMin + n ∧
            0 ≤ a ∧ a < img.width ∧ 0 ≤ b ∧ b < img.height
        then colourAt v (4 * ((yMax - b) * n + (a - xMin))) else img.pixel a b)
    m yMax (0, img) ?_ ?_
  · obtain ⟨-, -, -, h4⟩ := key
    rw [h4 a b]
    by_cases hc : xMin ≤ a ∧ a < xMax ∧ yMin ≤ b ∧ b ≤ yMax ∧
          0 ≤ a ∧ a < img.width ∧ 0 ≤ b ∧ b < img.height
    · have hnn : (n : Int) = xMax - xMin := by omega
      rw [if_pos hc, if_pos (by omega), hnn]
    · rw [if_neg hc, if_neg (by omega)]
  · refine ⟨by simp, rfl, rfl, ?_⟩
    intro a b
    rw [if_neg]; omega
  · rintro y ⟨k, im⟩ hy hlt ⟨h1, h2, h3, h4⟩
    simp only at h1 h2 h3 h4
    obtain ⟨r1, r2, r3, r4⟩ := fullPage_row v y xMin n k im
    refine ⟨by rw [r1, h1]; ring, by rw [r2, h2], by rw [r3, h3], ?_⟩
    intro a b
    rw [r4 a b, h4 a b, h2, h3]
    by_cases hb : b = y
    · subst hb
      by_cases hc : xMin ≤ a ∧ a < xMin + n ∧ 0 ≤ a ∧ a < img.width ∧ 0 ≤ b ∧ b < img.height
      · rw [if_pos (by omega), if_pos (by omega), h1]
        congr 1; ring
      · rw [if_neg (by omega), if_neg (by omega), if_neg (by omega)]
    · rw [if_neg (by omega)]
      apply if_congr _ rfl rfl
      omega

/-! ## What the tile branch writes -/

theorem tileBody_eq (v : VectorData) (tMin tMax aMin aMax : IVec2) (y x : Int)
    (s : Int × QImage) :
    tileBody v tMin tMax aMin aMax y x s =
      if aMin.x ≤ x ∧ x < aMax.x ∧ aMin.y ≤ y ∧ y < aMax.y then
        if tMin.x ≤ x ∧ x < tMax.x ∧ tMin.y ≤ y ∧ y < tMax.y then
          (s.1 + 4, s.2.setPixel (x - tMin.x) (y - tMin.y) (colourAt v (s.1 + 4)))
        else (s.1 + 4, s.2)
      else (s.1, s.2) := by
  unfold tileBody
  by_cases hA : aMin.x ≤ x ∧ x < aMax.x ∧ aMin.y ≤ y ∧ y < aMax.y
  · by_cases hT : tMin.x ≤ x ∧ x < tMax.x ∧ tMin.y ≤ y ∧ y < tMax.y
    · simp [hA, hT]
    · simp only [hA, hT, if_true, if_false]
      simp [hA, hT]
  · simp only [hA, if_false]
    simp [hA]

/-- One row of the tile branch, started with index `k0` on image `img`. -/
theorem tile_row (v : VectorData) (tMin tMax aMin aMax : IVec2) (y : Int) (n : Nat)
    (k0 : Int) (img : QImage) :
    (forUp (tileBody v tMin tMax aMin aMax y) 0 n (k0, img)).1 =
        k0 + (if aMin.y ≤ y ∧ y < aMax.y then 4 * clipCount 0 n aMin.x aMax.x else 0) ∧
    (forUp (tileBody v tMin tMax aMin aMax y) 0 n (k0, img)).2.width = img.width ∧
    (forUp (tileBody v tMin tMax aMin aMax y) 0 n (k0, img)).2.height = img.height ∧
    ∀ a b, (forUp (tileBody v tMin tMax aMin aMax y) 0 n (k0, img)).2.pixel a b =
      if b + tMin.y = y ∧ 0 ≤ a + tMin.x ∧ a + tMin.x < n ∧
          (tMin.x ≤ a + tMin.x ∧ a + tMin.x < tMax.x ∧ tMin.y ≤ y ∧ y < tMax.y) ∧
          (aMin.x ≤ a + tMin.x ∧ a + tMin.x < aMax.x ∧ aMin.y ≤ y ∧ y < aMax.y) ∧
          0 ≤ a ∧ a < img.width ∧ 0 ≤ b ∧ b < img.height
      then colourAt v (k0 + 4 * (a + tMin.x - max 0 aMin.x + 1)) else img.pixel a b := by
  have key := forUp_invariant (tileBody v tMin tMax aMin aMax y)
    (fun x s => s.1 = k0 + (if aMin.y ≤ y ∧ y < aMax.y then 4 * clipCount 0 x aMin.x aMax.x
        else 0) ∧ s.2.width = img.width ∧ s.2.height = img.height ∧
      ∀ a b, s.2.pixel a b =
        if b + tMin.y = y ∧ 0 ≤ a + tMin.x ∧ a + tMin.x < x ∧
            (tMin.x ≤ a + tMin.x ∧ a + tMin.x < tMax.x ∧ tMin.y ≤ y ∧ y < tMax.y) ∧
            (aMin.x ≤ a + tMin.x ∧ a + tMin.x < aMax.x ∧ aMin.y ≤ y ∧ y < aMax.y) ∧
            0 ≤ a ∧ a < img.width ∧ 0 ≤ b ∧ b < img.height
        then colourAt v (k0 + 4 * (a + tMin.x - max 0 aMin.x + 1)) else img.pixel a b)
    n 0 (k0, img) ?_ ?_
  · simpa using key
  · refine ⟨?_, rfl, rfl, ?_⟩
    · simp only [clipCount]
      split <;> omega
    · intro a b
      rw [if_neg]; omega
  · rintro x ⟨k, im⟩ hx hlt ⟨h1, h2, h3, h4⟩
    simp only at h1 h2 h3 h4
    rw [tileBody_eq]
    simp only [clipCount] at h1 ⊢
    by_cases hA : aMin.x ≤ x ∧ x < aMax.x ∧ aMin.y ≤ y ∧ y < aMax.y
    · have hrow : aMin.y ≤ y ∧ y < aMax.y := ⟨hA.2.2.1, hA.2.2.2⟩
      rw [if_pos hrow] at h1
      rw [if_pos hA, if_pos hrow]
      by_cases hT : tMin.x ≤ x ∧ x < tMax.x ∧ tMin.y ≤ y ∧ y < tMax.y
      · rw [if_pos hT]
        refine ⟨by simp only; omega, by simp only [setPixel_width, h2],
          by simp only [setPixel_height, h3], ?_⟩
        intro a b
        simp only [setPixel_pixel, h4 a b, h2, h3]
        by_cases hab : a = x - tMin.x ∧ b = y - tMin.y
        · obtain ⟨rfl, rfl⟩ := hab
          by_cases hin : 0 ≤ x - tMin.x ∧ x - tMin.x < img.width ∧
              0 ≤ y - tMin.y ∧ y - tMin.y < img.height
          · rw [if_pos (by omega), if_pos (by omega)]
            congr 1; omega
          · rw [if_neg (by omega), if_neg (by omega), if_neg (by omega)]
        · rw [if_neg (by omega)]
          apply if_congr _ rfl rfl
          omega
      · rw [if_neg hT]
        refine ⟨by simp only; omega, h2, h3, ?_⟩
        intro a b
        simp only [h4 a b]
        apply if_congr _ rfl rfl
        omega
    · rw [if_neg hA]
      refine ⟨?_, h2, h3, ?_⟩
      · simp only [h1]
        split <;> omega
      · intro a b
        simp only [h4 a b]
        apply if_congr _ rfl rfl
        omega

/-- Every pixel of the result of the tile branch. -/
theorem compositeTile_pixel (v : VectorData) (rMax tMin tMax aMin aMax : IVec2) (img : QImage)
    (a b : Int) :
    (compositeTile v rMax tMin tMax aMin aMax img).pixel a b =
      if (0 ≤ a + tMin.x ∧ a + tMin.x < rMax.x ∧ 0 ≤ b + tMin.y ∧ b + tMin.y ≤ rMax.y) ∧
          (tMin.x ≤ a + tMin.x ∧ a + tMin.x < tMax.x ∧
            tMin.y ≤ b + tMin.y ∧ b + tMin.y < tMax.y) ∧
          (aMin.x ≤ a + tMin.x ∧ a + tMin.x < aMax.x ∧
            aMin.y ≤ b + tMin.y ∧ b + tMin.y < aMax.y) ∧
          0 ≤ a ∧ a < img.width ∧ 0 ≤ b ∧ b < img.height
      then colourAt v (tileIndex rMax aMin aMax (a + tMin.x) (b + tMin.y))
      else img.pixel a b := by
  unfold compositeTile
  set n := (rMax.x - 0).toNat with hn
  set m := (rMax.y - 0 + 1).toNat with hm
  have key := forDown_invariant
    (fun y s => forUp (tileBody v tMin tMax aMin aMax y) 0 n s)
    (fun y s => s.1 = -4 + 4 * (clipCount (y + 1) (rMax.y + 1) aMin.y aMax.y *
          clipCount 0 n aMin.x aMax.x) ∧
      s.2.width = img.width ∧ s.2.height = img.height ∧
      ∀ a b, s.2.pixel a b =
        if (y < b + tMin.y ∧ b + tMin.y ≤ rMax.y ∧ 0 ≤ a + tMin.x ∧ a + tMin.x < n) ∧
            (tMin.x ≤ a + tMin.x ∧ a + tMin.x < tMax.x ∧
              tMin.y ≤ b + tMin.y ∧ b + tMin.y < tMax.y) ∧
            (aMin.x ≤ a + tMin.x ∧ a + tMin.x < aMax.x ∧
              aMin.y ≤ b + tMin.y ∧ b + tMin.y < aMax.y) ∧
            0 ≤ a ∧ a < img.width ∧ 0 ≤ b ∧ b < img.height
        then colourAt v (tileIndex rMax aMin aMax (a + tMin.x) (b + tMin.y))
        else img.pixel a b)
    m rMax.y (-4, img) ?_ ?_
  · obtain ⟨-, -, -, h4⟩ := key
    rw [h4 a b]
    apply if_congr _ rfl rfl
    omega
  · refine ⟨?_, rfl, rfl, ?_⟩
    · have e : clipCount (rMax.y + 1) (rMax.y + 1) aMin.y aMax.y = 0 := by
        simp only [clipCount]; omega
      simp only [e]; ring
    · intro a b
      rw [if_neg]; omega
  · rintro y ⟨k, im⟩ hy hlt ⟨h1, h2, h3, h4⟩
    simp only at h1 h2 h3 h4
    obtain ⟨r1, r2, r3, r4⟩ := tile_row v tMin tMax aMin aMax y n k im
    refine ⟨?_, by rw [r2, h2], by rw [r3, h3], ?_⟩
    · rw [r1, h1]
      by_cases hrow : aMin.y ≤ y ∧ y < aMax.y
      · have e : clipCount (y - 1 + 1) (rMax.y + 1) aMin.y aMax.y =
            clipCount (y + 1) (rMax.y + 1) aMin.y aMax.y + 1 := by
          simp only [clipCount]; omega
        rw [if_pos hrow, e]; ring
      · have e : clipCount (y - 1 + 1) (rMax.y + 1) aMin.y aMax.y =
            clipCount (y + 1) (rMax.y + 1) aMin.y aMax.y := by
          simp only [clipCount]; omega
        rw [if_neg hrow, e]; ring
    · intro a b
      rw [r4 a b, h4 a b, h2, h3]
      by_cases hb : b + tMin.y = y
      · by_cases hc : (0 ≤ a + tMin.x ∧ a + tMin.x < n) ∧
            (tMin.x ≤ a + tMin.x ∧ a + tMin.x < tMax.x ∧ tMin.y ≤ y ∧ y < tMax.y) ∧
            (aMin.x ≤ a + tMin.x ∧ a + tMin.x < aMax.x ∧ aMin.y ≤ y ∧ y < aMax.y) ∧
            0 ≤ a ∧ a < img.width ∧ 0 ≤ b ∧ b < img.height
        · rw [if_pos (by omega), if_pos (by omega), h1]
          congr 1
          have e1 : clipCount (y + 1) (rMax.y + 1) aMin.y aMax.y =
              min rMax.y (aMax.y - 1) - y := by
            simp only [clipCount]; omega
          have e2 : clipCount 0 (n : Int) aMin.x aMax.x =
              clipCount 0 rMax.x aMin.x aMax.x := by
            simp only [clipCount]; omega
          simp only [tileIndex, e1, e2, hb]
          ring
        · rw [if_neg (by omega), if_neg (by omega), if_neg (by omega)]
      · rw [if_neg (by omega)]
        apply if_congr _ rfl rfl
        omega

/-! ## Size of the destination image -/

theorem compositeFullPage_size (v : VectorData) (xMin xMax yMin yMax : Int) (img : QImage) :
    (compositeFullPage v xMin xMax yMin yMax img).width = img.width ∧
    (compositeFullPage v xMin xMax yMin yMax img).height = img.height := by
  unfold compositeFullPage
  refine forDown_invariant (fun y s => forUp (fullPageBody v y) xMin (xMax - xMin).toNat s)
    (fun _ s => s.2.width = img.width ∧ s.2.height = img.height)
    _ yMax (0, img) ⟨rfl, rfl⟩ ?_
  rintro y ⟨k, im⟩ - - ⟨h2, h3⟩
  obtain ⟨-, r2, r3, -⟩ := fullPage_row v y xMin (xMax - xMin).toNat k im
  exact ⟨r2.trans h2, r3.trans h3⟩

theorem compositeTile_size (v : VectorData) (rMax tMin tMax aMin aMax : IVec2) (img : QImage) :
    (compositeTile v rMax tMin tMax aMin aMax img).width = img.width ∧
    (compositeTile v rMax tMin tMax aMin aMax img).height = img.height := by
  unfold compositeTile
  refine forDown_invariant
    (fun y s => forUp (tileBody v tMin tMax aMin aMax y) 0 (rMax.x - 0).toNat s)
    (fun _ s => s.2.width = img.width ∧ s.2.height = img.height)
    _ rMax.y (-4, img) ⟨rfl, rfl⟩ ?_
  rintro y ⟨k, im⟩ - - ⟨h2, h3⟩
  obtain ⟨-, r2, r3, -⟩ := tile_row v tMin tMax aMin aMax y (rMax.x - 0).toNat k im
  exact ⟨r2.trans h2, r3.trans h3⟩

theorem colourAt_inside (bytes : List Nat) (g1 g2 : Int → Nat) (k : Int)
    (h : 0 ≤ k ∧ k + 3 < bytes.length) :
    colourAt ⟨bytes, g2⟩ k = colourAt ⟨bytes, g1⟩ k := by
  have hr : ∀ i : Int, 0 ≤ i → i ≤ 3 →
      VectorData.read ⟨bytes, g2⟩ (k + i) = VectorData.read ⟨bytes, g1⟩ (k + i) := by
    intro i h0 h3
    unfold VectorData.read
    simp only
    rw [if_pos ⟨by omega, by omega⟩, if_pos ⟨by omega, by omega⟩]
  unfold colourAt
  rw [hr 0 (by norm_num) (by norm_num), hr 1 (by norm_num) (by norm_num),
    hr 2 (by norm_num) (by norm_num), hr 3 (by norm_num) (by norm_num)]

theorem compositeFullPage_second_pass (bytes : List Nat) (g1 g2 : Int → Nat)
    (xMin xMax yMin yMax : Int) (img : QImage)
    (hin : ∀ a b : Int, xMin ≤ a ∧ a < xMax ∧ yMin ≤ b ∧ b ≤ yMax ∧
        0 ≤ a ∧ a < img.width ∧ 0 ≤ b ∧ b < img.height →
      0 ≤ 4 * ((yMax - b) * (xMax - xMin) + (a - xMin)) ∧
        4 * ((yMax - b) * (xMax - xMin) + (a - xMin)) + 3 < bytes.length) :
    compositeFullPage ⟨bytes, g2⟩ xMin xMax yMin yMax
        (compositeFullPage ⟨bytes, g1⟩ xMin xMax yMin yMax img) =
      compositeFullPage ⟨bytes, g1⟩ xMin xMax yMin yMax img := by
  obtain ⟨hw, hh⟩ := compositeFullPage_size ⟨bytes, g1⟩ xMin xMax yMin yMax img
  obtain ⟨hw2, hh2⟩ := compositeFullPage_size ⟨bytes, g2⟩ xMin xMax yMin yMax
    (compositeFullPage ⟨bytes, g1⟩ xMin xMax yMin yMax img)
  ext a b
  · rw [hw2]
  · rw [hh2]
  · rw [compositeFullPage_pixel ⟨bytes, g2⟩ xMin xMax yMin yMax
        (compositeFullPage ⟨bytes, g1⟩ xMin xMax yMin yMax img),
      hw, hh, compositeFullPage_pixel ⟨bytes, g1⟩ xMin xMax yMin yMax img]
    by_cases hc : xMin ≤ a ∧ a < xMax ∧ yMin ≤ b ∧ b ≤ yMax ∧
        0 ≤ a ∧ a < img.width ∧ 0 ≤ b ∧ b < img.height
    · rw [if_pos hc, if_pos hc]
      exact colourAt_inside bytes g1 g2 _ (hin a b hc)
    · rw [if_neg hc, if_neg hc]

theorem compositeTile_second_pass (bytes : List Nat) (g1 g2 : Int → Nat)
    (rMax tMin tMax aMin aMax : IVec2) (img : QImage)
    (hin : ∀ a b : Int,
      (0 ≤ a + tMin.x ∧ a + tMin.x < rMax.x ∧ 0 ≤ b + tMin.y ∧ b + tMin.y ≤ rMax.y) ∧
        (tMin.x ≤ a + tMin.x ∧ a + tMin.x < tMax.x ∧
          tMin.y ≤ b + tMin.y ∧ b + tMin.y < tMax.y) ∧
        (aMin.x ≤ a + tMin.x ∧ a + tMin.x < aMax.x ∧
          aMin.y ≤ b + tMin.y ∧ b + tMin.y < aMax.y) ∧
        0 ≤ a ∧ a < img.width ∧ 0 ≤ b ∧ b < img.height →
      0 ≤ tileIndex rMax aMin aMax (a + tMin.x) (b + tMin.y) ∧
        tileIndex rMax aMin aMax (a + tMin.x) (b + tMin.y) + 3 < bytes.length) :
    compositeTile ⟨bytes, g2⟩ rMax tMin tMax aMin aMax
        (compositeTile ⟨bytes, g1⟩ rMax tMin tMax aMin aMax img) =
      compositeTile ⟨bytes, g1⟩ rMax tMin tMax aMin aMax img := by
  obtain ⟨hw, hh⟩ := compositeTile_size ⟨bytes, g1⟩ rMax tMin tMax aMin aMax img
  obtain ⟨hw2, hh2⟩ := compositeTile_size ⟨bytes, g2⟩ rMax tMin tMax aMin aMax
    (compositeTile ⟨bytes, g1⟩ rMax tMin tMax aMin aMax img)
  ext a b
  · rw [hw2]
  · rw [hh2]
  · rw [compositeTile_pixel ⟨bytes, g2⟩ rMax tMin tMax aMin aMax
        (compositeTile ⟨bytes, g1⟩ rMax tMin tMax aMin aMax img),
      hw, hh, compositeTile_pixel ⟨bytes, g1⟩ rMax tMin tMax aMin aMax img]
    by_cases hc : (0 ≤ a + tMin.x ∧ a + tMin.x < rMax.x ∧ 0 ≤ b + tMin.y ∧
          b + tMin.y ≤ rMax.y) ∧
        (tMin.x ≤ a + tMin.x ∧ a + tMin.x < tMax.x ∧
          tMin.y ≤ b + tMin.y ∧ b + tMin.y < tMax.y) ∧
        (aMin.x ≤ a + tMin.x ∧ a + tMin.x < aMax.x ∧
          aMin.y ≤ b + tMin.y ∧ b + tMin.y < aMax.y) ∧
        0 ≤ a ∧ a < img.width ∧ 0 ≤ b ∧ b < img.height
    · rw [if_pos hc, if_pos hc]
      exact colourAt_inside bytes g1 g2 _ (hin a b hc)
    · rw [if_neg hc, if_neg hc]

/-! ## Compositing: full page against tile, written pixels, second pass -/

theorem imageOverlay_sample_fullPage (img : QImage) :
    imageOverlay ⟨4, 4, false, ⟨0, 0, 1, 1⟩⟩ sampleBound sampleSource img =
      compositeFullPage sampleSource 1 3 1 3 img := by
  norm_num [imageOverlay, annotationPixelRect, toInt, sampleBound]

theorem imageOverlay_sample_tile (img : QImage) :
    imageOverlay ⟨4, 4, true, ⟨0, 0, 1, 1⟩⟩ sampleBound sampleSource img =
      compositeTile sampleSource ⟨4, 4⟩ ⟨0, 0⟩ ⟨4, 4⟩ ⟨1, 1⟩ ⟨3, 3⟩ img := by
  norm_num [imageOverlay, annotationPixelRect, toInt, sampleBound]

/-- C2, evaluated on a 4 × 4 page with the annotation rectangle `(1, 1)`-`(3, 3)`
and a 2 × 2 source: the full-page request and the tile request whose tile is
the whole page, `(0, 0)`-`(1, 1)`, do not give the same image. At `(1, 2)` the
full-page branch writes the first pixel of source row 1 and the tile branch
the first pixel of source row 0; at `(1, 3)`, below the annotation rectangle,
the full-page branch writes the first pixel of source row 0 and the tile
branch writes nothing. -/
theorem fullPage_and_whole_page_tile_differ :
    (imageOverlay ⟨4, 4, false, ⟨0, 0, 1, 1⟩⟩ sampleBound sampleSource sampleImage).pixel 1 2
        = qRgb 30 31 32 ∧
    (imageOverlay ⟨4, 4, true, ⟨0, 0, 1, 1⟩⟩ sampleBound sampleSource sampleImage).pixel 1 2
        = qRgb 10 11 12 ∧
    (imageOverlay ⟨4, 4, false, ⟨0, 0, 1, 1⟩⟩ sampleBound sampleSource sampleImage).pixel 1 3
        = qRgb 10 11 12 ∧
    (imageOverlay ⟨4, 4, true, ⟨0, 0, 1, 1⟩⟩ sampleBound sampleSource sampleImage).pixel 1 3
        = 0 ∧
    imageOverlay ⟨4, 4, false, ⟨0, 0, 1, 1⟩⟩ sampleBound sampleSource sampleImage ≠
      imageOverlay ⟨4, 4, true, ⟨0, 0, 1, 1⟩⟩ sampleBound sampleSource sampleImage := by
  have h1 : (compositeFullPage sampleSource 1 3 1 3 sampleImage).pixel 1 2 = qRgb 30 31 32 := by
    decide
  have h2 : (compositeTile sampleSource ⟨4, 4⟩ ⟨0, 0⟩ ⟨4, 4⟩ ⟨1, 1⟩ ⟨3, 3⟩ sampleImage).pixel 1 2
      = qRgb 10 11 12 := by decide
  have h3 : (compositeFullPage sampleSource 1 3 1 3 sampleImage).pixel 1 3 = qRgb 10 11 12 := by
    decide
  have h4 : (compositeTile sampleSource ⟨4, 4⟩ ⟨0, 0⟩ ⟨4, 4⟩ ⟨1, 1⟩ ⟨3, 3⟩ sampleImage).pixel 1 3
      = 0 := by decide
  rw [imageOverlay_sample_fullPage, imageOverlay_sample_tile]
  refine ⟨h1, h2, h3, h4, ?_⟩
  intro h
  have h5 := congrArg (fun im => im.pixel 1 3) h
  simp only [h3, h4] at h5
  exact absurd h5 (by decide)

/-- C4, evaluated on a 4 × 4 page with the annotation rectangle `(1, 1)`-`(3, 3)`
(so `xMin = yMin = 1`, `xMax = yMax = 3`) and a 2 × 2 source of 16 bytes: the
destination pixel `(1, 2)`, for which `yMax - 1 - y = 0`, does not receive the
first pixel of source row 0 but the first pixel of source row `yMax - y = 1`;
the destination pixel `(1, 1)` of the annotation's top row is written from
index 16, which lies beyond the vector; and the row `y = yMax = 3`, outside the
annotation rectangle, is written from source row 0. -/
theorem fullPage_rows_off_by_one :
    (compositeFullPage sampleSource 1 3 1 3 sampleImage).pixel 1 2 = colourAt sampleSource 8 ∧
    colourAt sampleSource 8 = qRgb 30 31 32 ∧
    colourAt sampleSource (4 * ((3 - 1 - 2) * (3 - 1) + (1 - 1))) = qRgb 10 11 12 ∧
    (compositeFullPage sampleSource 1 3 1 3 sampleImage).pixel 1 2 ≠
      colourAt sampleSource (4 * ((3 - 1 - 2) * (3 - 1) + (1 - 1))) ∧
    (compositeFullPage sampleSource 1 3 1 3 sampleImage).pixel 1 1 = colourAt sampleSource 16 ∧
    sampleSource.bytes.length = 16 ∧
    (compositeFullPage sampleSource 1 3 1 3 sampleImage).pixel 1 3 = colourAt sampleSource 0 := by
  refine ⟨by decide, by decide, by decide, by decide, by decide, by decide, by decide⟩

/-- C5, evaluated on a 4 × 4 page with the annotation rectangle `(1, 1)`-`(3, 3)`
and the packed buffer of `4 * 2 * 2 = 16` bytes, in full-page mode: applied a
second time with the same inputs to the result of the first application, the
compositor does not leave every pixel unchanged. Each pass builds its own
vector, and the pixel `(1, 1)` is written from the index 16, beyond the
vector: after a pass with the memory `g` behind the vector the pixel holds
`qRgb (g 16) (g 17) (g 18)`, so with zeros behind the vector in the first pass
and sevens in the second the two results differ. -/
theorem fullPage_second_pass_differs :
    (∀ g1 g2 : Int → Nat,
      (compositeFullPage ⟨sampleSource.bytes, g1⟩ 1 3 1 3 sampleImage).pixel 1 1 =
        qRgb (g1 16) (g1 17) (g1 18) ∧
      (compositeFullPage ⟨sampleSource.bytes, g2⟩ 1 3 1 3
          (compositeFullPage ⟨sampleSource.bytes, g1⟩ 1 3 1 3 sampleImage)).pixel 1 1 =
        qRgb (g2 16) (g2 17) (g2 18)) ∧
    compositeFullPage ⟨sampleSource.bytes, fun _ => 7⟩ 1 3 1 3
        (compositeFullPage ⟨sampleSource.bytes, fun _ => 0⟩ 1 3 1 3 sampleImage) ≠
      compositeFullPage ⟨sampleSource.bytes, fun _ => 0⟩ 1 3 1 3 sampleImage := by
  have key : ∀ (g : Int → Nat) (img : QImage), img.width = 4 → img.height = 4 →
      (compositeFullPage ⟨sampleSource.bytes, g⟩ 1 3 1 3 img).pixel 1 1 =
        qRgb (g 16) (g 17) (g 18) := by
    intro g img hw hh
    rw [compositeFullPage_pixel, if_pos (by rw [hw, hh]; decide)]
    simp [colourAt, VectorData.read, QColor_rgb, sampleSource]
  have hsize : ∀ g : Int → Nat,
      (compositeFullPage ⟨sampleSource.bytes, g⟩ 1 3 1 3 sampleImage).width = 4 ∧
      (compositeFullPage ⟨sampleSource.bytes, g⟩ 1 3 1 3 sampleImage).height = 4 :=
    fun g => compositeFullPage_size _ _ _ _ _ _
  refine ⟨fun g1 g2 => ⟨key g1 sampleImage rfl rfl, key g2 _ (hsize g1).1 (hsize g1).2⟩, ?_⟩
  intro h
  have h1 := congrArg (fun im => im.pixel 1 1) h
  simp only at h1
  rw [key _ _ (hsize _).1 (hsize _).2, key _ sampleImage rfl rfl] at h1
  exact absurd h1 (by decide)

/-- C3: in tile mode, for a tile lying inside the page, the pixel `(x', y')` of
the tile image is written (with the colour of the source pixel at the running
index, whatever the pixel held before) if and only if the page coordinate
`(x' + tileMin.x, y' + tileMin.y)` lies inside both the tile rectangle and the
annotation rectangle, both half-open; every other pixel of the tile image is
left unchanged. -/
theorem tile_pixel_written_iff (v : VectorData) (rMax tMin tMax aMin aMax : IVec2)
    (w h x' y' : Int) (hx : 0 ≤ x' ∧ x' < w) (hy : 0 ≤ y' ∧ y' < h)
    (htile : 0 ≤ tMin.x ∧ tMax.x ≤ rMax.x ∧ 0 ≤ tMin.y ∧ tMax.y ≤ rMax.y) :
    (inRect tMin tMax (x' + tMin.x) (y' + tMin.y) ∧
        inRect aMin aMax (x' + tMin.x) (y' + tMin.y) →
      WritesPixel (compositeTile v rMax tMin tMax aMin aMax) w h x' y'
        (colourAt v (tileIndex rMax aMin aMax (x' + tMin.x) (y' + tMin.y)))) ∧
    (¬ (inRect tMin tMax (x' + tMin.x) (y' + tMin.y) ∧
        inRect aMin aMax (x' + tMin.x) (y' + tMin.y)) →
      KeepsPixel (compositeTile v rMax tMin tMax aMin aMax) w h x' y') ∧
    ((∃ c, WritesPixel (compositeTile v rMax tMin tMax aMin aMax) w h x' y' c) ↔
      inRect tMin tMax (x' + tMin.x) (y' + tMin.y) ∧
        inRect aMin aMax (x' + tMin.x) (y' + tMin.y)) := by
  have hw : inRect tMin tMax (x' + tMin.x) (y' + tMin.y) ∧
        inRect aMin aMax (x' + tMin.x) (y' + tMin.y) →
      WritesPixel (compositeTile v rMax tMin tMax aMin aMax) w h x' y'
        (colourAt v (tileIndex rMax aMin aMax (x' + tMin.x) (y' + tMin.y))) := by
    rintro ⟨hT, hA⟩ pix
    unfold inRect at hT hA
    rw [compositeTile_pixel, if_pos]
    simp only
    omega
  have hk : ¬ (inRect tMin tMax (x' + tMin.x) (y' + tMin.y) ∧
        inRect aMin aMax (x' + tMin.x) (y' + tMin.y)) →
      KeepsPixel (compositeTile v rMax tMin tMax aMin aMax) w h x' y' := by
    intro hn pix
    unfold inRect at hn
    rw [compositeTile_pixel, if_neg]
    simp only
    omega
  refine ⟨hw, hk, ?_, fun hb => ⟨_, hw hb⟩⟩
  rintro ⟨c, hc⟩
  by_contra hn
  have h1 := hc (fun _ _ => c + 1)
  rw [hk hn (fun _ _ => c + 1)] at h1
  omega

/-- C3, the 1000 × 1000 page: the annotation boundary `(0.2, 0.2)`-`(0.6, 0.6)`
has the pixel rectangle `(200, 200)`-`(600, 600)`, the right-half tile
`(0.5, 0)`-`(1, 1)` the pixel rectangle `(500, 0)`-`(1000, 1000)`, and in the
500 × 1000 tile image exactly the pixels with `0 ≤ x' < 100` and
`200 ≤ y' < 600` are written: `(50, 300)` is, `(100, 300)` and `(50, 199)` are not. -/
theorem tile_pixel_written_iff_right_half :
    annotationPixelRect ⟨1000, 1000, true, ⟨1 / 2, 0, 1, 1⟩⟩ ⟨1 / 5, 1 / 5, 3 / 5, 3 / 5⟩ =
      (200, 600, 200, 600) ∧
    imageOverlay ⟨1000, 1000, true, ⟨1 / 2, 0, 1, 1⟩⟩ ⟨1 / 5, 1 / 5, 3 / 5, 3 / 5⟩ sampleSource =
      compositeTile sampleSource ⟨1000, 1000⟩ ⟨500, 0⟩ ⟨1000, 1000⟩ ⟨200, 200⟩ ⟨600, 600⟩ ∧
    (∃ c, WritesPixel (compositeTile sampleSource ⟨1000, 1000⟩ ⟨500, 0⟩ ⟨1000, 1000⟩
      ⟨200, 200⟩ ⟨600, 600⟩) 500 1000 50 300 c) ∧
    KeepsPixel (compositeTile sampleSource ⟨1000, 1000⟩ ⟨500, 0⟩ ⟨1000, 1000⟩
      ⟨200, 200⟩ ⟨600, 600⟩) 500 1000 100 300 ∧
    KeepsPixel (compositeTile sampleSource ⟨1000, 1000⟩ ⟨500, 0⟩ ⟨1000, 1000⟩
      ⟨200, 200⟩ ⟨600, 600⟩) 500 1000 50 199 ∧
    (∀ x' y' : Int, 0 ≤ x' ∧ x' < 500 → 0 ≤ y' ∧ y' < 1000 →
      ((∃ c, WritesPixel (compositeTile sampleSource ⟨1000, 1000⟩ ⟨500, 0⟩ ⟨1000, 1000⟩
        ⟨200, 200⟩ ⟨600, 600⟩) 500 1000 x' y' c) ↔ (x' < 100 ∧ 200 ≤ y' ∧ y' < 600))) := by
  have e0 : toInt (((1000 : Int) : ℚ) * 0) = 0 := by norm_num [toInt]
  have e1 : toInt (((1000 : Int) : ℚ) * 1) = 1000 := by norm_num [toInt]
  have e2 : toInt (((1000 : Int) : ℚ) * (1 / 2)) = 500 := by norm_num [toInt]
  have e3 : toInt (((1000 : Int) : ℚ) * (1 / 5)) = 200 := by norm_num [toInt]
  have e4 : toInt (((1000 : Int) : ℚ) * (3 / 5)) = 600 := by norm_num [toInt]
  refine ⟨?_, ?_, ?_, ?_, ?_, ?_⟩
  · simp only [annotationPixelRect, e3, e4]
    decide
  · funext img
    simp only [imageOverlay, Bool.not_true, Bool.false_eq_true, if_false, e0, e1, e2, e3, e4]
  · exact (tile_pixel_written_iff sampleSource ⟨1000, 1000⟩ ⟨500, 0⟩ ⟨1000, 1000⟩ ⟨200, 200⟩
      ⟨600, 600⟩ 500 1000 50 300 (by decide) (by decide) (by decide)).2.2.2
      (by simp only [inRect]; decide)
  · exact (tile_pixel_written_iff sampleSource ⟨1000, 1000⟩ ⟨500, 0⟩ ⟨1000, 1000⟩ ⟨200, 200⟩
      ⟨600, 600⟩ 500 1000 100 300 (by decide) (by decide) (by decide)).2.1
      (by simp only [inRect]; decide)
  · exact (tile_pixel_written_iff sampleSource ⟨1000, 1000⟩ ⟨500, 0⟩ ⟨1000, 1000⟩ ⟨200, 200⟩
      ⟨600, 600⟩ 500 1000 50 199 (by decide) (by decide) (by decide)).2.1
      (by simp only [inRect]; decide)
  · intro x' y' hx hy
    rw [(tile_pixel_written_iff sampleSource ⟨1000, 1000⟩ ⟨500, 0⟩ ⟨1000, 1000⟩ ⟨200, 200⟩
      ⟨600, 600⟩ 500 1000 x' y' hx hy (by decide)).2.2]
    simp only [inRect]
    omega

/-! ## Rotation -/

section Rotation

variable {F : Type} [LinearOrderedField F]

/-- C8: a Rotate-mode step whose previous and current pointer positions are
the same position `p` leaves the rotation matrix (and the whole state) as it
was, for every `p` and every zoom. -/
theorem dragModeRotate_same_position (glm : Glm F) (p : Vec2 F) (s : PDFGenerator F) :
    (dragModeRotate glm p p s).m_RotationMatrix = s.m_RotationMatrix ∧
    dragModeRotate glm p p s = s := by
  simp [dragModeRotate]

end Rotation

/-- C10: for every header, `initProjection` sets the zoom to
`header.initialZoom`, the pivot to `(0, 0, (minBound.z + maxBound.z) / 2)`,
`H` to `-tan(0.5 * angleOfView) * maxBound.z`, the frustum z-range to
`[minBound.z, maxBound.z]` and the shift to `(0, 0)`. With the real tangent, an
angle of view of 60 degrees (`π / 3`), initial zoom 1 and z-bounds -10 and 10
it gives `pivot.z = 0`, `H = -10 / √3`, which lies between -5.7736 and
-5.7735, and zoom 1. -/
theorem initProjection_sets :
    (∀ (F : Type) [LinearOrderedField F] (lib : LibM F) (hdr : HeaderInfo F)
        (s : PDFGenerator F),
      (initProjection lib hdr s).m_Zoom = hdr.initialZoom ∧
      (initProjection lib hdr s).m_Center = ⟨0, 0, (hdr.minBound.z + hdr.maxBound.z) / 2⟩ ∧
      (initProjection lib hdr s).m_H = -lib.tan (0.5 * hdr.angleOfView) * hdr.maxBound.z ∧
      (initProjection lib hdr s).m_ViewParam.minValues.z = hdr.minBound.z ∧
      (initProjection lib hdr s).m_ViewParam.maxValues.z = hdr.maxBound.z ∧
      (initProjection lib hdr s).m_Shift = ⟨0, 0⟩) ∧
    (∀ s : PDFGenerator ℝ,
      (initProjection ⟨Real.tan, Real.log, Real.sqrt, fun x y => x ^ y⟩
        (sampleHeader (Real.pi / 3) 1 2 1) s).m_Center.z = 0 ∧
      (initProjection ⟨Real.tan, Real.log, Real.sqrt, fun x y => x ^ y⟩
        (sampleHeader (Real.pi / 3) 1 2 1) s).m_H = -10 / Real.sqrt 3 ∧
      -5.7736 < (initProjection ⟨Real.tan, Real.log, Real.sqrt, fun x y => x ^ y⟩
        (sampleHeader (Real.pi / 3) 1 2 1) s).m_H ∧
      (initProjection ⟨Real.tan, Real.log, Real.sqrt, fun x y => x ^ y⟩
        (sampleHeader (Real.pi / 3) 1 2 1) s).m_H < -5.7735 ∧
      (initProjection ⟨Real.tan, Real.log, Real.sqrt, fun x y => x ^ y⟩
        (sampleHeader (Real.pi / 3) 1 2 1) s).m_Zoom = 1) := by
  constructor
  · intro F _ lib hdr s
    refine ⟨rfl, ?_, rfl, rfl, rfl, rfl⟩
    simp only [initProjection]
    congr 1
    norm_num
    ring
  · intro s
    have hH : (initProjection ⟨Real.tan, Real.log, Real.sqrt, fun x y => x ^ y⟩
        (sampleHeader (Real.pi / 3) 1 2 1) s).m_H = -10 / Real.sqrt 3 := by
      simp only [initProjection, sampleHeader]
      have e : (0.5 : ℝ) * (Real.pi / 3) = Real.pi / 6 := by norm_num; ring
      rw [e, Real.tan_pi_div_six]
      ring
    have h3 : (0 : ℝ) < Real.sqrt 3 := Real.sqrt_pos.mpr (by norm_num)
    have hlo : (1.73205 : ℝ) < Real.sqrt 3 := by
      rw [Real.lt_sqrt (by norm_num)]; norm_num
    have hhi : Real.sqrt 3 < (1.732051 : ℝ) := by
      rw [Real.sqrt_lt' (by norm_num)]; norm_num
    refine ⟨?_, hH, ?_, ?_, rfl⟩
    · simp only [initProjection, sampleHeader]
      norm_num
    · rw [hH, neg_div, neg_lt_neg_iff, div_lt_iff₀ h3]
      nlinarith
    · rw [hH, neg_div, neg_lt_neg_iff, lt_div_iff₀ h3]
      nlinarith

section Zoom

variable {F : Type} [LinearOrderedField F]

theorem dragModeZoom_in_range (lib : LibM F) (hdr : HeaderInfo F) (cur last : Vec2 F)
    (s : PDFGenerator F)
    (hs : 1 / lib.sqrt FLOAT_MAX ≤ s.m_Zoom ∧ s.m_Zoom ≤ lib.sqrt FLOAT_MAX) :
    1 / lib.sqrt FLOAT_MAX ≤ (dragModeZoom lib hdr cur last s).m_Zoom ∧
    (dragModeZoom lib hdr cur last s).m_Zoom ≤ lib.sqrt FLOAT_MAX := by
  have hmm : 1 / lib.sqrt FLOAT_MAX ≤ lib.sqrt FLOAT_MAX := le_trans hs.1 hs.2
  unfold dragModeZoom
  simp only
  split
  · split
    · exact ⟨le_rfl, hmm⟩
    · split
      · exact ⟨hmm, le_rfl⟩
      · rename_i h1 h2
        exact ⟨le_of_lt (not_le.mp h1), le_of_lt (not_le.mp h2)⟩
  · exact hs

theorem dragModeZoom_clamps (lib : LibM F) (hdr : HeaderInfo F) (cur last : Vec2 F)
    (s : PDFGenerator F) (hsqrt : 1 / lib.sqrt FLOAT_MAX ≤ lib.sqrt FLOAT_MAX)
    (hg : zoomGuard lib hdr s.m_PageViewDimensions.y cur last) :
    1 / lib.sqrt FLOAT_MAX ≤ (dragModeZoom lib hdr cur last s).m_Zoom ∧
    (dragModeZoom lib hdr cur last s).m_Zoom ≤ lib.sqrt FLOAT_MAX := by
  unfold zoomGuard at hg
  unfold dragModeZoom
  simp only [hg, if_true]
  split
  · exact ⟨le_rfl, hsqrt⟩
  · split
    · exact ⟨hsqrt, le_rfl⟩
    · rename_i h1 h2
      exact ⟨le_of_lt (not_le.mp h1), le_of_lt (not_le.mp h2)⟩

theorem dragModeZoom_blocked (lib : LibM F) (hdr : HeaderInfo F) (cur last : Vec2 F)
    (s : PDFGenerator F) (hg : ¬ zoomGuard lib hdr s.m_PageViewDimensions.y cur last) :
    dragModeZoom lib hdr cur last s = s := by
  unfold zoomGuard at hg
  unfold dragModeZoom
  simp only [hg, if_false]

theorem dragModeZoom_pageView (lib : LibM F) (hdr : HeaderInfo F) (cur last : Vec2 F)
    (s : PDFGenerator F) :
    (dragModeZoom lib hdr cur last s).m_PageViewDimensions = s.m_PageViewDimensions := by
  unfold dragModeZoom
  simp only
  split
  · split
    · rfl
    · split <;> rfl
  · rfl

theorem zoomDrags_in_range (lib : LibM F) (hdr : HeaderInfo F) :
    ∀ (l : List (Vec2 F × Vec2 F)) (t : PDFGenerator F),
      (1 / lib.sqrt FLOAT_MAX ≤ t.m_Zoom ∧ t.m_Zoom ≤ lib.sqrt FLOAT_MAX) →
      1 / lib.sqrt FLOAT_MAX ≤ (zoomDrags lib hdr l t).m_Zoom ∧
      (zoomDrags lib hdr l t).m_Zoom ≤ lib.sqrt FLOAT_MAX := by
  intro l
  induction l with
  | nil => intro t ht; simpa [zoomDrags] using ht
  | cons p ps ih =>
    intro t ht
    simp only [zoomDrags]
    exact ih _ (dragModeZoom_in_range lib hdr _ _ _ ht)

theorem zoomDrags_after_guard (lib : LibM F) (hdr : HeaderInfo F)
    (hsqrt : 1 / lib.sqrt FLOAT_MAX ≤ lib.sqrt FLOAT_MAX) :
    ∀ (l : List (Vec2 F × Vec2 F)) (t : PDFGenerator F),
      (∃ p ∈ l, zoomGuard lib hdr t.m_PageViewDimensions.y p.1 p.2) →
      1 / lib.sqrt FLOAT_MAX ≤ (zoomDrags lib hdr l t).m_Zoom ∧
      (zoomDrags lib hdr l t).m_Zoom ≤ lib.sqrt FLOAT_MAX := by
  intro l
  induction l with
  | nil => rintro t ⟨p, hp, -⟩; simp at hp
  | cons q qs ih =>
    rintro t ⟨p, hp, hg⟩
    simp only [zoomDrags]
    by_cases hq : zoomGuard lib hdr t.m_PageViewDimensions.y q.1 q.2
    · exact zoomDrags_in_range lib hdr qs _ (dragModeZoom_clamps lib hdr _ _ _ hsqrt hq)
    · rcases List.mem_cons.mp hp with rfl | hp
      · exact absurd hg hq
      · rw [dragModeZoom_blocked lib hdr _ _ _ hq]
        exact ih t ⟨p, hp, hg⟩

theorem zoomDrags_all_blocked (lib : LibM F) (hdr : HeaderInfo F) :
    ∀ (l : List (Vec2 F × Vec2 F)) (t : PDFGenerator F),
      (∀ p ∈ l, ¬ zoomGuard lib hdr t.m_PageViewDimensions.y p.1 p.2) →
      zoomDrags lib hdr l t = t := by
  intro l
  induction l with
  | nil => intro t _; rfl
  | cons q qs ih =>
    intro t h
    simp only [zoomDrags]
    rw [dragModeZoom_blocked lib hdr _ _ _ (h q (List.mem_cons_self _ _))]
    exact ih t (fun p hp => h p (List.mem_cons_of_mem _ hp))

/-- C1, amended: with `sqrt(FLOAT_MAX)` at least its own reciprocal, the zoom
after `initProjection` and any finite run of Zoom-mode drag steps, with any
pointer positions, lies in `[1 / sqrt(FLOAT_MAX), sqrt(FLOAT_MAX)]` provided that
`header.initialZoom` lies in that range or that at least one step of the run
passes the overflow guard; when no step passes the guard the zoom still is
`header.initialZoom`. -/
theorem zoom_stays_in_range (lib : LibM F) (hdr : HeaderInfo F)
    (steps : List (Vec2 F × Vec2 F)) (s : PDFGenerator F)
    (hsqrt : 1 / lib.sqrt FLOAT_MAX ≤ lib.sqrt FLOAT_MAX) :
    (((1 / lib.sqrt FLOAT_MAX ≤ hdr.initialZoom ∧ hdr.initialZoom ≤ lib.sqrt FLOAT_MAX) ∨
        ∃ p ∈ steps, zoomGuard lib hdr s.m_PageViewDimensions.y p.1 p.2) →
      1 / lib.sqrt FLOAT_MAX ≤ (zoomDrags lib hdr steps (initProjection lib hdr s)).m_Zoom ∧
      (zoomDrags lib hdr steps (initProjection lib hdr s)).m_Zoom ≤ lib.sqrt FLOAT_MAX) ∧
    ((∀ p ∈ steps, ¬ zoomGuard lib hdr s.m_PageViewDimensions.y p.1 p.2) →
      (zoomDrags lib hdr steps (initProjection lib hdr s)).m_Zoom = hdr.initialZoom) := by
  constructor
  · rintro (hinit | hpass)
    · exact zoomDrags_in_range lib hdr steps _ hinit
    · exact zoomDrags_after_guard lib hdr hsqrt steps _ hpass
  · intro hall
    rw [zoomDrags_all_blocked lib hdr steps (initProjection lib hdr s) hall]
    rfl

end Zoom

theorem sqrt_FLOAT_MAX_bounds :
    (1 : ℝ) ≤ Real.sqrt FLOAT_MAX ∧ Real.sqrt FLOAT_MAX < 10 ^ 30 := by
  constructor
  · rw [Real.le_sqrt (by norm_num) (by norm_num [FLOAT_MAX])]
    norm_num [FLOAT_MAX]
  · rw [Real.sqrt_lt' (by norm_num)]
    norm_num [FLOAT_MAX]

/-- C1, amended, at a concrete input: real library functions, initial zoom 1,
zoom factor 1.1, zoom step 0.01, a page view 600 pixels high and one drag step
with normalized delta 0.1. -/
theorem zoom_stays_in_range_one_step :
    1 / Real.sqrt FLOAT_MAX ≤
      (zoomDrags ⟨Real.tan, Real.log, Real.sqrt, fun x y => x ^ y⟩
        (sampleHeader 1 1 1.1 0.01) [(⟨0, 0⟩, ⟨0, 0.1⟩)]
        (initProjection ⟨Real.tan, Real.log, Real.sqrt, fun x y => x ^ y⟩
          (sampleHeader 1 1 1.1 0.01) (PDFGenerator.constructed 800 600))).m_Zoom ∧
    (zoomDrags ⟨Real.tan, Real.log, Real.sqrt, fun x y => x ^ y⟩
        (sampleHeader 1 1 1.1 0.01) [(⟨0, 0⟩, ⟨0, 0.1⟩)]
        (initProjection ⟨Real.tan, Real.log, Real.sqrt, fun x y => x ^ y⟩
          (sampleHeader 1 1 1.1 0.01) (PDFGenerator.constructed 800 600))).m_Zoom ≤
      Real.sqrt FLOAT_MAX :=
  (zoom_stays_in_range ⟨Real.tan, Real.log, Real.sqrt, fun x y => x ^ y⟩
    (sampleHeader 1 1 1.1 0.01) [(⟨0, 0⟩, ⟨0, 0.1⟩)] (PDFGenerator.constructed 800 600)
    (by
      have h := sqrt_FLOAT_MAX_bounds.1
      rw [div_le_iff₀ (by linarith)]
      nlinarith)).1
    (Or.inl ⟨by
      have h := sqrt_FLOAT_MAX_bounds.1
      simp only [sampleHeader]
      rw [div_le_iff₀ (by linarith)]
      linarith,
     by simpa [sampleHeader] using sqrt_FLOAT_MAX_bounds.1⟩)

/-- C1 as stated fails: with the real library functions, a header with initial
zoom `10^-30`, zoom factor 2 and zoom step 1, and a page view 600 pixels high,
one Zoom-mode drag step over two thirds of the normalized height (200 pixels)
has `stepPower = 200`, which fails the overflow guard, so the zoom stays at
`10^-30`, below `1 / sqrt(FLOAT_MAX)`. -/
theorem zoom_below_range_after_drag :
    ¬ (1 / Real.sqrt FLOAT_MAX ≤
      (zoomDrags ⟨Real.tan, Real.log, Real.sqrt, fun x y => x ^ y⟩
        (sampleHeader 1 (1 / 10 ^ 30) 2 1) [(⟨0, 0⟩, ⟨0, 2 / 3⟩)]
        (initProjection ⟨Real.tan, Real.log, Real.sqrt, fun x y => x ^ y⟩
          (sampleHeader 1 (1 / 10 ^ 30) 2 1) (PDFGenerator.constructed 800 600))).m_Zoom) := by
  have hlog2 : 0 < Real.log 2 := Real.log_pos (by norm_num)
  have hguard : ¬ (|(1 : ℝ) * (600 / 2) * (2 / 3 - 0)| <
      Real.log (0.1 * FLOAT_MAX) / Real.log 2) := by
    have h1 : Real.log (0.1 * FLOAT_MAX) ≤ Real.log ((2 : ℝ) ^ 200) :=
      Real.log_le_log (by norm_num [FLOAT_MAX]) (by norm_num [FLOAT_MAX])
    rw [Real.log_pow] at h1
    rw [not_lt, div_le_iff₀ hlog2]
    have h2 : |(1 : ℝ) * (600 / 2) * (2 / 3 - 0)| = 200 := by norm_num
    rw [h2]
    exact_mod_cast h1
  have hz : (zoomDrags ⟨Real.tan, Real.log, Real.sqrt, fun x y => x ^ y⟩
        (sampleHeader 1 (1 / 10 ^ 30) 2 1) [(⟨0, 0⟩, ⟨0, 2 / 3⟩)]
        (initProjection ⟨Real.tan, Real.log, Real.sqrt, fun x y => x ^ y⟩
          (sampleHeader 1 (1 / 10 ^ 30) 2 1) (PDFGenerator.constructed 800 600))).m_Zoom
      = 1 / 10 ^ 30 := by
    simp only [zoomDrags, dragModeZoom, initProjection, sampleHeader,
      PDFGenerator.constructed]
    rw [if_neg hguard]
  rw [hz, not_le]
  have hpos : (0 : ℝ) < Real.sqrt FLOAT_MAX := by linarith [sqrt_FLOAT_MAX_bounds.1]
  exact one_div_lt_one_div_of_lt hpos sqrt_FLOAT_MAX_bounds.2

/-! ## Debounced refresh -/

section Refresh

variable {F : Type}

theorem refreshPixmap_length (s : PDFGenerator F) :
    (refreshPixmap s).wheelEvents.length = s.wheelEvents.length + 1 := by
  unfold refreshPixmap
  split <;> simp

theorem requestPixmapRefresh_emitted (now nowAfter : ℚ) (s : PDFGenerator F)
    (h : now - s.m_LastPixmapRefreshTime > m_MinTimeBetweenRefreshes) :
    (requestPixmapRefresh now nowAfter s).wheelEvents.length = s.wheelEvents.length + 1 ∧
    (requestPixmapRefresh now nowAfter s).m_LastPixmapRefreshTime = nowAfter := by
  unfold requestPixmapRefresh
  simp only [h, if_true]
  exact ⟨refreshPixmap_length s, trivial⟩

theorem requestPixmapRefresh_dropped (now nowAfter : ℚ) (s : PDFGenerator F)
    (h : now - s.m_LastPixmapRefreshTime ≤ m_MinTimeBetweenRefreshes) :
    requestPixmapRefresh now nowAfter s = s := by
  unfold requestPixmapRefresh
  simp only [gt_iff_lt, not_lt.mpr h, if_false]

/-- C6, amended: of two refresh requests at clock readings `t1 ≤ t2` less than
10 ms apart at most one calls `refreshPixmap`: exactly one does when at `t2`
more than 10 ms have passed since the last-refresh time held before the two
requests, and none does otherwise. -/
theorem two_close_requests_emit_at_most_once (s : PDFGenerator F) (t1 t1' t2 t2' : ℚ)
    (h1 : t1 ≤ t1') (h12 : t1 ≤ t2) (hclose : t2 - t1 < m_MinTimeBetweenRefreshes) :
    (requestPixmapRefresh t2 t2' (requestPixmapRefresh t1 t1' s)).wheelEvents.length =
      s.wheelEvents.length +
        (if t2 - s.m_LastPixmapRefreshTime > m_MinTimeBetweenRefreshes then 1 else 0) := by
  by_cases hfirst : t1 - s.m_LastPixmapRefreshTime > m_MinTimeBetweenRefreshes
  · obtain ⟨e1, e2⟩ := requestPixmapRefresh_emitted t1 t1' s hfirst
    have hsecond : t2 - (requestPixmapRefresh t1 t1' s).m_LastPixmapRefreshTime ≤
        m_MinTimeBetweenRefreshes := by rw [e2]; linarith
    rw [requestPixmapRefresh_dropped t2 t2' _ hsecond, e1, if_pos (by linarith)]
  · rw [requestPixmapRefresh_dropped t1 t1' s (not_lt.mp hfirst)]
    by_cases hsecond : t2 - s.m_LastPixmapRefreshTime > m_MinTimeBetweenRefreshes
    · rw [(requestPixmapRefresh_emitted t2 t2' s hsecond).1, if_pos hsecond]
    · rw [requestPixmapRefresh_dropped t2 t2' s (not_lt.mp hsecond), if_neg hsecond]
      rfl

theorem emittedRequests_after (reqs : List (ℚ × ℚ)) :
    ∀ (s : PDFGenerator F), (∀ p ∈ reqs, p.1 ≤ p.2) →
      ∀ e ∈ emittedRequests reqs s,
        e.1 - s.m_LastPixmapRefreshTime > m_MinTimeBetweenRefreshes := by
  induction reqs with
  | nil => intro s _ e he; simp [emittedRequests] at he
  | cons p ps ih =>
    intro s hreq e he
    have hps : ∀ q ∈ ps, q.1 ≤ q.2 := fun q hq => hreq q (List.mem_cons_of_mem _ hq)
    have hp : p.1 ≤ p.2 := hreq p (List.mem_cons_self _ _)
    simp only [emittedRequests, emitsRefresh, decide_eq_true_eq] at he
    by_cases hemit : p.1 - s.m_LastPixmapRefreshTime > m_MinTimeBetweenRefreshes
    · rw [if_pos hemit] at he
      rcases List.mem_cons.mp he with rfl | he
      · exact hemit
      · have h2 := ih (requestPixmapRefresh p.1 p.2 s) hps e he
        rw [(requestPixmapRefresh_emitted p.1 p.2 s hemit).2] at h2
        have hm : (0 : ℚ) < m_MinTimeBetweenRefreshes := by norm_num [m_MinTimeBetweenRefreshes]
        linarith
    · rw [if_neg hemit] at he
      have h2 := ih (requestPixmapRefresh p.1 p.2 s) hps e he
      rwa [requestPixmapRefresh_dropped p.1 p.2 s (not_lt.mp hemit)] at h2

/-- C7, amended: a request arriving when at most 10 ms have passed since the
last-refresh time is dropped and leaves the state (so the last-refresh time)
unchanged; a request arriving when more than 10 ms have passed calls
`refreshPixmap` once and stores the clock reading taken after it; and in every
finite run of requests whose two clock readings are in order, any two requests
that call `refreshPixmap` are more than 10 ms apart (the later one arrives
more than 10 ms after the time stored by the earlier one), the number of
refreshes sent being the number of such requests. -/
theorem refreshes_more_than_interval_apart (reqs : List (ℚ × ℚ)) (s : PDFGenerator F)
    (hreq : ∀ p ∈ reqs, p.1 ≤ p.2) :
    (∀ (now nowAfter : ℚ) (t : PDFGenerator F),
      now - t.m_LastPixmapRefreshTime ≤ m_MinTimeBetweenRefreshes →
        requestPixmapRefresh now nowAfter t = t) ∧
    (∀ (now nowAfter : ℚ) (t : PDFGenerator F),
      now - t.m_LastPixmapRefreshTime > m_MinTimeBetweenRefreshes →
        (requestPixmapRefresh now nowAfter t).wheelEvents.length = t.wheelEvents.length + 1 ∧
        (requestPixmapRefresh now nowAfter t).m_LastPixmapRefreshTime = nowAfter) ∧
    List.Pairwise (fun a b => b.1 - a.2 > m_MinTimeBetweenRefreshes)
      (emittedRequests reqs s) ∧
    (refreshRequests reqs s).wheelEvents.length =
      s.wheelEvents.length + (emittedRequests reqs s).length := by
  refine ⟨fun now nowAfter t h => requestPixmapRefresh_dropped now nowAfter t h,
    fun now nowAfter t h => requestPixmapRefresh_emitted now nowAfter t h, ?_, ?_⟩
  · induction reqs generalizing s with
    | nil => simp [emittedRequests]
    | cons p ps ih =>
      have hps : ∀ q ∈ ps, q.1 ≤ q.2 := fun q hq => hreq q (List.mem_cons_of_mem _ hq)
      simp only [emittedRequests, emitsRefresh, decide_eq_true_eq]
      by_cases hemit : p.1 - s.m_LastPixmapRefreshTime > m_MinTimeBetweenRefreshes
      · rw [if_pos hemit]
        refine List.Pairwise.cons ?_ (ih _ hps)
        intro e he
        have h2 := emittedRequests_after ps (requestPixmapRefresh p.1 p.2 s) hps e he
        rwa [(requestPixmapRefresh_emitted p.1 p.2 s hemit).2] at h2
      · rw [if_neg hemit]
        exact ih _ hps
  · induction reqs generalizing s with
    | nil => simp [emittedRequests, refreshRequests]
    | cons p ps ih =>
      have hps : ∀ q ∈ ps, q.1 ≤ q.2 := fun q hq => hreq q (List.mem_cons_of_mem _ hq)
      simp only [emittedRequests, refreshRequests, emitsRefresh, decide_eq_true_eq]
      rw [ih _ hps]
      by_cases hemit : p.1 - s.m_LastPixmapRefreshTime > m_MinTimeBetweenRefreshes
      · rw [if_pos hemit, (requestPixmapRefresh_emitted p.1 p.2 s hemit).1,
          List.length_cons]
        omega
      · rw [if_neg hemit, requestPixmapRefresh_dropped p.1 p.2 s (not_lt.mp hemit)]

end Refresh

/-- C6 as stated fails: after a request at clock reading 1000 s has sent a
refresh, the two requests at 1000.002 s and 1000.005 s, 3 ms apart, send
none. -/
theorem two_close_requests_emit_nothing :
    (requestPixmapRefresh 1000 1000 (PDFGenerator.constructed (800 : ℚ) 600)).wheelEvents
      = [1] ∧
    ((1000 + 5 / 1000 : ℚ) - (1000 + 2 / 1000) < m_MinTimeBetweenRefreshes) ∧
    (requestPixmapRefresh (1000 + 5 / 1000) (1000 + 5 / 1000)
      (requestPixmapRefresh (1000 + 2 / 1000) (1000 + 2 / 1000)
        (requestPixmapRefresh 1000 1000 (PDFGenerator.constructed (800 : ℚ) 600)))).wheelEvents
      = [1] := by
  have h0 : requestPixmapRefresh 1000 1000 (PDFGenerator.constructed (800 : ℚ) 600) =
      { refreshPixmap (PDFGenerator.constructed (800 : ℚ) 600) with
        m_LastPixmapRefreshTime := 1000 } := by
    unfold requestPixmapRefresh
    rw [if_pos]
    norm_num [PDFGenerator.constructed, m_MinTimeBetweenRefreshes]
  have h1 : (requestPixmapRefresh 1000 1000
      (PDFGenerator.constructed (800 : ℚ) 600)).wheelEvents = [1] := by
    rw [h0]; simp [refreshPixmap, PDFGenerator.constructed]
  have h2 : (requestPixmapRefresh 1000 1000
      (PDFGenerator.constructed (800 : ℚ) 600)).m_LastPixmapRefreshTime = 1000 := by
    rw [h0]
  refine ⟨h1, by norm_num [m_MinTimeBetweenRefreshes], ?_⟩
  rw [requestPixmapRefresh_dropped (1000 + 2 / 1000) (1000 + 2 / 1000) _
    (by rw [h2]; norm_num [m_MinTimeBetweenRefreshes]),
    requestPixmapRefresh_dropped (1000 + 5 / 1000) (1000 + 5 / 1000) _
    (by rw [h2]; norm_num [m_MinTimeBetweenRefreshes]), h1]

/-- C6, amended, at a concrete input: from the state the constructor leaves
(last-refresh time 0), requests at 1000 s and 1000.003 s send exactly one
refresh. -/
theorem two_close_requests_emit_at_most_once_from_start :
    (requestPixmapRefresh (1000 + 3 / 1000) (1000 + 3 / 1000)
      (requestPixmapRefresh 1000 1000
        (PDFGenerator.constructed (800 : ℚ) 600))).wheelEvents.length =
      (PDFGenerator.constructed (800 : ℚ) 600).wheelEvents.length +
        (if (1000 + 3 / 1000 : ℚ) -
            (PDFGenerator.constructed (800 : ℚ) 600).m_LastPixmapRefreshTime >
          m_MinTimeBetweenRefreshes then 1 else 0) :=
  two_close_requests_emit_at_most_once (PDFGenerator.constructed (800 : ℚ) 600)
    1000 1000 (1000 + 3 / 1000) (1000 + 3 / 1000) (by norm_num) (by norm_num)
    (by norm_num [m_MinTimeBetweenRefreshes])

/-- C7 as stated fails at the boundary: after a refresh whose stored time is
1000 s, a request arriving at 1000.01 s, when the 10 ms interval has elapsed,
is dropped. -/
theorem request_after_exactly_interval_dropped :
    (1000 + 1 / 100 : ℚ) -
        (requestPixmapRefresh 1000 1000
          (PDFGenerator.constructed (800 : ℚ) 600)).m_LastPixmapRefreshTime ≥
      m_MinTimeBetweenRefreshes ∧
    requestPixmapRefresh (1000 + 1 / 100) (1000 + 1 / 100)
        (requestPixmapRefresh 1000 1000 (PDFGenerator.constructed (800 : ℚ) 600)) =
      requestPixmapRefresh 1000 1000 (PDFGenerator.constructed (800 : ℚ) 600) := by
  have h2 : (requestPixmapRefresh 1000 1000
      (PDFGenerator.constructed (800 : ℚ) 600)).m_LastPixmapRefreshTime = 1000 :=
    (requestPixmapRefresh_emitted 1000 1000 _
      (by norm_num [PDFGenerator.constructed, m_MinTimeBetweenRefreshes])).2
  refine ⟨by rw [h2]; norm_num [m_MinTimeBetweenRefreshes], ?_⟩
  exact requestPixmapRefresh_dropped _ _ _ (by rw [h2]; norm_num [m_MinTimeBetweenRefreshes])

/-- C7, amended, at a concrete input: of the requests at 1000 s, 1000.004 s,
1000.010 s, 1000.011 s and 1000.030 s (each taking 1 ms to send its refresh),
the first, the fourth and the fifth send a refresh. -/
theorem refreshes_more_than_interval_apart_five_requests :
    List.Pairwise (fun a b => b.1 - a.2 > m_MinTimeBetweenRefreshes)
      (emittedRequests
        [(1000, 1000 + 1 / 1000), (1000 + 4 / 1000, 1000 + 5 / 1000),
          (1000 + 10 / 1000, 1000 + 11 / 1000), (1000 + 12 / 1000, 1000 + 13 / 1000),
          (1000 + 30 / 1000, 1000 + 31 / 1000)]
        (PDFGenerator.constructed (800 : ℚ) 600)) ∧
    (refreshRequests
        [(1000, 1000 + 1 / 1000), (1000 + 4 / 1000, 1000 + 5 / 1000),
          (1000 + 10 / 1000, 1000 + 11 / 1000), (1000 + 12 / 1000, 1000 + 13 / 1000),
          (1000 + 30 / 1000, 1000 + 31 / 1000)]
        (PDFGenerator.constructed (800 : ℚ) 600)).wheelEvents.length =
      (PDFGenerator.constructed (800 : ℚ) 600).wheelEvents.length +
        (emittedRequests
          [(1000, 1000 + 1 / 1000), (1000 + 4 / 1000, 1000 + 5 / 1000),
            (1000 + 10 / 1000, 1000 + 11 / 1000), (1000 + 12 / 1000, 1000 + 13 / 1000),
            (1000 + 30 / 1000, 1000 + 31 / 1000)]
          (PDFGenerator.constructed (800 : ℚ) 600)).length :=
  (refreshes_more_than_interval_apart
    [(1000, 1000 + 1 / 1000), (1000 + 4 / 1000, 1000 + 5 / 1000),
      (1000 + 10 / 1000, 1000 + 11 / 1000), (1000 + 12 / 1000, 1000 + 13 / 1000),
      (1000 + 30 / 1000, 1000 + 31 / 1000)]
    (PDFGenerator.constructed (800 : ℚ) 600)
    (by
      intro p hp
      simp only [List.mem_cons, List.mem_singleton, List.not_mem_nil, or_false] at hp
      rcases hp with rfl | rfl | rfl | rfl | rfl <;> norm_num)).2.2

/-! ## Zoom step -/

theorem sqrt_FLOAT_MAX_ge_two : (2 : ℝ) ≤ Real.sqrt FLOAT_MAX := by
  rw [Real.le_sqrt (by norm_num) (by norm_num [FLOAT_MAX])]
  norm_num [FLOAT_MAX]

theorem log_tenth_FLOAT_MAX_bounds :
    (1 : ℝ) ≤ Real.log (0.1 * FLOAT_MAX) ∧ Real.log (0.1 * FLOAT_MAX) ≤ 128 * Real.log 2 := by
  constructor
  · rw [Real.le_log_iff_exp_le (by norm_num [FLOAT_MAX])]
    have h := Real.exp_one_lt_d9
    have h2 : (2.7182818286 : ℝ) ≤ 0.1 * FLOAT_MAX := by norm_num [FLOAT_MAX]
    linarith
  · have h1 : Real.log (0.1 * FLOAT_MAX) ≤ Real.log ((2 : ℝ) ^ 128) :=
      Real.log_le_log (by norm_num [FLOAT_MAX]) (by norm_num [FLOAT_MAX])
    rw [Real.log_pow] at h1
    exact_mod_cast h1

theorem rpow_eleven_tenths_bounds :
    (1.0290 : ℝ) < (1.1 : ℝ) ^ (0.3 : ℝ) ∧ (1.1 : ℝ) ^ (0.3 : ℝ) < 1.0291 := by
  have hz : (0 : ℝ) ≤ (1.1 : ℝ) ^ (0.3 : ℝ) := Real.rpow_nonneg (by norm_num) _
  have h10 : ((1.1 : ℝ) ^ (0.3 : ℝ)) ^ (10 : ℕ) = 1.331 := by
    rw [← Real.rpow_natCast, ← Real.rpow_mul (by norm_num)]
    have e : (0.3 : ℝ) * ((10 : ℕ) : ℝ) = ((3 : ℕ) : ℝ) := by norm_num
    rw [e, Real.rpow_natCast]
    norm_num
  constructor
  · by_contra h
    have h1 := pow_le_pow_left₀ hz (not_lt.mp h) 10
    rw [h10] at h1
    norm_num at h1
  · by_contra h
    have h1 := pow_le_pow_left₀ (by norm_num : (0 : ℝ) ≤ 1.0291) (not_lt.mp h) 10
    rw [h10] at h1
    norm_num at h1

section ZoomStep

variable {F : Type} [LinearOrderedField F]

theorem dragModeZoom_passed (lib : LibM F) (hdr : HeaderInfo F) (cur last : Vec2 F)
    (s : PDFGenerator F) (hsqrt : 1 / lib.sqrt FLOAT_MAX ≤ lib.sqrt FLOAT_MAX)
    (hg : zoomGuard lib hdr s.m_PageViewDimensions.y cur last) :
    (dragModeZoom lib hdr cur last s).m_Zoom =
      max (1 / lib.sqrt FLOAT_MAX) (min (lib.sqrt FLOAT_MAX)
        (s.m_Zoom * lib.pow hdr.zoomFactor
          (hdr.zoomStep * (s.m_PageViewDimensions.y / 2) * (last.y - cur.y)))) := by
  unfold zoomGuard at hg
  unfold dragModeZoom
  simp only [hg, if_true]
  split
  · rename_i h1
    rw [max_eq_left]
    exact le_trans (min_le_right _ _) h1
  · rename_i h1
    split
    · rename_i h2
      rw [min_eq_left h2, max_eq_right hsqrt]
    · rename_i h2
      rw [min_eq_right (le_of_lt (not_le.mp h2)), max_eq_right (le_of_lt (not_le.mp h1))]

/-- C11, amended (general part): a Zoom-mode step whose
`stepPower = zoomStep * (viewportHeight / 2) * (lastNormY - curNormY)` passes the
overflow guard `|stepPower| < log(0.1 * FLOAT_MAX) / log(zoomFactor)` sets the
zoom to `zoom * zoomFactor ^ stepPower` clamped into
`[1 / sqrt(FLOAT_MAX), sqrt(FLOAT_MAX)]`, and to that product itself when it lies
strictly inside the range. -/
theorem zoom_step_multiplies_and_clamps (lib : LibM F) (hdr : HeaderInfo F)
    (cur last : Vec2 F) (s : PDFGenerator F)
    (hsqrt : 1 / lib.sqrt FLOAT_MAX ≤ lib.sqrt FLOAT_MAX)
    (hg : |hdr.zoomStep * (s.m_PageViewDimensions.y / 2) * (last.y - cur.y)| <
      lib.log (0.1 * FLOAT_MAX) / lib.log hdr.zoomFactor) :
    (dragModeZoom lib hdr cur last s).m_Zoom =
      max (1 / lib.sqrt FLOAT_MAX) (min (lib.sqrt FLOAT_MAX)
        (s.m_Zoom * lib.pow hdr.zoomFactor
          (hdr.zoomStep * (s.m_PageViewDimensions.y / 2) * (last.y - cur.y)))) ∧
    (1 / lib.sqrt FLOAT_MAX < s.m_Zoom * lib.pow hdr.zoomFactor
          (hdr.zoomStep * (s.m_PageViewDimensions.y / 2) * (last.y - cur.y)) ∧
      s.m_Zoom * lib.pow hdr.zoomFactor
          (hdr.zoomStep * (s.m_PageViewDimensions.y / 2) * (last.y - cur.y)) <
        lib.sqrt FLOAT_MAX →
      (dragModeZoom lib hdr cur last s).m_Zoom =
        s.m_Zoom * lib.pow hdr.zoomFactor
          (hdr.zoomStep * (s.m_PageViewDimensions.y / 2) * (last.y - cur.y))) := by
  have h := dragModeZoom_passed lib hdr cur last s hsqrt hg
  refine ⟨h, ?_⟩
  rintro ⟨h1, h2⟩
  rw [h, min_eq_right (le_of_lt h2), max_eq_right (le_of_lt h1)]

/-- C12: a Zoom-mode step whose `stepPower` fails the overflow guard
(`|stepPower| >= log(0.1 * FLOAT_MAX) / log(zoomFactor)`) leaves the zoom, and
the whole state, as it was, for every prior zoom. -/
theorem zoom_step_guard_failed (lib : LibM F) (hdr : HeaderInfo F)
    (cur last : Vec2 F) (s : PDFGenerator F)
    (hg : lib.log (0.1 * FLOAT_MAX) / lib.log hdr.zoomFactor ≤
      |hdr.zoomStep * (s.m_PageViewDimensions.y / 2) * (last.y - cur.y)|) :
    (dragModeZoom lib hdr cur last s).m_Zoom = s.m_Zoom ∧
    dragModeZoom lib hdr cur last s = s := by
  have h : dragModeZoom lib hdr cur last s = s :=
    dragModeZoom_blocked lib hdr cur last s (by unfold zoomGuard; exact not_lt.mpr hg)
  exact ⟨by rw [h], h⟩

end ZoomStep

theorem zoomGuard_sample :
    zoomGuard ⟨Real.tan, Real.log, Real.sqrt, fun x y => x ^ y⟩ (sampleHeader 1 1 1.1 0.01)
      (PDFGenerator.constructed (800 : ℝ) 600).m_PageViewDimensions.y ⟨0, 0⟩ ⟨0, 0.1⟩ := by
  simp only [zoomGuard, sampleHeader, PDFGenerator.constructed]
  have hlog : 0 < Real.log 1.1 := Real.log_pos (by norm_num)
  have hlog2 : Real.log 1.1 ≤ 1.1 - 1 := Real.log_le_sub_one_of_pos (by norm_num)
  have h1 := log_tenth_FLOAT_MAX_bounds.1
  rw [lt_div_iff₀ hlog]
  have e : |(0.01 : ℝ) * (600 / 2) * (0.1 - 0)| = 0.3 := by norm_num [abs_of_pos]
  rw [e]
  nlinarith

theorem dragModeZoom_sample :
    (dragModeZoom ⟨Real.tan, Real.log, Real.sqrt, fun x y => x ^ y⟩
      (sampleHeader 1 1 1.1 0.01) ⟨0, 0⟩ ⟨0, 0.1⟩
      (PDFGenerator.constructed (800 : ℝ) 600)).m_Zoom = (1.1 : ℝ) ^ (0.3 : ℝ) := by
  have hs1 := sqrt_FLOAT_MAX_bounds.1
  have hs2 := sqrt_FLOAT_MAX_ge_two
  have hb := rpow_eleven_tenths_bounds
  have hinv : 1 / Real.sqrt FLOAT_MAX ≤ 1 := by
    rw [div_le_iff₀ (by linarith)]; linarith
  rw [dragModeZoom_passed _ _ _ _ _ (le_trans hinv hs1) zoomGuard_sample]
  simp only [sampleHeader, PDFGenerator.constructed]
  have e : (0.01 : ℝ) * (600 / 2) * (0.1 - 0) = 0.3 := by norm_num
  rw [e, one_mul, min_eq_right (by linarith), max_eq_right (by linarith)]

/-- C11 as stated fails in its example: with zoom 1, zoom factor 1.1, zoom step
0.01, a page view 600 pixels high and normalized delta 0.1 the step power is
`0.01 * 300 * 0.1 = 0.3`, not 0.03, and the new zoom is `1.1 ^ 0.3`, above 1.029
and so not between 1.00286 and 1.00287. -/
theorem zoom_step_sample_not_as_claimed :
    (0.01 : ℝ) * (600 / 2) * (0.1 - 0) ≠ 0.03 ∧
    ¬ ((dragModeZoom ⟨Real.tan, Real.log, Real.sqrt, fun x y => x ^ y⟩
        (sampleHeader 1 1 1.1 0.01) ⟨0, 0⟩ ⟨0, 0.1⟩
        (PDFGenerator.constructed (800 : ℝ) 600)).m_Zoom < 1.00287) := by
  refine ⟨by norm_num, ?_⟩
  rw [dragModeZoom_sample, not_lt]
  have hb := rpow_eleven_tenths_bounds.1
  linarith

/-- C11, amended, at the example of the claim: zoom 1, zoom factor 1.1, zoom
step 0.01, a page view 600 pixels high and normalized delta 0.1 give the step
power 0.3 and the new zoom `1.1 ^ 0.3`, which lies between 1.0290 and 1.0291. -/
theorem zoom_step_multiplies_and_clamps_sample :
    (0.01 : ℝ) * (600 / 2) * (0.1 - 0) = 0.3 ∧
    (dragModeZoom ⟨Real.tan, Real.log, Real.sqrt, fun x y => x ^ y⟩
      (sampleHeader 1 1 1.1 0.01) ⟨0, 0⟩ ⟨0, 0.1⟩
      (PDFGenerator.constructed (800 : ℝ) 600)).m_Zoom = (1.1 : ℝ) ^ (0.3 : ℝ) ∧
    (1.0290 : ℝ) < (dragModeZoom ⟨Real.tan, Real.log, Real.sqrt, fun x y => x ^ y⟩
      (sampleHeader 1 1 1.1 0.01) ⟨0, 0⟩ ⟨0, 0.1⟩
      (PDFGenerator.constructed (800 : ℝ) 600)).m_Zoom ∧
    (dragModeZoom ⟨Real.tan, Real.log, Real.sqrt, fun x y => x ^ y⟩
      (sampleHeader 1 1 1.1 0.01) ⟨0, 0⟩ ⟨0, 0.1⟩
      (PDFGenerator.constructed (800 : ℝ) 600)).m_Zoom < 1.0291 := by
  have hs1 := sqrt_FLOAT_MAX_bounds.1
  have hs2 := sqrt_FLOAT_MAX_ge_two
  have hb := rpow_eleven_tenths_bounds
  have hinv : 1 / Real.sqrt FLOAT_MAX ≤ 1 := by
    rw [div_le_iff₀ (by linarith)]; linarith
  have e : (0.01 : ℝ) * (600 / 2) * (0.1 - 0) = 0.3 := by norm_num
  have key := (zoom_step_multiplies_and_clamps
    ⟨Real.tan, Real.log, Real.sqrt, fun x y => x ^ y⟩
    (sampleHeader 1 1 1.1 0.01) ⟨0, 0⟩ ⟨0, 0.1⟩ (PDFGenerator.constructed (800 : ℝ) 600)
    (le_trans hinv hs1) zoomGuard_sample).2
  simp only [sampleHeader, PDFGenerator.constructed] at key
  rw [e, one_mul] at key
  have hz := key ⟨by linarith, by linarith⟩
  simp only [sampleHeader, PDFGenerator.constructed]
  exact ⟨e, hz, by rw [hz]; exact hb.1, by rw [hz]; exact hb.2⟩

theorem zoomGuard_fails_sample :
    Real.log (0.1 * FLOAT_MAX) / Real.log 2 ≤ |(1 : ℝ) * (600 / 2) * (2 / 3 - 0)| := by
  have hlog2 : 0 < Real.log 2 := Real.log_pos (by norm_num)
  have h1 := log_tenth_FLOAT_MAX_bounds.2
  rw [div_le_iff₀ hlog2]
  have e : |(1 : ℝ) * (600 / 2) * (2 / 3 - 0)| = 200 := by norm_num
  rw [e]
  nlinarith

/-- C12 at a concrete input: real library functions, zoom factor 2, zoom step
1, a page view 600 pixels high, a drag over two thirds of the normalized
height (step power 200, limit below 128) and prior zoom 5: the zoom stays 5. -/
theorem zoom_step_guard_failed_sample :
    (dragModeZoom ⟨Real.tan, Real.log, Real.sqrt, fun x y => x ^ y⟩
      (sampleHeader 1 1 2 1) ⟨0, 0⟩ ⟨0, 2 / 3⟩
      { PDFGenerator.constructed (800 : ℝ) 600 with m_Zoom := 5 }).m_Zoom = 5 :=
  (zoom_step_guard_failed ⟨Real.tan, Real.log, Real.sqrt, fun x y => x ^ y⟩
    (sampleHeader 1 1 2 1) ⟨0, 0⟩ ⟨0, 2 / 3⟩
    { PDFGenerator.constructed (800 : ℝ) 600 with m_Zoom := 5 }
    (by simpa [sampleHeader, PDFGenerator.constructed] using zoomGuard_fails_sample)).1

/-! ## Pointer events -/

section Pointer

variable {F : Type}

/-- C13: a press accepted while no button is held (Idle) records the tracked
absolute pointer position `m_MousePosition` as `m_LastMousePosition`, sets the
mouse-down flag (Dragging) and sets the drag mode from the modifier keys:
Control only gives SHIFT, Shift only ZOOM, Alt only PAN, and each of the five
other combinations ROTATE; nothing else changes. -/
theorem press_in_idle (s : PDFGenerator F) (hidle : s.m_MouseDown = false) :
    (∀ m : Modifiers,
      (mouseButtonPressEvent m s).m_LastMousePosition = s.m_MousePosition ∧
      (mouseButtonPressEvent m s).m_MouseDown = true ∧
      mouseButtonPressEvent m s =
        { s with
          m_LastMousePosition := s.m_MousePosition
          m_MouseDown := true
          m_DragMode := (mouseButtonPressEvent m s).m_DragMode }) ∧
    (mouseButtonPressEvent ⟨true, false, false⟩ s).m_DragMode = DragMode.SHIFT ∧
    (mouseButtonPressEvent ⟨false, true, false⟩ s).m_DragMode = DragMode.ZOOM ∧
    (mouseButtonPressEvent ⟨false, false, true⟩ s).m_DragMode = DragMode.PAN ∧
    (mouseButtonPressEvent ⟨false, false, false⟩ s).m_DragMode = DragMode.ROTATE ∧
    (mouseButtonPressEvent ⟨true, true, false⟩ s).m_DragMode = DragMode.ROTATE ∧
    (mouseButtonPressEvent ⟨true, false, true⟩ s).m_DragMode = DragMode.ROTATE ∧
    (mouseButtonPressEvent ⟨false, true, true⟩ s).m_DragMode = DragMode.ROTATE ∧
    (mouseButtonPressEvent ⟨true, true, true⟩ s).m_DragMode = DragMode.ROTATE := by
  refine ⟨?_, ?_, ?_, ?_, ?_, ?_, ?_, ?_, ?_⟩
  · intro m
    simp [mouseButtonPressEvent, hidle]
  all_goals simp [mouseButtonPressEvent, hidle]

/-- C14: a press received while a button is already held (Dragging) is
ignored, whatever its modifier keys: the state, so the drag mode,
`m_LastMousePosition`, the mouse-down flag and the camera, is unchanged. -/
theorem press_while_dragging (m : Modifiers) (s : PDFGenerator F)
    (hdrag : s.m_MouseDown = true) :
    mouseButtonPressEvent m s = s ∧
    (mouseButtonPressEvent m s).m_DragMode = s.m_DragMode ∧
    (mouseButtonPressEvent m s).m_LastMousePosition = s.m_LastMousePosition ∧
    (mouseButtonPressEvent m s).m_MouseDown = true ∧
    (mouseButtonPressEvent m s).m_Zoom = s.m_Zoom ∧
    (mouseButtonPressEvent m s).m_RotationMatrix = s.m_RotationMatrix ∧
    (mouseButtonPressEvent m s).m_Shift = s.m_Shift := by
  have h : mouseButtonPressEvent m s = s := by
    simp [mouseButtonPressEvent, hdrag]
  rw [h]
  exact ⟨rfl, rfl, rfl, hdrag, rfl, rfl, rfl⟩

/-- C15: after a release the mouse-down flag is clear (Idle) in every case;
from Idle the whole state is unchanged, and from Dragging only the mouse-down
flag changes, so zoom, rotation, shift and `m_LastMousePosition` are
unchanged. -/
theorem release_gives_idle (s : PDFGenerator F) :
    (mouseButtonReleaseEvent s).m_MouseDown = false ∧
    (s.m_MouseDown = false → mouseButtonReleaseEvent s = s) ∧
    mouseButtonReleaseEvent s = { s with m_MouseDown := false } ∧
    (mouseButtonReleaseEvent s).m_Zoom = s.m_Zoom ∧
    (mouseButtonReleaseEvent s).m_RotationMatrix = s.m_RotationMatrix ∧
    (mouseButtonReleaseEvent s).m_Shift = s.m_Shift ∧
    (mouseButtonReleaseEvent s).m_LastMousePosition = s.m_LastMousePosition ∧
    (mouseButtonReleaseEvent s).m_DragMode = s.m_DragMode := by
  unfold mouseButtonReleaseEvent
  cases h : s.m_MouseDown
  · simp [h]
    cases s
    simp_all
  · simp [h]

theorem requestPixmapRefresh_frame (now nowAfter : ℚ) (s : PDFGenerator F) :
    (requestPixmapRefresh now nowAfter s).m_Zoom = s.m_Zoom ∧
    (requestPixmapRefresh now nowAfter s).m_RotationMatrix = s.m_RotationMatrix ∧
    (requestPixmapRefresh now nowAfter s).m_Shift = s.m_Shift ∧
    (requestPixmapRefresh now nowAfter s).m_MousePosition = s.m_MousePosition := by
  unfold requestPixmapRefresh refreshPixmap
  simp only
  split
  · split <;> exact ⟨rfl, rfl, rfl, rfl⟩
  · exact ⟨rfl, rfl, rfl, rfl⟩

end Pointer

/-- C13 at a concrete input: the state the constructor leaves (no button
held), with the pointer tracked at `(120, 340)`, and a press with Shift only. -/
theorem press_in_idle_shift_key :
    (mouseButtonPressEvent ⟨false, true, false⟩
      { PDFGenerator.constructed (800 : ℚ) 600 with
        m_MousePosition := ⟨120, 340⟩ }).m_LastMousePosition = ⟨120, 340⟩ ∧
    (mouseButtonPressEvent ⟨false, true, false⟩
      { PDFGenerator.constructed (800 : ℚ) 600 with
        m_MousePosition := ⟨120, 340⟩ }).m_MouseDown = true ∧
    (mouseButtonPressEvent ⟨false, true, false⟩
      { PDFGenerator.constructed (800 : ℚ) 600 with
        m_MousePosition := ⟨120, 340⟩ }).m_DragMode = DragMode.ZOOM :=
  ⟨((press_in_idle { PDFGenerator.constructed (800 : ℚ) 600 with
        m_MousePosition := ⟨120, 340⟩ } rfl).1 ⟨false, true, false⟩).1,
    ((press_in_idle { PDFGenerator.constructed (800 : ℚ) 600 with
        m_MousePosition := ⟨120, 340⟩ } rfl).1 ⟨false, true, false⟩).2.1,
    (press_in_idle { PDFGenerator.constructed (800 : ℚ) 600 with
        m_MousePosition := ⟨120, 340⟩ } rfl).2.2.1⟩

/-- C14 at a concrete input: after a press with no modifier key (ROTATE), a
second press with Shift only changes nothing. -/
theorem press_while_dragging_second_press :
    mouseButtonPressEvent ⟨false, true, false⟩
        (mouseButtonPressEvent ⟨false, false, false⟩ (PDFGenerator.constructed (800 : ℚ) 600)) =
      mouseButtonPressEvent ⟨false, false, false⟩ (PDFGenerator.constructed (800 : ℚ) 600) ∧
    (mouseButtonPressEvent ⟨false, true, false⟩
        (mouseButtonPressEvent ⟨false, false, false⟩
          (PDFGenerator.constructed (800 : ℚ) 600))).m_DragMode = DragMode.ROTATE :=
  ⟨(press_while_dragging ⟨false, true, false⟩
      (mouseButtonPressEvent ⟨false, false, false⟩ (PDFGenerator.constructed (800 : ℚ) 600))
      rfl).1,
    (press_while_dragging ⟨false, true, false⟩
      (mouseButtonPressEvent ⟨false, false, false⟩ (PDFGenerator.constructed (800 : ℚ) 600))
      rfl).2.1⟩

section Move

variable {F : Type} [LinearOrderedField F]

theorem setProjection_frame (hdr : HeaderInfo F) (s : PDFGenerator F) :
    (setProjection hdr s).m_Zoom = s.m_Zoom ∧
    (setProjection hdr s).m_RotationMatrix = s.m_RotationMatrix ∧
    (setProjection hdr s).m_Shift = s.m_Shift ∧
    (setProjection hdr s).m_MousePosition = s.m_MousePosition :=
  ⟨rfl, rfl, rfl, rfl⟩

theorem dragModeZoom_frame (lib : LibM F) (hdr : HeaderInfo F) (cur last : Vec2 F)
    (s : PDFGenerator F) :
    (dragModeZoom lib hdr cur last s).m_RotationMatrix = s.m_RotationMatrix ∧
    (dragModeZoom lib hdr cur last s).m_Shift = s.m_Shift ∧
    (dragModeZoom lib hdr cur last s).m_MousePosition = s.m_MousePosition := by
  unfold dragModeZoom
  simp only
  split
  · split
    · exact ⟨rfl, rfl, rfl⟩
    · split <;> exact ⟨rfl, rfl, rfl⟩
  · exact ⟨rfl, rfl, rfl⟩

theorem dragModeRotate_frame (glm : Glm F) (cur last : Vec2 F) (s : PDFGenerator F) :
    (dragModeRotate glm cur last s).m_Zoom = s.m_Zoom ∧
    (dragModeRotate glm cur last s).m_Shift = s.m_Shift ∧
    (dragModeRotate glm cur last s).m_MousePosition = s.m_MousePosition := by
  unfold dragModeRotate
  simp only
  split <;> exact ⟨rfl, rfl, rfl⟩

/-- C16: a pointer move always stores the event's absolute position as the
tracked position `m_MousePosition` and never changes the shift `m_Shift`; with
no button held (Idle) it changes nothing else at all, and while dragging in
SHIFT or PAN mode it changes neither zoom nor rotation matrix. The zoom can
change only while dragging in ZOOM mode and the rotation matrix only while
dragging in ROTATE mode. -/
theorem move_tracks_pointer (lib : LibM F) (glm : Glm F) (hdr : HeaderInfo F)
    (globalPos : IVec2) (now nowAfter : ℚ) (s : PDFGenerator F) :
    (mouseMoveEvent lib glm hdr globalPos now nowAfter s).m_MousePosition = globalPos ∧
    (mouseMoveEvent lib glm hdr globalPos now nowAfter s).m_Shift = s.m_Shift ∧
    (s.m_MouseDown = false →
      mouseMoveEvent lib glm hdr globalPos now nowAfter s =
        { s with m_MousePosition := globalPos }) ∧
    (s.m_MouseDown = false ∨ s.m_DragMode = DragMode.SHIFT ∨ s.m_DragMode = DragMode.PAN →
      (mouseMoveEvent lib glm hdr globalPos now nowAfter s).m_Zoom = s.m_Zoom ∧
      (mouseMoveEvent lib glm hdr globalPos now nowAfter s).m_RotationMatrix =
        s.m_RotationMatrix) ∧
    ((mouseMoveEvent lib glm hdr globalPos now nowAfter s).m_Zoom ≠ s.m_Zoom →
      s.m_MouseDown = true ∧ s.m_DragMode = DragMode.ZOOM) ∧
    ((mouseMoveEvent lib glm hdr globalPos now nowAfter s).m_RotationMatrix ≠
        s.m_RotationMatrix →
      s.m_MouseDown = true ∧ s.m_DragMode = DragMode.ROTATE) := by
  cases hd : s.m_MouseDown
  · have h : mouseMoveEvent lib glm hdr globalPos now nowAfter s =
        { s with m_MousePosition := globalPos } := by
      simp [mouseMoveEvent, hd]
    rw [h]
    simp [hd]
  · cases hm : s.m_DragMode
    all_goals
      simp only [mouseMoveEvent, hd, hm, Bool.true_eq_false, if_false, dragModeShift,
        dragModePan]
      simp only [(requestPixmapRefresh_frame _ _ _).1, (requestPixmapRefresh_frame _ _ _).2.1,
        (requestPixmapRefresh_frame _ _ _).2.2.1, (requestPixmapRefresh_frame _ _ _).2.2.2,
        (setProjection_frame _ _).1, (setProjection_frame _ _).2.1,
        (setProjection_frame _ _).2.2.1, (setProjection_frame _ _).2.2.2,
        (dragModeZoom_frame _ _ _ _ _).1, (dragModeZoom_frame _ _ _ _ _).2.1,
        (dragModeZoom_frame _ _ _ _ _).2.2, (dragModeRotate_frame _ _ _ _).1,
        (dragModeRotate_frame _ _ _ _).2.1, (dragModeRotate_frame _ _ _ _).2.2]
      simp

end Move

/-! ## Frustum bounds and view matrix -/

section ViewMatrix

variable {F : Type} [LinearOrderedField F]

/-- C17: for every viewport width and height, shift `(X, Y)`, header and zoom,
`setDimensions` sets the frustum x-range to `[-rAspect - X0, rAspect - X0]` and
the y-range to `[-r - Y0, r - Y0]`, where `r = H / zoom`,
`rAspect = r * width / height`,
`X0 = 2 * rAspect * ((X / width + viewportShift.x) * zoom)` and
`Y0 = 2 * r * ((Y / height + viewportShift.y) * zoom)`; it leaves the frustum
z-range as it was, so as `initProjection` set it from the header. -/
theorem setDimensions_sets (lib : LibM F) (hdr : HeaderInfo F) (width height X Y : F)
    (s : PDFGenerator F) :
    (setDimensions hdr width height X Y s).m_ViewParam.minValues.x =
      -(s.m_H / s.m_Zoom * width / height) -
        2 * (s.m_H / s.m_Zoom * width / height) *
          ((X / width + hdr.viewportShift.x) * s.m_Zoom) ∧
    (setDimensions hdr width height X Y s).m_ViewParam.maxValues.x =
      s.m_H / s.m_Zoom * width / height -
        2 * (s.m_H / s.m_Zoom * width / height) *
          ((X / width + hdr.viewportShift.x) * s.m_Zoom) ∧
    (setDimensions hdr width height X Y s).m_ViewParam.minValues.y =
      -(s.m_H / s.m_Zoom) -
        2 * (s.m_H / s.m_Zoom) * ((Y / height + hdr.viewportShift.y) * s.m_Zoom) ∧
    (setDimensions hdr width height X Y s).m_ViewParam.maxValues.y =
      s.m_H / s.m_Zoom -
        2 * (s.m_H / s.m_Zoom) * ((Y / height + hdr.viewportShift.y) * s.m_Zoom) ∧
    (setDimensions hdr width height X Y s).m_ViewParam.minValues.z =
      s.m_ViewParam.minValues.z ∧
    (setDimensions hdr width height X Y s).m_ViewParam.maxValues.z =
      s.m_ViewParam.maxValues.z ∧
    (setDimensions hdr width height X Y (initProjection lib hdr s)).m_ViewParam.minValues.z =
      hdr.minBound.z ∧
    (setDimensions hdr width height X Y (initProjection lib hdr s)).m_ViewParam.maxValues.z =
      hdr.maxBound.z := by
  refine ⟨?_, ?_, ?_, ?_, rfl, rfl, rfl, rfl⟩
  all_goals
    simp only [setDimensions]
    ring

theorem glm_translate_eq (m : Mat4 F) (v : Vec3 F) :
    glm_translate m v = m * translation v := by
  ext i j
  simp only [glm_translate, Matrix.mul_apply, Fin.sum_univ_four]
  fin_cases j <;> simp [translation]

theorem translation_mul (u v : Vec3 F) :
    translation u * translation v = translation ⟨u.x + v.x, u.y + v.y, u.z + v.z⟩ := by
  ext i j
  simp only [Matrix.mul_apply, Fin.sum_univ_four]
  fin_cases i <;> fin_cases j <;> simp [translation, add_comm]

theorem translation_zero : translation (⟨0, 0, 0⟩ : Vec3 F) = 1 := by
  ext i j
  fin_cases i <;> fin_cases j <;> simp [translation]

theorem translation_inv (v : Vec3 F) :
    (translation v)⁻¹ = translation ⟨-v.x, -v.y, -v.z⟩ := by
  apply Matrix.inv_eq_left_inv
  rw [translation_mul]
  simp [translation_zero]

theorem glm_inverse_eq (m : Mat4 F) : glm_inverse m = m⁻¹ := by
  simp [glm_inverse, Matrix.inv_def]

theorem updateViewMatrix_eq (s : PDFGenerator F) :
    (updateViewMatrix s).m_ViewMatrix =
      translation s.m_Center * s.m_RotationMatrix * translation ⟨0, 0, -s.m_Center.z⟩ := by
  simp only [updateViewMatrix, glm_translate_eq, glm_inverse_eq, Matrix.one_mul,
    translation_inv, Matrix.mul_assoc, translation_mul]
  simp

/-- C18, amended: for every rotation matrix `R` and pivot `c`, `updateViewMatrix`
sets the view matrix to `T(c) * R * T(c)⁻¹ * T((c.x, c.y, 0))`, where `T(v)` is
the translation by `v`: translate to the pivot, rotate, translate back, then
translate by the x and y of the pivot only; this is `T(c) * R * T((0, 0, -c.z))`.
No other member changes. -/
theorem updateViewMatrix_sets (s : PDFGenerator F) :
    (updateViewMatrix s).m_ViewMatrix =
      translation s.m_Center * s.m_RotationMatrix * (translation s.m_Center)⁻¹ *
        translation ⟨s.m_Center.x, s.m_Center.y, 0⟩ ∧
    (updateViewMatrix s).m_ViewMatrix =
      translation s.m_Center * s.m_RotationMatrix * translation ⟨0, 0, -s.m_Center.z⟩ ∧
    updateViewMatrix s = { s with m_ViewMatrix := (updateViewMatrix s).m_ViewMatrix } := by
  refine ⟨?_, updateViewMatrix_eq s, rfl⟩
  rw [updateViewMatrix_eq, translation_inv, Matrix.mul_assoc _ (translation _) (translation _),
    translation_mul]
  simp

theorem view_pivot_fixed (s : PDFGenerator F) (hx : s.m_Center.x = 0) (hy : s.m_Center.y = 0)
    (hR : s.m_RotationMatrix 0 3 = 0 ∧ s.m_RotationMatrix 1 3 = 0 ∧
      s.m_RotationMatrix 2 3 = 0 ∧ s.m_RotationMatrix 3 3 = 1) :
    (updateViewMatrix s).m_ViewMatrix.mulVec (homogeneous s.m_Center) =
      homogeneous s.m_Center := by
  obtain ⟨h0, h1, h2, h3⟩ := hR
  rw [updateViewMatrix_eq]
  ext i
  simp only [Matrix.mulVec, Matrix.dotProduct, Fin.sum_univ_four, Matrix.mul_apply]
  fin_cases i <;> simp [translation, homogeneous, hx, hy, h0, h1, h2, h3]

theorem view_identity (s : PDFGenerator F) (hx : s.m_Center.x = 0) (hy : s.m_Center.y = 0)
    (hR : s.m_RotationMatrix = 1) : (updateViewMatrix s).m_ViewMatrix = 1 := by
  rw [updateViewMatrix_eq, hR, Matrix.mul_one, translation_mul, ← translation_zero]
  cases hc : s.m_Center
  simp_all

/-- C19: for the pivot `c = (0, 0, (minBound.z + maxBound.z) / 2)` that
`initProjection` produces, every rotation matrix `R` with no translation part
(last column `(0, 0, 0, 1)`) and every shift, the view matrix built by
`updateViewMatrix` maps the pivot to itself, `V * (c, 1) = (c, 1)`; with `R` the
identity the view matrix is the identity. -/
theorem view_fixes_pivot (lib : LibM F) (hdr : HeaderInfo F) (s : PDFGenerator F)
    (R : Mat4 F) (shift : Vec2 F)
    (hR : R 0 3 = 0 ∧ R 1 3 = 0 ∧ R 2 3 = 0 ∧ R 3 3 = 1) :
    ({ initProjection lib hdr s with m_RotationMatrix := R, m_Shift := shift }).m_Center =
      ⟨0, 0, (hdr.minBound.z + hdr.maxBound.z) / 2⟩ ∧
    (updateViewMatrix
        { initProjection lib hdr s with m_RotationMatrix := R, m_Shift := shift }).m_ViewMatrix.mulVec
        (homogeneous ⟨0, 0, (hdr.minBound.z + hdr.maxBound.z) / 2⟩) =
      homogeneous ⟨0, 0, (hdr.minBound.z + hdr.maxBound.z) / 2⟩ ∧
    (updateViewMatrix
        { initProjection lib hdr s with m_RotationMatrix := 1, m_Shift := shift }).m_ViewMatrix =
      1 := by
  have hc : (initProjection lib hdr s).m_Center =
      ⟨0, 0, (hdr.minBound.z + hdr.maxBound.z) / 2⟩ := by
    simp only [initProjection]
    congr 1
    norm_num
    ring
  refine ⟨hc, ?_, ?_⟩
  · have h := view_pivot_fixed
      { initProjection lib hdr s with m_RotationMatrix := R, m_Shift := shift } rfl rfl hR
    have hc2 : ({ initProjection lib hdr s with
        m_RotationMatrix := R, m_Shift := shift }).m_Center =
        ⟨0, 0, (hdr.minBound.z + hdr.maxBound.z) / 2⟩ := hc
    rw [hc2] at h
    exact h
  · exact view_identity _ rfl rfl rfl

/-- C20: a Rotate-mode step with distinct previous and current positions sets
the rotation matrix to `Rot(axis, 2 * angle / zoom) * oldRotation`, where
`Rot(axis, a)` is `glm::rotate` applied to the identity and `(axis, angle)` are
those of the Arcball built from the previous and the current position, each
with its y negated; zoom and everything else are unchanged. -/
theorem rotate_step_premultiplies (glm : Glm F) (cur last : Vec2 F) (s : PDFGenerator F)
    (hne : cur ≠ last) :
    (dragModeRotate glm cur last s).m_RotationMatrix =
      glm.rotate 1
        (2 * (glm.arcball ⟨last.x, -last.y⟩ ⟨cur.x, -cur.y⟩).angle / s.m_Zoom)
        (glm.arcball ⟨last.x, -last.y⟩ ⟨cur.x, -cur.y⟩).axis * s.m_RotationMatrix ∧
    dragModeRotate glm cur last s =
      { s with m_RotationMatrix := (dragModeRotate glm cur last s).m_RotationMatrix } := by
  unfold dragModeRotate
  simp only [hne, if_false, mul_one]
  exact ⟨trivial, trivial⟩

end ViewMatrix

/-- C18 as stated fails: with the pivot `c = (0, 0, 1)` and the identity
rotation the view matrix is the identity, while `T(c) * R * T(c)⁻¹ * T(c)` is the
translation by `c`, whose entry in row 2, column 3 is 1. -/
theorem updateViewMatrix_not_pivot_again :
    (updateViewMatrix
      { PDFGenerator.constructed (800 : ℚ) 600 with m_Center := ⟨0, 0, 1⟩ }).m_ViewMatrix = 1 ∧
    translation (⟨0, 0, 1⟩ : Vec3 ℚ) * (1 : Mat4 ℚ) * (translation (⟨0, 0, 1⟩ : Vec3 ℚ))⁻¹ *
        translation (⟨0, 0, 1⟩ : Vec3 ℚ) = translation ⟨0, 0, 1⟩ ∧
    (updateViewMatrix
      { PDFGenerator.constructed (800 : ℚ) 600 with m_Center := ⟨0, 0, 1⟩ }).m_ViewMatrix ≠
      translation (⟨0, 0, 1⟩ : Vec3 ℚ) * (1 : Mat4 ℚ) * (translation (⟨0, 0, 1⟩ : Vec3 ℚ))⁻¹ *
        translation (⟨0, 0, 1⟩ : Vec3 ℚ) := by
  have h1 : (updateViewMatrix
      { PDFGenerator.constructed (800 : ℚ) 600 with m_Center := ⟨0, 0, 1⟩ }).m_ViewMatrix = 1 :=
    view_identity _ rfl rfl rfl
  have h2 : translation (⟨0, 0, 1⟩ : Vec3 ℚ) * (1 : Mat4 ℚ) *
      (translation (⟨0, 0, 1⟩ : Vec3 ℚ))⁻¹ * translation (⟨0, 0, 1⟩ : Vec3 ℚ) =
      translation ⟨0, 0, 1⟩ := by
    rw [Matrix.mul_one, translation_inv, translation_mul, translation_mul]
    norm_num
  refine ⟨h1, h2, ?_⟩
  rw [h1, h2]
  intro h
  have h3 := congrFun (congrFun h 2) 3
  simp [translation] at h3

/-- C19 at a concrete input: scene z-bounds 2 and 6 (pivot `(0, 0, 4)`), a
rotation about the z axis and the shift `(3, -2)`. -/
theorem view_fixes_pivot_about_z :
    (updateViewMatrix
        { initProjection ⟨fun x => x, fun x => x, fun x => x, fun x _ => x⟩
            ⟨1, ⟨-1, -1, 2⟩, ⟨1, 1, 6⟩, 1, 2, 1, ⟨0, 0⟩⟩ (PDFGenerator.constructed (800 : ℚ) 600)
          with m_RotationMatrix := rotationAboutZ 2, m_Shift := ⟨3, -2⟩ }).m_ViewMatrix.mulVec
        (homogeneous ⟨0, 0, ((2 : ℚ) + 6) / 2⟩) =
      homogeneous ⟨0, 0, ((2 : ℚ) + 6) / 2⟩ :=
  (view_fixes_pivot ⟨fun x => x, fun x => x, fun x => x, fun x _ => x⟩
    ⟨1, ⟨-1, -1, 2⟩, ⟨1, 1, 6⟩, 1, 2, 1, ⟨0, 0⟩⟩ (PDFGenerator.constructed (800 : ℚ) 600)
    (rotationAboutZ 2) ⟨3, -2⟩
    ⟨by simp [rotationAboutZ], by simp [rotationAboutZ], by simp [rotationAboutZ],
      by simp [rotationAboutZ]⟩).2.1

/-- C20 at a concrete input: the rational rotation helpers `sampleGlm`, the
state the constructor leaves with zoom 2, previous position `(0, 0)` and
current position `(1, 0)`. -/
theorem rotate_step_premultiplies_sample :
    (dragModeRotate sampleGlm ⟨1, 0⟩ ⟨0, 0⟩
      { PDFGenerator.constructed (800 : ℚ) 600 with m_Zoom := 2 }).m_RotationMatrix =
      sampleGlm.rotate 1 (2 * (sampleGlm.arcball ⟨0, -0⟩ ⟨1, -0⟩).angle / 2)
        (sampleGlm.arcball ⟨0, -0⟩ ⟨1, -0⟩).axis * 1 :=
  (rotate_step_premultiplies sampleGlm ⟨1, 0⟩ ⟨0, 0⟩
    { PDFGenerator.constructed (800 : ℚ) 600 with m_Zoom := 2 } (by decide)).1

/-! ## Row copy of the rasterizer output -/

theorem forUp_packBody (imageData : Nat → Nat) (n : Nat) :
    ∀ (x0 : Int) (v : List Nat) (row : Nat),
      (forUp (packBody imageData) x0 n (v, row)).2 = row + 4 * n ∧
      (forUp (packBody imageData) x0 n (v, row)).1.length = v.length + 4 * n ∧
      (∀ j, j < v.length → (forUp (packBody imageData) x0 n (v, row)).1[j]? = v[j]?) ∧
      (∀ i c, i < n → c < 4 →
        (forUp (packBody imageData) x0 n (v, row)).1[v.length + 4 * i + c]? =
          some (imageData (row + 4 * i + c))) := by
  induction n with
  | zero => intro x0 v row; simp [forUp]
  | succ n ih =>
    intro x0 v row
    have e : forUp (packBody imageData) x0 (n + 1) (v, row) =
        forUp (packBody imageData) (x0 + 1) n
          (v ++ [imageData (row + 0), imageData (row + 1), imageData (row + 2),
            imageData (row + 3)], row + 4) := rfl
    rw [e]
    obtain ⟨h1, h2, h3, h4⟩ := ih (x0 + 1)
      (v ++ [imageData (row + 0), imageData (row + 1), imageData (row + 2),
            imageData (row + 3)]) (row + 4)
    have hl : (v ++ [imageData (row + 0), imageData (row + 1), imageData (row + 2),
            imageData (row + 3)]).length = v.length + 4 := by simp
    refine ⟨by omega, by omega, ?_, ?_⟩
    · intro j hj
      rw [h3 j (by omega), List.getElem?_append_left hj]
    · intro i c hi hc
      rcases Nat.eq_zero_or_pos i with h0 | hpos
      · subst h0
        have h := h3 (v.length + c) (by omega)
        have e0 : v.length + 4 * 0 + c = v.length + c := by omega
        have e0' : row + 4 * 0 + c = row + c := by omega
        rw [e0, e0', h, List.getElem?_append_right (by omega)]
        have hc' : v.length + c - v.length = c := by omega
        rw [hc']
        interval_cases c <;> rfl
      · obtain ⟨i', rfl⟩ : ∃ i', i = i' + 1 := ⟨i - 1, by omega⟩
        have := h4 i' c (by omega) hc
        rw [hl] at this
        have e1 : v.length + 4 * (i' + 1) + c = v.length + 4 + 4 * i' + c := by ring
        have e2 : row + 4 * (i' + 1) + c = row + 4 + 4 * i' + c := by ring
        rw [e1, e2]
        exact this

theorem forUp_packRowBody (raster : Rasterized) (w : Nat) (n : Nat) :
    ∀ (y0 : Int) (v : List Nat) (base : Nat),
      (forUp (packRowBody raster (w : Int)) y0 n (v, base)).1.length = v.length + 4 * w * n ∧
      (∀ j, j < v.length →
        (forUp (packRowBody raster (w : Int)) y0 n (v, base)).1[j]? = v[j]?) ∧
      (∀ y x c, y < n → x < w → c < 4 →
        (forUp (packRowBody raster (w : Int)) y0 n (v, base)).1[v.length + 4 * (y * w + x) + c]? =
          some (raster.imageData (base + y * raster.rowPitch + 4 * x + c))) := by
  induction n with
  | zero => intro y0 v base; simp [forUp]
  | succ n ih =>
    intro y0 v base
    have e : forUp (packRowBody raster (w : Int)) y0 (n + 1) (v, base) =
        forUp (packRowBody raster (w : Int)) (y0 + 1) n
          ((forUp (packBody raster.imageData) 0 w (v, base)).1, base + raster.rowPitch) := by
      simp [forUp, packRowBody]
    rw [e]
    obtain ⟨_, r2, r3, r4⟩ := forUp_packBody raster.imageData w 0 v base
    obtain ⟨h2, h3, h4⟩ := ih (y0 + 1) (forUp (packBody raster.imageData) 0 w (v, base)).1
      (base + raster.rowPitch)
    rw [r2] at h2 h3 h4
    refine ⟨by rw [h2]; ring, ?_, ?_⟩
    · intro j hj
      rw [h3 j (by omega), r3 j hj]
    · intro y x c hy hx hc
      rcases Nat.eq_zero_or_pos y with h0 | hpos
      · subst h0
        have e1 : v.length + 4 * (0 * w + x) + c = v.length + 4 * x + c := by ring
        have e2 : base + 0 * raster.rowPitch + 4 * x + c = base + 4 * x + c := by ring
        rw [e1, e2, h3 _ (by omega), r4 x c hx hc]
      · obtain ⟨y', rfl⟩ : ∃ y', y = y' + 1 := ⟨y - 1, by omega⟩
        have := h4 y' x c (by omega) hx hc
        have e1 : v.length + 4 * ((y' + 1) * w + x) + c =
            v.length + 4 * w + 4 * (y' * w + x) + c := by ring
        have e2 : base + (y' + 1) * raster.rowPitch + 4 * x + c =
            base + raster.rowPitch + y' * raster.rowPitch + 4 * x + c := by ring
        rw [e1, e2]
        exact this

/-- C23: the rasterizer output is consumed by row stride. For every width `W`,
height `H` and row pitch of at least `4 * W` bytes, the vector the row copy
builds has exactly `4 * W * H` bytes, and for all `x < W`, `y < H`, `c < 4` its
byte `4 * (y * W + x) + c` is the rasterizer byte at offset
`y * rowPitch + 4 * x + c`. -/
theorem packed_buffer_by_row_stride (raster : Rasterized) (W H : Nat)
    (hpitch : raster.rowPitch ≥ 4 * W) :
    (packImage raster W H).length = 4 * W * H ∧
    ∀ x y c, x < W → y < H → c < 4 →
      (packImage raster W H)[4 * (y * W + x) + c]? =
        some (raster.imageData (y * raster.rowPitch + 4 * x + c)) := by
  have _ := hpitch
  unfold packImage
  simp only [sub_zero, Int.toNat_ofNat]
  obtain ⟨h1, _, h3⟩ := forUp_packRowBody raster W H 0 [] 0
  refine ⟨by simpa using h1, ?_⟩
  intro x y c hx hy hc
  have := h3 y x c hy hx hc
  simpa using this

/-- C23 at a concrete input: a rasterizer whose byte at offset `i` is `i`, with
rows 16 bytes apart, copied as an image 3 pixels wide and 2 high. -/
theorem packed_buffer_by_row_stride_padded_rows :
    (packImage ⟨fun i => i, 16⟩ (3 : Nat) (2 : Nat)).length = 4 * 3 * 2 ∧
    ∀ x y c, x < 3 → y < 2 → c < 4 →
      (packImage ⟨fun i => i, 16⟩ (3 : Nat) (2 : Nat))[4 * (y * 3 + x) + c]? =
        some ((fun i => i) (y * 16 + 4 * x + c)) :=
  packed_buffer_by_row_stride ⟨fun i => i, 16⟩ 3 2 (by decide)

/-! ## Source index of the compositor -/

theorem fullPage_written (v : VectorData) (xMin xMax yMin yMax w h x y : Int)
    (hx : xMin ≤ x ∧ x < xMax) (hy : yMin ≤ y ∧ y ≤ yMax)
    (hin : 0 ≤ x ∧ x < w ∧ 0 ≤ y ∧ y < h) (pix : Int → Int → Nat) :
    (compositeFullPage v xMin xMax yMin yMax ⟨w, h, pix⟩).pixel x y =
      colourAt v (4 * ((yMax - y) * (xMax - xMin) + (x - xMin))) := by
  rw [compositeFullPage_pixel, if_pos]
  exact ⟨hx.1, hx.2, hy.1, hy.2, hin.1, hin.2.1, hin.2.2.1, hin.2.2.2⟩

/-- C27: clipping in the full-page branch does not disturb the mapping from
destination to source. For every annotation rectangle and every destination
size, a traversed coordinate `(x, y)` inside the destination is written from
the source index `4 * ((yMax - y) * imageWidth + (x - xMin))`, with
`imageWidth = xMax - xMin`; a second rectangle, destination and coordinate with
the same `x - xMin`, `yMax - y` and `imageWidth` gets the same source pixel,
however many of its traversed coordinates are clipped; and at a coordinate
outside the destination the loop body leaves the image alone and still
advances the running index by one pixel. -/
theorem fullPage_clipping_keeps_mapping (v : VectorData) (xMin xMax yMin yMax w h x y : Int)
    (hx : xMin ≤ x ∧ x < xMax) (hy : yMin ≤ y ∧ y ≤ yMax)
    (hin : 0 ≤ x ∧ x < w ∧ 0 ≤ y ∧ y < h) :
    WritesPixel (compositeFullPage v xMin xMax yMin yMax) w h x y
      (colourAt v (4 * ((yMax - y) * (xMax - xMin) + (x - xMin)))) ∧
    (∀ (xMin' xMax' yMin' yMax' w' h' x' y' : Int),
      xMin' ≤ x' ∧ x' < xMax' → yMin' ≤ y' ∧ y' ≤ yMax' →
      0 ≤ x' ∧ x' < w' ∧ 0 ≤ y' ∧ y' < h' →
      x' - xMin' = x - xMin → yMax' - y' = yMax - y → xMax' - xMin' = xMax - xMin →
      ∀ pix pix' : Int → Int → Nat,
        (compositeFullPage v xMin' xMax' yMin' yMax' ⟨w', h', pix'⟩).pixel x' y' =
          (compositeFullPage v xMin xMax yMin yMax ⟨w, h, pix⟩).pixel x y) ∧
    (∀ (y0 x0 : Int) (s : Int × QImage),
      x0 < 0 ∨ x0 ≥ s.2.width ∨ y0 < 0 ∨ y0 ≥ s.2.height →
      fullPageBody v y0 x0 s = (s.1 + 4, s.2)) := by
  refine ⟨fun pix => fullPage_written v xMin xMax yMin yMax w h x y hx hy hin pix, ?_, ?_⟩
  · intro xMin' xMax' yMin' yMax' w' h' x' y' hx' hy' hin' e1 e2 e3 pix pix'
    rw [fullPage_written v xMin xMax yMin yMax w h x y hx hy hin,
      fullPage_written v xMin' xMax' yMin' yMax' w' h' x' y' hx' hy' hin', e1, e2, e3]
  · intro y0 x0 s hout
    unfold fullPageBody
    rw [if_pos hout]

/-- C27 at a concrete input: the annotation rectangle `(-1, 1)`-`(1, 3)`, which
sticks out of a 4 × 4 destination on the left, and the coordinate `(0, 2)`. -/
theorem fullPage_clipping_keeps_mapping_left_edge :
    WritesPixel (compositeFullPage sampleSource (-1) 1 1 3) 4 4 0 2
      (colourAt sampleSource (4 * ((3 - 2) * (1 - (-1)) + (0 - (-1))))) :=
  (fullPage_clipping_keeps_mapping sampleSource (-1) 1 1 3 4 4 0 2
    ⟨by decide, by decide⟩ ⟨by decide, by decide⟩
    ⟨by decide, by decide, by decide, by decide⟩).1

theorem fullPage_top_row_index (v : VectorData) (xMin xMax yMin yMax w h x : Int)
    (hx : xMin ≤ x ∧ x < xMax) (hy : yMin ≤ yMax) (hin : 0 ≤ x ∧ x < w ∧ 0 ≤ yMin ∧ yMin < h) :
    WritesPixel (compositeFullPage v xMin xMax yMin yMax) w h x yMin
      (colourAt v (4 * ((yMax - yMin) * (xMax - xMin) + (x - xMin)))) ∧
    4 * (xMax - xMin) * (yMax - yMin) ≤ 4 * ((yMax - yMin) * (xMax - xMin) + (x - xMin)) := by
  refine ⟨fun pix => fullPage_written v xMin xMax yMin yMax w h x yMin hx ⟨le_refl _, hy⟩ hin pix,
    ?_⟩
  have : 0 ≤ x - xMin := by omega
  nlinarith

/-- C28, evaluated on a 4 × 4 page with the annotation rectangle `(1, 1)`-`(3, 3)`
(`imageWidth = imageHeight = 2`) and a packed buffer of `4 * 2 * 2 = 16` bytes:
the destination pixel `(1, 1)`, inside the image, is written from the index
`k = 16`, so the reads `vectorData[16]`, `vectorData[17]`, `vectorData[18]` (and
`vectorData[19]`) lie beyond the buffer, and the colour written is whatever the
memory behind the vector holds. -/
theorem fullPage_reads_beyond_buffer :
    sampleSource.bytes.length = 4 * (3 - 1) * (3 - 1) ∧
    (compositeFullPage sampleSource 1 3 1 3 sampleImage).pixel 1 1 = colourAt sampleSource 16 ∧
    ∀ g : Int → Nat,
      (compositeFullPage ⟨sampleSource.bytes, g⟩ 1 3 1 3 sampleImage).pixel 1 1 =
        qRgb (g 16) (g 17) (g 18) := by
  refine ⟨by decide, by decide, ?_⟩
  intro g
  rw [compositeFullPage_pixel, if_pos (by decide)]
  simp [colourAt, VectorData.read, QColor_rgb, sampleSource]

theorem tileIndex_inside_page (rMax aMin aMax : IVec2) (x y : Int)
    (h0 : 0 ≤ aMin.x) (h1 : aMin.x ≤ aMax.x) (h2 : aMax.x ≤ rMax.x)
    (h3 : aMax.y - 1 ≤ rMax.y) :
    tileIndex rMax aMin aMax x y =
      4 * ((aMax.y - 1 - y) * (aMax.x - aMin.x) + (x - aMin.x)) := by
  unfold tileIndex clipCount
  have e1 : min rMax.y (aMax.y - 1) = aMax.y - 1 := by omega
  have e2 : max 0 (min rMax.x aMax.x - max 0 aMin.x) = aMax.x - aMin.x := by omega
  have e3 : max 0 aMin.x = aMin.x := by omega
  rw [e1, e2, e3]

theorem imageOverlay_wide_tile (img : QImage) :
    imageOverlay ⟨4, 4, true, ⟨0, 0, 1, 1⟩⟩ wideBound wideSource img =
      compositeTile wideSource ⟨4, 4⟩ ⟨0, 0⟩ ⟨4, 4⟩ ⟨2, 1⟩ ⟨6, 3⟩ img := by
  norm_num [imageOverlay, annotationPixelRect, toInt, wideBound]

/-- C25, evaluated on a 4 × 4 page, the tile being the whole page, with an
annotation whose pixel rectangle `(2, 1)`-`(6, 3)` sticks out of the page on the
right (`imageWidth = 4`, `imageHeight = 2`, a source of 32 bytes): the page
coordinate `(2, 1)`, column 0 of source row `3 - 1 - 1 = 1`, should be written
from the byte index `4 * (1 * 4 + 0) = 16`, but the running index is 8 there,
because the loop counts only the two annotation columns inside the page in
each row. -/
theorem tile_index_misaligned_beyond_page :
    annotationPixelRect ⟨4, 4, true, ⟨0, 0, 1, 1⟩⟩ wideBound = (2, 6, 1, 3) ∧
    (imageOverlay ⟨4, 4, true, ⟨0, 0, 1, 1⟩⟩ wideBound wideSource sampleImage).pixel 2 1 =
      colourAt wideSource 8 ∧
    colourAt wideSource 8 = qRgb 8 9 10 ∧
    colourAt wideSource (4 * ((3 - 1 - 1) * (6 - 2) + (2 - 2))) = qRgb 16 17 18 ∧
    (imageOverlay ⟨4, 4, true, ⟨0, 0, 1, 1⟩⟩ wideBound wideSource sampleImage).pixel 2 1 ≠
      colourAt wideSource (4 * ((3 - 1 - 1) * (6 - 2) + (2 - 2))) := by
  have h1 : (compositeTile wideSource ⟨4, 4⟩ ⟨0, 0⟩ ⟨4, 4⟩ ⟨2, 1⟩ ⟨6, 3⟩ sampleImage).pixel 2 1 =
      colourAt wideSource 8 := by decide
  rw [imageOverlay_wide_tile]
  refine ⟨?_, h1, by decide, by decide, ?_⟩
  · norm_num [annotationPixelRect, toInt, wideBound]
  · rw [h1]
    decide

/-! ## Channels of a written pixel -/

theorem colourAt_channels (v : VectorData) (k : Int) :
    qRed (colourAt v k) = v.read (k + 0) % 256 ∧
    qGreen (colourAt v k) = v.read (k + 1) % 256 ∧
    qBlue (colourAt v k) = v.read (k + 2) % 256 ∧
    qAlpha (colourAt v k) = 255 := by
  unfold colourAt QColor_rgb qRgb qRed qGreen qBlue qAlpha
  refine ⟨by omega, by omega, by omega, by omega⟩

/-- C26 as stated does not hold: on the 4 × 4 page with the annotation
rectangle `(1, 1)`-`(3, 3)`, the pixel `(1, 2)` is written in both modes, in
full-page mode from the source pixel at index 8 and in tile mode from the one
at index 0; the alpha bytes of these source pixels are 33 and 13, but the alpha
channel of the written pixel is 255 both times. -/
theorem written_pixel_alpha_not_from_source :
    (imageOverlay ⟨4, 4, false, ⟨0, 0, 1, 1⟩⟩ sampleBound sampleSource sampleImage).pixel 1 2 =
      colourAt sampleSource 8 ∧
    sampleSource.read (8 + 3) = 33 ∧
    qAlpha ((imageOverlay ⟨4, 4, false, ⟨0, 0, 1, 1⟩⟩ sampleBound sampleSource
      sampleImage).pixel 1 2) = 255 ∧
    (imageOverlay ⟨4, 4, true, ⟨0, 0, 1, 1⟩⟩ sampleBound sampleSource sampleImage).pixel 1 2 =
      colourAt sampleSource 0 ∧
    sampleSource.read (0 + 3) = 13 ∧
    qAlpha ((imageOverlay ⟨4, 4, true, ⟨0, 0, 1, 1⟩⟩ sampleBound sampleSource
      sampleImage).pixel 1 2) = 255 := by
  have h1 : (compositeFullPage sampleSource 1 3 1 3 sampleImage).pixel 1 2 =
      colourAt sampleSource 8 := by decide
  have h2 : (compositeTile sampleSource ⟨4, 4⟩ ⟨0, 0⟩ ⟨4, 4⟩ ⟨1, 1⟩ ⟨3, 3⟩ sampleImage).pixel 1 2 =
      colourAt sampleSource 0 := by decide
  rw [imageOverlay_sample_fullPage, imageOverlay_sample_tile, h1, h2]
  exact ⟨rfl, by decide, (colourAt_channels _ _).2.2.2, rfl, by decide,
    (colourAt_channels _ _).2.2.2⟩

/-- C26, amended: each destination pixel written by the compositor, in
full-page or in tile mode, carries the red, green and blue channel of its
source pixel, from the source bytes 0, 1, 2 at the source index of the pixel,
and is opaque: its alpha channel is 255 whatever the source byte 3 is. -/
theorem written_pixel_rgb_full_alpha (v : VectorData) (xMin xMax yMin yMax : Int)
    (rMax tMin tMax aMin aMax : IVec2) (w h x y : Int) (pix : Int → Int → Nat)
    (hin : 0 ≤ x ∧ x < w ∧ 0 ≤ y ∧ y < h) :
    (xMin ≤ x ∧ x < xMax ∧ yMin ≤ y ∧ y ≤ yMax →
      qRed ((compositeFullPage v xMin xMax yMin yMax ⟨w, h, pix⟩).pixel x y) =
        v.read (4 * ((yMax - y) * (xMax - xMin) + (x - xMin)) + 0) % 256 ∧
      qGreen ((compositeFullPage v xMin xMax yMin yMax ⟨w, h, pix⟩).pixel x y) =
        v.read (4 * ((yMax - y) * (xMax - xMin) + (x - xMin)) + 1) % 256 ∧
      qBlue ((compositeFullPage v xMin xMax yMin yMax ⟨w, h, pix⟩).pixel x y) =
        v.read (4 * ((yMax - y) * (xMax - xMin) + (x - xMin)) + 2) % 256 ∧
      qAlpha ((compositeFullPage v xMin xMax yMin yMax ⟨w, h, pix⟩).pixel x y) = 255) ∧
    ((0 ≤ x + tMin.x ∧ x + tMin.x < rMax.x ∧ 0 ≤ y + tMin.y ∧ y + tMin.y ≤ rMax.y) ∧
        inRect tMin tMax (x + tMin.x) (y + tMin.y) ∧ inRect aMin aMax (x + tMin.x) (y + tMin.y) →
      qRed ((compositeTile v rMax tMin tMax aMin aMax ⟨w, h, pix⟩).pixel x y) =
        v.read (tileIndex rMax aMin aMax (x + tMin.x) (y + tMin.y) + 0) % 256 ∧
      qGreen ((compositeTile v rMax tMin tMax aMin aMax ⟨w, h, pix⟩).pixel x y) =
        v.read (tileIndex rMax aMin aMax (x + tMin.x) (y + tMin.y) + 1) % 256 ∧
      qBlue ((compositeTile v rMax tMin tMax aMin aMax ⟨w, h, pix⟩).pixel x y) =
        v.read (tileIndex rMax aMin aMax (x + tMin.x) (y + tMin.y) + 2) % 256 ∧
      qAlpha ((compositeTile v rMax tMin tMax aMin aMax ⟨w, h, pix⟩).pixel x y) = 255) := by
  constructor
  · intro hr
    rw [fullPage_written v xMin xMax yMin yMax w h x y ⟨hr.1, hr.2.1⟩ ⟨hr.2.2.1, hr.2.2.2⟩
      hin pix]
    exact colourAt_channels _ _
  · intro hr
    rw [compositeTile_pixel, if_pos ⟨hr.1, hr.2.1, hr.2.2, hin⟩]
    exact colourAt_channels _ _

/-- C26, amended, at a concrete input: the pixel `(1, 2)` of a 4 × 4
destination in full-page mode, annotation rectangle `(1, 1)`-`(3, 3)`; its
source index is `4 * ((3 - 2) * (3 - 1) + (1 - 1)) = 8`. -/
theorem written_pixel_rgb_full_alpha_sample :
    qRed ((compositeFullPage sampleSource 1 3 1 3 ⟨4, 4, fun _ _ => 0⟩).pixel 1 2) =
      sampleSource.read (4 * ((3 - 2) * (3 - 1) + (1 - 1)) + 0) % 256 ∧
    qGreen ((compositeFullPage sampleSource 1 3 1 3 ⟨4, 4, fun _ _ => 0⟩).pixel 1 2) =
      sampleSource.read (4 * ((3 - 2) * (3 - 1) + (1 - 1)) + 1) % 256 ∧
    qBlue ((compositeFullPage sampleSource 1 3 1 3 ⟨4, 4, fun _ _ => 0⟩).pixel 1 2) =
      sampleSource.read (4 * ((3 - 2) * (3 - 1) + (1 - 1)) + 2) % 256 ∧
    qAlpha ((compositeFullPage sampleSource 1 3 1 3 ⟨4, 4, fun _ _ => 0⟩).pixel 1 2) = 255 :=
  (written_pixel_rgb_full_alpha sampleSource 1 3 1 3 ⟨4, 4⟩ ⟨0, 0⟩ ⟨4, 4⟩ ⟨1, 1⟩ ⟨3, 3⟩ 4 4 1 2
    (fun _ _ => 0) ⟨by decide, by decide, by decide, by decide⟩).1
    ⟨by decide, by decide, by decide, by decide⟩

/-! ## Pan offsets of the frustum -/

section Pan

variable {F : Type} [LinearOrderedField F]

/-- C30: the pan offsets of the frustum do not depend on the zoom. For every
zoom other than 0, `setDimensions` yields the x-range `-rAspect - X0` to
`rAspect - X0` and the y-range `-r - Y0` to `r - Y0` with
`X0 = 2 * H * (width / height) * (X / width + viewportShift.x)` and
`Y0 = 2 * H * (Y / height + viewportShift.y)`, in which the zoom does not occur,
and with `r = H / zoom`, `rAspect = r * (width / height)`: the x-extent is
`2 * H * (width / height) / zoom`, the y-extent `2 * H / zoom`, and with zero
shift and zero viewport shift both ranges are symmetric about 0. -/
theorem pan_offsets_independent_of_zoom (hdr : HeaderInfo F) (width height X Y : F)
    (s : PDFGenerator F) (hz : s.m_Zoom ≠ 0) :
    (setDimensions hdr width height X Y s).m_ViewParam.minValues.x =
      -(s.m_H / s.m_Zoom * (width / height)) -
        2 * s.m_H * (width / height) * (X / width + hdr.viewportShift.x) ∧
    (setDimensions hdr width height X Y s).m_ViewParam.maxValues.x =
      s.m_H / s.m_Zoom * (width / height) -
        2 * s.m_H * (width / height) * (X / width + hdr.viewportShift.x) ∧
    (setDimensions hdr width height X Y s).m_ViewParam.minValues.y =
      -(s.m_H / s.m_Zoom) - 2 * s.m_H * (Y / height + hdr.viewportShift.y) ∧
    (setDimensions hdr width height X Y s).m_ViewParam.maxValues.y =
      s.m_H / s.m_Zoom - 2 * s.m_H * (Y / height + hdr.viewportShift.y) ∧
    (setDimensions hdr width height X Y s).m_ViewParam.maxValues.x -
        (setDimensions hdr width height X Y s).m_ViewParam.minValues.x =
      2 * s.m_H * (width / height) / s.m_Zoom ∧
    (setDimensions hdr width height X Y s).m_ViewParam.maxValues.y -
        (setDimensions hdr width height X Y s).m_ViewParam.minValues.y =
      2 * s.m_H / s.m_Zoom ∧
    (X = 0 → Y = 0 → hdr.viewportShift.x = 0 → hdr.viewportShift.y = 0 →
      (setDimensions hdr width height X Y s).m_ViewParam.minValues.x =
        -(setDimensions hdr width height X Y s).m_ViewParam.maxValues.x ∧
      (setDimensions hdr width height X Y s).m_ViewParam.minValues.y =
        -(setDimensions hdr width height X Y s).m_ViewParam.maxValues.y) := by
  simp only [setDimensions]
  refine ⟨?_, ?_, ?_, ?_, ?_, ?_, ?_⟩
  · generalize width / height = A
    generalize X / width = B
    field_simp
    ring
  · generalize width / height = A
    generalize X / width = B
    field_simp
    ring
  · generalize Y / height = C
    field_simp
    ring
  · generalize Y / height = C
    field_simp
    ring
  · generalize width / height = A
    generalize X / width = B
    field_simp
    ring
  · generalize Y / height = C
    field_simp
    ring
  · intro hX hY hvx hvy
    rw [hX, hY, hvx, hvy]
    constructor <;> ring

end Pan

/-- C30 at a concrete input: a page view of 800 × 600, `H = 3`, zoom 2, the
shift `(40, 30)` and the viewport shift `(1 / 4, 0)`: the x-range is
`-2 - 2.4` to `2 - 2.4`. -/
theorem pan_offsets_independent_of_zoom_sample :
    (setDimensions (⟨1, ⟨-1, -1, -1⟩, ⟨1, 1, 1⟩, 1, 2, 1, ⟨1 / 4, 0⟩⟩ : HeaderInfo ℚ) 800 600 40 30
        { PDFGenerator.constructed (800 : ℚ) 600 with m_Zoom := 2, m_H := 3 }).m_ViewParam.minValues.x =
      -((3 : ℚ) / 2 * (800 / 600)) - 2 * 3 * (800 / 600) * (40 / 800 + 1 / 4) :=
  (pan_offsets_independent_of_zoom ⟨1, ⟨-1, -1, -1⟩, ⟨1, 1, 1⟩, 1, 2, 1, ⟨1 / 4, 0⟩⟩ 800 600 40 30
    { PDFGenerator.constructed (800 : ℚ) 600 with m_Zoom := 2, m_H := 3 }
    (by norm_num [PDFGenerator.constructed])).1

/-! ## Scene cache, failed decompression -/

section RenderPass

variable {F : Type} [LinearOrderedField F]

/-- C24, amended: when the compressed asset bytes are corrupt, so that
`gzip::decompress` throws, the exception leaves `image`: the render pass returns
no page image at all, whether the cache is filled or not, and a run of passes
ends there. -/
theorem decompression_failure_propagates (lib : LibM F) (scene : SceneLib F)
    (beyond : Int → Nat) (request : PixmapRequest) (bound : RectF) (fileData : List Nat)
    (st : GeneratorState F) (img : QImage) (e : String)
    (hcorrupt : scene.decompress fileData = Except.error e) :
    imageAsset lib scene beyond request bound fileData st img = Except.error e ∧
    (∀ st' img', imageAsset lib scene beyond request bound fileData st img ≠
      Except.ok (st', img')) ∧
    ∀ passes, imagePasses lib scene beyond ((request, bound, fileData, img) :: passes) st =
      Except.error e := by
  have h : imageAsset lib scene beyond request bound fileData st img = Except.error e := by
    unfold imageAsset
    rw [hcorrupt]
  refine ⟨h, ?_, ?_⟩
  · intro st' img' h'
    rw [h] at h'
    simp at h'
  · intro passes
    simp only [imagePasses, h]

end RenderPass

/-- C24 as stated does not hold: with a decompressor that rejects the bytes
`00 01 02` (they do not start with the gzip magic bytes), the render pass for
an asset with these bytes ends with the exception of the decompressor; it does
not return the base page image. -/
theorem corrupt_asset_aborts_render :
    sampleScene.decompress [0, 1, 2] = Except.error "incorrect header check" ∧
    imageAsset ⟨fun x => x, fun x => x, fun x => x, fun x _ => x⟩ sampleScene (fun _ => 0)
        ⟨4, 4, false, ⟨0, 0, 1, 1⟩⟩ sampleBound [0, 1, 2]
        ⟨PDFGenerator.constructed (800 : ℚ) 600, none⟩ sampleImage =
      Except.error "incorrect header check" ∧
    ¬ ∃ st', imageAsset ⟨fun x => x, fun x => x, fun x => x, fun x _ => x⟩ sampleScene
        (fun _ => 0) ⟨4, 4, false, ⟨0, 0, 1, 1⟩⟩ sampleBound [0, 1, 2]
        ⟨PDFGenerator.constructed (800 : ℚ) 600, none⟩ sampleImage =
      Except.ok (st', sampleImage) := by
  have h0 : sampleScene.decompress [0, 1, 2] = Except.error "incorrect header check" := by
    simp [sampleScene]
  have h : imageAsset ⟨fun x => x, fun x => x, fun x => x, fun x _ => x⟩ sampleScene (fun _ => 0)
        ⟨4, 4, false, ⟨0, 0, 1, 1⟩⟩ sampleBound [0, 1, 2]
        ⟨PDFGenerator.constructed (800 : ℚ) 600, none⟩ sampleImage =
      Except.error "incorrect header check" := by
    unfold imageAsset
    rw [h0]
  refine ⟨h0, h, ?_⟩
  rintro ⟨st', h'⟩
  rw [h] at h'
  simp at h'

/-- C24, amended, at a concrete input: the bytes `00 01 02` on the 4 × 4 page. -/
theorem decompression_failure_propagates_sample :
    imageAsset ⟨fun x => x, fun x => x, fun x => x, fun x _ => x⟩ sampleScene (fun _ => 0)
        ⟨4, 4, false, ⟨0, 0, 1, 1⟩⟩ sampleBound [0, 1, 2]
        ⟨PDFGenerator.constructed (800 : ℚ) 600, none⟩ sampleImage =
      Except.error "incorrect header check" :=
  (decompression_failure_propagates ⟨fun x => x, fun x => x, fun x => x, fun x _ => x⟩
    sampleScene (fun _ => 0) ⟨4, 4, false, ⟨0, 0, 1, 1⟩⟩ sampleBound [0, 1, 2]
    ⟨PDFGenerator.constructed (800 : ℚ) 600, none⟩ sampleImage "incorrect header check"
    (by simp [sampleScene])).1

/-! ## Path independence of a zoom drag -/

section ZoomPathFrame

variable {F : Type}

theorem requestPixmapRefresh_frame_pointer (now nowAfter : ℚ) (s : PDFGenerator F) :
    (requestPixmapRefresh now nowAfter s).m_LastMousePosition = s.m_LastMousePosition ∧
    (requestPixmapRefresh now nowAfter s).m_MouseDown = s.m_MouseDown ∧
    (requestPixmapRefresh now nowAfter s).m_DragMode = s.m_DragMode ∧
    (requestPixmapRefresh now nowAfter s).m_PageViewDimensions = s.m_PageViewDimensions ∧
    (requestPixmapRefresh now nowAfter s).m_Zoom = s.m_Zoom := by
  unfold requestPixmapRefresh refreshPixmap
  simp only
  split
  · split <;> exact ⟨rfl, rfl, rfl, rfl, rfl⟩
  · exact ⟨rfl, rfl, rfl, rfl, rfl⟩

end ZoomPathFrame

section ZoomPath

variable {F : Type} [LinearOrderedField F]

theorem stepPower_pixels (zoomStep height : F) (hh : height ≠ 0) (last cur : Int) :
    zoomStep * (height / 2) *
        (((last : F) - height / 2) / (height / 2) - ((cur : F) - height / 2) / (height / 2)) =
      zoomStep * ((last : F) - (cur : F)) := by
  field_simp
  ring

theorem mouseMoveEvent_zoom_unclamped (lib : LibM F) (glm : Glm F) (hdr : HeaderInfo F)
    (pos : IVec2) (now nowAfter : ℚ) (s : PDFGenerator F)
    (hd : s.m_MouseDown = true) (hm : s.m_DragMode = DragMode.ZOOM)
    (hh : s.m_PageViewDimensions.y ≠ 0)
    (hu : zoomUnclamped lib hdr (normalizedPosition s.m_PageViewDimensions pos)
      (normalizedPosition s.m_PageViewDimensions s.m_LastMousePosition) s) :
    (mouseMoveEvent lib glm hdr pos now nowAfter s).m_Zoom =
      s.m_Zoom * lib.pow hdr.zoomFactor
        (hdr.zoomStep * ((s.m_LastMousePosition.y : F) - (pos.y : F))) ∧
    (mouseMoveEvent lib glm hdr pos now nowAfter s).m_LastMousePosition = pos ∧
    (mouseMoveEvent lib glm hdr pos now nowAfter s).m_MouseDown = true ∧
    (mouseMoveEvent lib glm hdr pos now nowAfter s).m_DragMode = DragMode.ZOOM ∧
    (mouseMoveEvent lib glm hdr pos now nowAfter s).m_PageViewDimensions =
      s.m_PageViewDimensions := by
  obtain ⟨hg, hlo, hhi⟩ := hu
  unfold zoomGuard at hg
  simp only [normalizedPosition] at hg hlo hhi
  simp only [mouseMoveEvent, hd, hm, Bool.true_eq_false, if_false]
  simp only [(requestPixmapRefresh_frame_pointer _ _ _).1,
    (requestPixmapRefresh_frame_pointer _ _ _).2.1,
    (requestPixmapRefresh_frame_pointer _ _ _).2.2.1,
    (requestPixmapRefresh_frame_pointer _ _ _).2.2.2.1,
    (requestPixmapRefresh_frame_pointer _ _ _).2.2.2.2]
  unfold dragModeZoom
  simp only [if_pos hg, if_neg (not_le.mpr hlo), if_neg (not_le.mpr hhi)]
  refine ⟨?_, rfl, rfl, rfl, rfl⟩
  show s.m_Zoom * lib.pow hdr.zoomFactor _ = _
  rw [stepPower_pixels _ _ hh]

end ZoomPath

theorem pointerMoves_zoom_real (glm : Glm ℝ) (hdr : HeaderInfo ℝ) (hzf : 0 < hdr.zoomFactor)
    (moves : List (IVec2 × ℚ × ℚ)) :
    ∀ s : PDFGenerator ℝ, s.m_MouseDown = true → s.m_DragMode = DragMode.ZOOM →
      s.m_PageViewDimensions.y ≠ 0 →
      movesUnclamped ⟨Real.tan, Real.log, Real.sqrt, fun x y => x ^ y⟩ glm hdr moves s →
      (pointerMoves ⟨Real.tan, Real.log, Real.sqrt, fun x y => x ^ y⟩ glm hdr moves s).m_Zoom =
        s.m_Zoom * hdr.zoomFactor ^ (hdr.zoomStep * ((s.m_LastMousePosition.y : ℝ) -
          ((((moves.map Prod.fst).getLastD s.m_LastMousePosition).y : Int) : ℝ))) ∧
      (pointerMoves ⟨Real.tan, Real.log, Real.sqrt, fun x y => x ^ y⟩ glm hdr moves
          s).m_LastMousePosition = (moves.map Prod.fst).getLastD s.m_LastMousePosition := by
  induction moves with
  | nil =>
    intro s _ _ _ _
    simp [pointerMoves]
  | cons e es ih =>
    intro s hd hm hh hu
    obtain ⟨hu1, hu2⟩ := hu
    obtain ⟨z1, l1, d1, m1, p1⟩ := mouseMoveEvent_zoom_unclamped
      ⟨Real.tan, Real.log, Real.sqrt, fun x y => x ^ y⟩ glm hdr e.1 e.2.1 e.2.2 s hd hm hh hu1
    obtain ⟨i1, i2⟩ := ih _ d1 m1 (by rw [p1]; exact hh) hu2
    simp only [pointerMoves, List.map_cons, List.getLastD_cons]
    rw [l1] at i1 i2
    refine ⟨?_, i2⟩
    rw [i1, z1, mul_assoc]
    show s.m_Zoom * (hdr.zoomFactor ^ _ * hdr.zoomFactor ^ _) = _
    rw [← Real.rpow_add hzf]
    congr 2
    ring

/-- C29: zoom dragging is path independent. Over the reals, with a positive
zoom factor and a page view of height other than 0, for every press in Idle
with Shift only (Zoom mode) and every run of pointer moves after it in which
each step passes the overflow guard and is not clamped, the zoom at the end is
`zoom0 * zoomFactor ^ (zoomStep * (yStart - yEnd))`, where `zoom0` is the zoom at
the press, `yStart` the pixel row of the pointer at the press and `yEnd` the
pixel row of the last move; neither the height of the page view nor an
intermediate position occurs in it, and a run that ends in the start row
restores the zoom. -/
theorem zoom_drag_path_independent (glm : Glm ℝ) (hdr : HeaderInfo ℝ)
    (moves : List (IVec2 × ℚ × ℚ)) (s0 : PDFGenerator ℝ)
    (hidle : s0.m_MouseDown = false) (hzf : 0 < hdr.zoomFactor)
    (hh : s0.m_PageViewDimensions.y ≠ 0)
    (hclean : movesUnclamped ⟨Real.tan, Real.log, Real.sqrt, fun x y => x ^ y⟩ glm hdr moves
      (mouseButtonPressEvent ⟨false, true, false⟩ s0)) :
    (pointerMoves ⟨Real.tan, Real.log, Real.sqrt, fun x y => x ^ y⟩ glm hdr moves
        (mouseButtonPressEvent ⟨false, true, false⟩ s0)).m_Zoom =
      s0.m_Zoom * hdr.zoomFactor ^ (hdr.zoomStep * ((s0.m_MousePosition.y : ℝ) -
        ((((moves.map Prod.fst).getLastD s0.m_MousePosition).y : Int) : ℝ))) ∧
    (((moves.map Prod.fst).getLastD s0.m_MousePosition).y = s0.m_MousePosition.y →
      (pointerMoves ⟨Real.tan, Real.log, Real.sqrt, fun x y => x ^ y⟩ glm hdr moves
        (mouseButtonPressEvent ⟨false, true, false⟩ s0)).m_Zoom = s0.m_Zoom) := by
  have hp : mouseButtonPressEvent ⟨false, true, false⟩ s0 =
      { s0 with m_LastMousePosition := ⟨s0.m_MousePosition.x, s0.m_MousePosition.y⟩,
                m_MouseDown := true, m_DragMode := DragMode.ZOOM } := by
    simp [mouseButtonPressEvent, hidle]
  have key := (pointerMoves_zoom_real glm hdr hzf moves
    (mouseButtonPressEvent ⟨false, true, false⟩ s0) (by rw [hp]) (by rw [hp])
    (by rw [hp]; exact hh) hclean).1
  have e1 : (mouseButtonPressEvent ⟨false, true, false⟩ s0).m_LastMousePosition =
      s0.m_MousePosition := by rw [hp]
  have e2 : (mouseButtonPressEvent ⟨false, true, false⟩ s0).m_Zoom = s0.m_Zoom := by rw [hp]
  rw [e1, e2] at key
  refine ⟨key, ?_⟩
  intro hback
  rw [key, hback, sub_self, mul_zero, Real.rpow_zero, mul_one]

theorem sqrt_FLOAT_MAX_gt_two : (2 : ℝ) < Real.sqrt FLOAT_MAX := by
  rw [Real.lt_sqrt (by norm_num)]
  norm_num [FLOAT_MAX]

theorem movesUnclamped_out_and_back :
    movesUnclamped ⟨Real.tan, Real.log, Real.sqrt, fun x y => x ^ y⟩
      ⟨fun m _ _ => m, fun _ _ => ⟨0, ⟨0, 0, 1⟩⟩⟩ (sampleHeader 1 1 2 1)
      [(⟨400, 299⟩, 1, 1), (⟨400, 300⟩, 2, 2)]
      (mouseButtonPressEvent ⟨false, true, false⟩
        { PDFGenerator.constructed (800 : ℝ) 600 with m_MousePosition := ⟨400, 300⟩ }) := by
  have hs := sqrt_FLOAT_MAX_gt_two
  have hl2 : 0 < Real.log 2 := Real.log_pos (by norm_num)
  have hl2' : Real.log 2 < 1 := by
    have := Real.log_two_lt_d9
    linarith
  have hL := log_tenth_FLOAT_MAX_bounds.1
  have hguard : (1 : ℝ) < Real.log (0.1 * FLOAT_MAX) / Real.log 2 := by
    rw [lt_div_iff₀ hl2]
    linarith
  have hinv : 1 / Real.sqrt FLOAT_MAX < 1 := by
    rw [div_lt_iff₀ (by linarith)]
    linarith
  have hp : mouseButtonPressEvent ⟨false, true, false⟩
      { PDFGenerator.constructed (800 : ℝ) 600 with m_MousePosition := ⟨400, 300⟩ } =
      { PDFGenerator.constructed (800 : ℝ) 600 with
        m_MousePosition := ⟨400, 300⟩, m_LastMousePosition := ⟨400, 300⟩,
        m_MouseDown := true, m_DragMode := DragMode.ZOOM } := by
    simp [mouseButtonPressEvent, PDFGenerator.constructed]
  rw [hp]
  have e1 : (1 : ℝ) * (600 / 2) * ((((300 : Int) : ℝ) - 600 / 2) / (600 / 2) -
      (((299 : Int) : ℝ) - 600 / 2) / (600 / 2)) = 1 := by norm_num
  have e2 : (1 : ℝ) * (600 / 2) * ((((299 : Int) : ℝ) - 600 / 2) / (600 / 2) -
      (((300 : Int) : ℝ) - 600 / 2) / (600 / 2)) = -1 := by norm_num
  have u1 : zoomUnclamped ⟨Real.tan, Real.log, Real.sqrt, fun x y => x ^ y⟩ (sampleHeader 1 1 2 1)
      (normalizedPosition (⟨800, 600⟩ : Vec2 ℝ) ⟨400, 299⟩)
      (normalizedPosition (⟨800, 600⟩ : Vec2 ℝ) ⟨400, 300⟩)
      { PDFGenerator.constructed (800 : ℝ) 600 with
        m_MousePosition := ⟨400, 300⟩, m_LastMousePosition := ⟨400, 300⟩,
        m_MouseDown := true, m_DragMode := DragMode.ZOOM } := by
    simp only [zoomUnclamped, zoomGuard, normalizedPosition, sampleHeader,
      PDFGenerator.constructed]
    rw [e1]
    simp only [abs_one, Real.rpow_one, one_mul]
    exact ⟨hguard, by linarith, hs⟩
  obtain ⟨z1, l1, d1, m1, p1⟩ := mouseMoveEvent_zoom_unclamped
    ⟨Real.tan, Real.log, Real.sqrt, fun x y => x ^ y⟩ ⟨fun m _ _ => m, fun _ _ => ⟨0, ⟨0, 0, 1⟩⟩⟩
    (sampleHeader 1 1 2 1) ⟨400, 299⟩ 1 1
    { PDFGenerator.constructed (800 : ℝ) 600 with
        m_MousePosition := ⟨400, 300⟩, m_LastMousePosition := ⟨400, 300⟩,
        m_MouseDown := true, m_DragMode := DragMode.ZOOM } rfl rfl
    (by norm_num [PDFGenerator.constructed]) u1
  have z1' : (mouseMoveEvent ⟨Real.tan, Real.log, Real.sqrt, fun x y => x ^ y⟩
      ⟨fun m _ _ => m, fun _ _ => ⟨0, ⟨0, 0, 1⟩⟩⟩ (sampleHeader 1 1 2 1) ⟨400, 299⟩ 1 1
      { PDFGenerator.constructed (800 : ℝ) 600 with
        m_MousePosition := ⟨400, 300⟩, m_LastMousePosition := ⟨400, 300⟩,
        m_MouseDown := true, m_DragMode := DragMode.ZOOM }).m_Zoom = 2 := by
    rw [z1]
    norm_num [sampleHeader, PDFGenerator.constructed]
  refine ⟨u1, ?_, trivial⟩
  simp only [zoomUnclamped, zoomGuard, z1', l1, p1]
  simp only [normalizedPosition, sampleHeader, PDFGenerator.constructed]
  rw [e2]
  have h21 : (2 : ℝ) * 2⁻¹ = 1 := by norm_num
  simp only [abs_neg, abs_one, Real.rpow_neg_one, h21]
  exact ⟨hguard, hinv, by linarith⟩

/-- C29 at a concrete input: zoom factor 2, zoom step 1, a page view of
800 × 600, a press with Shift only at pixel row 300 and zoom 1, a move to row
299 (the zoom becomes 2) and a move back to row 300: the zoom is 1 again. -/
theorem zoom_drag_path_independent_out_and_back :
    (pointerMoves ⟨Real.tan, Real.log, Real.sqrt, fun x y => x ^ y⟩
        ⟨fun m _ _ => m, fun _ _ => ⟨0, ⟨0, 0, 1⟩⟩⟩ (sampleHeader 1 1 2 1)
        [(⟨400, 299⟩, 1, 1), (⟨400, 300⟩, 2, 2)]
        (mouseButtonPressEvent ⟨false, true, false⟩
          { PDFGenerator.constructed (800 : ℝ) 600 with
            m_MousePosition := ⟨400, 300⟩ })).m_Zoom = 1 :=
  (zoom_drag_path_independent ⟨fun m _ _ => m, fun _ _ => ⟨0, ⟨0, 0, 1⟩⟩⟩ (sampleHeader 1 1 2 1)
    [(⟨400, 299⟩, 1, 1), (⟨400, 300⟩, 2, 2)]
    { PDFGenerator.constructed (800 : ℝ) 600 with m_MousePosition := ⟨400, 300⟩ }
    rfl (by norm_num [sampleHeader]) (by norm_num [PDFGenerator.constructed])
    movesUnclamped_out_and_back).2 rfl

/-! ## Fresh and stale matrices -/

section FreshFrame

variable {F : Type}

end FreshFrame

section Fresh

variable {F : Type} [LinearOrderedField F]

end Fresh

end Okular
